import Mathlib

/-!
# Scene manager and view manager of the 3D desk scene

A shallow embedding of `SceneManager.cpp` and `ViewManager.cpp`.

Conventions of the embedding:

* The `float` and `double` values of the scroll and mouse callbacks (`MovementSpeed`,
  `gLastX`, `gLastY`, the arguments and the offsets) are IEEE 754 values (`FP`): NaN, the
  infinities, and finite numbers rounded at every operation and narrowing. The other `float`
  values (vectors, angles, colours, frame times) are exact rationals (`ℚ`).
* A texture handle is a `GLuint`, a number below 2^32; its conversion to `int` wraps.
* `glm` is an external library; the matrices it builds are kept as symbolic terms (`Mat4`).
* Calls that leave the program (shader-manager uniform setters, mesh draws, texture binds)
  are appended to a trace, oldest call first.
* An operation that indexes outside an array or dereferences a null pointer has no defined
  result: it returns `none`.
-/

namespace Scene

/-! ## Data model -/

/-- Three-component vector (`glm::vec3`). -/
structure Vec3 where
  x : ℚ
  y : ℚ
  z : ℚ
deriving DecidableEq, Repr

/-- Componentwise sum of two vectors (`glm::vec3 operator+`). -/
def Vec3.add (a b : Vec3) : Vec3 := ⟨a.x + b.x, a.y + b.y, a.z + b.z⟩

instance : Add Vec3 := ⟨Vec3.add⟩

/-- An angle in radians, kept as the degrees it was converted from (`glm::radians`). -/
structure Radians where
  ofDegrees : ℚ
deriving DecidableEq, Repr

/-- Symbolic 4x4 matrices built by the `glm` calls of `SetTransformations`. -/
inductive Mat4 where
  | scale (v : Vec3)
  | rotate (angle : Radians) (axis : Vec3)
  | translate (v : Vec3)
  | mul (a b : Mat4)
deriving DecidableEq, Repr

/-- Entry of `m_objectMaterials` (the struct is declared in `SceneManager.h`; its four
fields are the ones `DefineObjectMaterials` and `FindMaterial` use). -/
structure OBJECT_MATERIAL where
  diffuseColor : Vec3
  specularColor : Vec3
  shininess : ℚ
  tag : String
deriving DecidableEq, Repr

/-- The value of type `GLuint`, an unsigned integer of 32 bits, to which an `int` converts:
the residue modulo 2^32. -/
def GLuint.ofInt (i : Int) : Nat := (i % 2 ^ 32).toNat

/-- The value of type `int` (32 bits, two's complement) to which a `GLuint` converts: the
value itself below 2^31, the value minus 2^32 from 2^31 on. -/
def GLuint.toInt (n : Nat) : Int :=
  if n % 2 ^ 32 < 2 ^ 31 then ((n % 2 ^ 32 : Nat) : Int) else ((n % 2 ^ 32 : Nat) : Int) - 2 ^ 32

/-- Entry of `m_textureIDs`: a tag and the GL texture handle registered under it. The
handle is a `GLuint` (`glGenTextures` writes through its address), kept as a natural
number. -/
structure TEXTURE_INFO where
  tag : String
  ID : Nat
deriving DecidableEq, Repr

/-- Mesh kinds of the external `ShapeMeshes` library. -/
inductive Mesh where
  | plane
  | box
  | cylinder
  | sphere
  | torus
deriving DecidableEq, Repr

/-- Value passed to one of the shader manager's uniform setters; `cosine a` is the float
`glm::cos(a)`, kept symbolic. -/
inductive UniformValue where
  | int (i : Int)
  | bool (b : Bool)
  | float (v : ℚ)
  | vec2 (u v : ℚ)
  | vec3 (v : Vec3)
  | vec4 (r g b a : ℚ)
  | mat4 (m : Mat4)
  | sampler2D (slot : Int)
  | cosine (angle : Radians)
deriving DecidableEq, Repr

/-- One call leaving the scene manager. -/
inductive GLCall where
  | setUniform (name : String) (value : UniformValue)
  | draw (mesh : Mesh)
  | glActiveTexture (unit : Nat)
  | glBindTexture (id : Nat)
deriving DecidableEq, Repr

/-- State of a `SceneManager` object together with the trace of the calls it has issued.
`m_pShaderManager` records whether the pointer is non-null. -/
structure SceneManager where
  m_pShaderManager : Bool
  m_textureIDs : List TEXTURE_INFO
  m_loadedTextures : Nat
  m_objectMaterials : List OBJECT_MATERIAL
  gl : List GLCall
deriving DecidableEq, Repr

/-- Modelled from the spec: the declaration `m_textureIDs[16]` of `SceneManager.h` is not
among the sources; the capacity is the 16 of the constructor's loop and of the spec. -/
def textureCapacity : Nat := 16

/-- The constructor `SceneManager::SceneManager`: every slot holds the tag "/0" and the
handle to which the assignment `ID = -1` converts, no texture is loaded, no material is
defined. -/
def SceneManager.new (pShaderManager : Bool) : SceneManager :=
  { m_pShaderManager := pShaderManager
    m_textureIDs := List.replicate textureCapacity ⟨"/0", GLuint.ofInt (-1)⟩
    m_loadedTextures := 0
    m_objectMaterials := []
    gl := [] }

/-- Appends calls to the trace. -/
def SceneManager.emit (s : SceneManager) (calls : List GLCall) : SceneManager :=
  { s with gl := s.gl ++ calls }

/-! ## Material registry -/

/-- The `while` loop of `FindMaterial`, from the current `index` on: the list is the part of
`m_objectMaterials` at positions `index, index+1, ...`. Returns the final `bFound` and the
final content of the output parameter. -/
def FindMaterial.loop (tag : String) :
    List OBJECT_MATERIAL → OBJECT_MATERIAL → Bool × OBJECT_MATERIAL
  | [], material => (false, material)
  | m :: rest, material =>
    if m.tag = tag then
      (true, { material with
                 diffuseColor := m.diffuseColor
                 specularColor := m.specularColor
                 shininess := m.shininess })
    else FindMaterial.loop tag rest material

/-- `SceneManager::FindMaterial`: the returned pair is the `bool` result and the content of
the reference parameter `material` after the call. The loop's `bFound` is not what is
returned: the function ends with `return(true)`. -/
def FindMaterial (tag : String) (material : OBJECT_MATERIAL) (s : SceneManager) :
    Bool × OBJECT_MATERIAL :=
  if s.m_objectMaterials.length = 0 then (false, material)
  else (true, (FindMaterial.loop tag s.m_objectMaterials material).2)

/-! ## Texture registry -/

/-- `SceneManager::CreateGLTexture`. `image` is the outcome of `stbi_load` (`none`: the file
could not be read; `some n`: decoded with `n` colour channels) and `textureID` the handle
`glGenTextures` hands out. The result is the returned `bool` and the state after the call;
it is `none` when the registration indexes `m_textureIDs` outside the array. -/
def CreateGLTexture (image : Option Int) (textureID : Nat) (tag : String)
    (s : SceneManager) : Option (Bool × SceneManager) :=
  match image with
  | some colorChannels =>
    let s1 := s.emit [GLCall.glBindTexture textureID]
    if colorChannels = 3 ∨ colorChannels = 4 then
      let s2 := s1.emit [GLCall.glBindTexture 0]
      if s2.m_loadedTextures < s2.m_textureIDs.length then
        some (true,
          { s2 with
              m_textureIDs := s2.m_textureIDs.set s2.m_loadedTextures ⟨tag, textureID⟩
              m_loadedTextures := s2.m_loadedTextures + 1 })
      else none
    else some (false, s1)
  | none => some (false, s)

/-- The `while` loop of `FindTextureID` at the current `index`; the first argument is
`m_loadedTextures - index`, so it is `0` exactly when the test `index < m_loadedTextures`
fails. The assignment `textureID = m_textureIDs[index].ID` converts the `GLuint` handle to
`int`. `none`: the loop reads `m_textureIDs` outside the array. -/
def FindTextureID.loop (s : SceneManager) (tag : String) : Nat → Nat → Option Int
  | 0, _ => some (-1)
  | k + 1, index =>
    match s.m_textureIDs[index]? with
    | none => none
    | some t =>
      if t.tag = tag then some (GLuint.toInt t.ID)
      else FindTextureID.loop s tag k (index + 1)

/-- `SceneManager::FindTextureID`. -/
def FindTextureID (tag : String) (s : SceneManager) : Option Int :=
  FindTextureID.loop s tag s.m_loadedTextures 0

/-- The `while` loop of `FindTextureSlot` at the current `index`; the first argument is
`m_loadedTextures - index`. `none`: the loop reads `m_textureIDs` outside the array. -/
def FindTextureSlot.loop (s : SceneManager) (tag : String) : Nat → Nat → Option Int
  | 0, _ => some (-1)
  | k + 1, index =>
    match s.m_textureIDs[index]? with
    | none => none
    | some t =>
      if t.tag = tag then some (index : Int)
      else FindTextureSlot.loop s tag k (index + 1)

/-- `SceneManager::FindTextureSlot`. -/
def FindTextureSlot (tag : String) (s : SceneManager) : Option Int :=
  FindTextureSlot.loop s tag s.m_loadedTextures 0

/-- Successive `CreateGLTexture` calls, each given by its decoder outcome, the handle GL
hands out and the tag; the result lists the returned values in call order. `none` as soon
as one call has no defined result. -/
def CreateGLTextures :
    List (Option Int × Nat × String) → SceneManager → Option (List Bool × SceneManager)
  | [], s => some ([], s)
  | (image, textureID, tag) :: rest, s =>
    match CreateGLTexture image textureID tag s with
    | none => none
    | some (b, s1) =>
      match CreateGLTextures rest s1 with
      | none => none
      | some (bs, s2) => some (b :: bs, s2)

/-- The `for` loop of `BindGLTextures` at index `i`; the first argument is
`m_loadedTextures - i`. `none`: the loop reads `m_textureIDs` outside the array. -/
def BindGLTextures.loop : Nat → Nat → SceneManager → Option SceneManager
  | 0, _, s => some s
  | k + 1, i, s =>
    match s.m_textureIDs[i]? with
    | none => none
    | some t =>
      BindGLTextures.loop k (i + 1)
        (s.emit [GLCall.glActiveTexture i, GLCall.glBindTexture t.ID])

/-- `SceneManager::BindGLTextures`; `glActiveTexture i` stands for the call with
`GL_TEXTURE0 + i`. -/
def BindGLTextures (s : SceneManager) : Option SceneManager :=
  BindGLTextures.loop s.m_loadedTextures 0 s

/-! ## Shader-state pipeline -/

/-- Modelled from the spec: the default value of the parameter `offset` of
`SetTransformations`, declared in `SceneManager.h` (not among the sources); the spec gives
`offset=0`. -/
def defaultOffset : Vec3 := ⟨0, 0, 0⟩

/-- `SceneManager::SetTransformations`. -/
def SetTransformations (scaleXYZ : Vec3) (XrotationDegrees YrotationDegrees
    ZrotationDegrees : ℚ) (positionXYZ offset : Vec3) (s : SceneManager) : SceneManager :=
  let scale := Mat4.scale scaleXYZ
  let rotationX := Mat4.rotate ⟨XrotationDegrees⟩ ⟨1, 0, 0⟩
  let rotationY := Mat4.rotate ⟨YrotationDegrees⟩ ⟨0, 1, 0⟩
  let rotationZ := Mat4.rotate ⟨ZrotationDegrees⟩ ⟨0, 0, 1⟩
  let translation := Mat4.translate (positionXYZ + offset)
  let modelView :=
    Mat4.mul (Mat4.mul (Mat4.mul (Mat4.mul translation rotationZ) rotationY) rotationX) scale
  if s.m_pShaderManager then
    s.emit [GLCall.setUniform "model" (UniformValue.mat4 modelView)]
  else s

/-- `SceneManager::SetShaderColor`. -/
def SetShaderColor (redColorValue greenColorValue blueColorValue alphaValue : ℚ)
    (s : SceneManager) : SceneManager :=
  if s.m_pShaderManager then
    s.emit
      [GLCall.setUniform "bUseTexture" (UniformValue.int 0),
       GLCall.setUniform "objectColor"
         (UniformValue.vec4 redColorValue greenColorValue blueColorValue alphaValue)]
  else s

/-- `SceneManager::SetShaderTexture`. -/
def SetShaderTexture (textureTag : String) (s : SceneManager) : Option SceneManager :=
  if s.m_pShaderManager then
    let s1 := s.emit [GLCall.setUniform "bUseTexture" (UniformValue.int 1)]
    match FindTextureSlot textureTag s1 with
    | none => none
    | some textureID =>
      some (s1.emit [GLCall.setUniform "objectTexture" (UniformValue.sampler2D textureID)])
  else some s

/-- `SceneManager::SetTextureUVScale`. -/
def SetTextureUVScale (u v : ℚ) (s : SceneManager) : SceneManager :=
  if s.m_pShaderManager then
    s.emit [GLCall.setUniform "UVscale" (UniformValue.vec2 u v)]
  else s

/-- `SceneManager::SetShaderMaterial`. `material` is the content of the local variable
`material`, which the source declares without initialising it. `none`: the uniforms are
pushed through a null `m_pShaderManager`. -/
def SetShaderMaterial (materialTag : String) (material : OBJECT_MATERIAL)
    (s : SceneManager) : Option SceneManager :=
  if s.m_objectMaterials.length > 0 then
    let r := FindMaterial materialTag material s
    let bReturn := r.1
    let material := r.2
    if bReturn = true then
      if s.m_pShaderManager then
        some (s.emit
          [GLCall.setUniform "material.diffuseColor" (UniformValue.vec3 material.diffuseColor),
           GLCall.setUniform "material.specularColor" (UniformValue.vec3 material.specularColor),
           GLCall.setUniform "material.shininess" (UniformValue.float material.shininess)])
      else none
    else some s
  else some s

/-- A draw call of the mesh library (`m_basicMeshes->Draw...Mesh()`). -/
def DrawMesh (mesh : Mesh) (s : SceneManager) : SceneManager :=
  s.emit [GLCall.draw mesh]

/-- `SceneManager::SetupSceneLights`. -/
def SetupSceneLights (s : SceneManager) : SceneManager :=
  if s.m_pShaderManager then
    let s := s.emit [GLCall.setUniform "bUseLighting" (UniformValue.bool true)]
    let s := s.emit
      [GLCall.setUniform "directionalLight.direction" (UniformValue.vec3 ⟨-0.2, -1.0, -0.3⟩),
       GLCall.setUniform "directionalLight.ambient" (UniformValue.vec3 ⟨0.5, 0.5, 0.5⟩),
       GLCall.setUniform "directionalLight.diffuse" (UniformValue.vec3 ⟨1.0, 1.0, 1.0⟩),
       GLCall.setUniform "directionalLight.specular" (UniformValue.vec3 ⟨1.0, 1.0, 1.0⟩),
       GLCall.setUniform "directionalLight.bActive" (UniformValue.bool true)]
    let s := s.emit
      [GLCall.setUniform "pointLights[0].position" (UniformValue.vec3 ⟨0.0, 5.0, 0.0⟩),
       GLCall.setUniform "pointLights[0].ambient" (UniformValue.vec3 ⟨0.3, 0.3, 0.3⟩),
       GLCall.setUniform "pointLights[0].diffuse" (UniformValue.vec3 ⟨1.0, 1.0, 1.0⟩),
       GLCall.setUniform "pointLights[0].specular" (UniformValue.vec3 ⟨1.0, 1.0, 1.0⟩),
       GLCall.setUniform "pointLights[0].bActive" (UniformValue.bool true)]
    let s := (List.range' 1 4).foldl
      (fun s i => s.emit
        [GLCall.setUniform ("pointLights[" ++ toString i ++ "].bActive")
          (UniformValue.bool false)]) s
    let s := s.emit
      [GLCall.setUniform "pointLights[1].position" (UniformValue.vec3 ⟨5.0, 3.0, 5.0⟩),
       GLCall.setUniform "pointLights[1].ambient" (UniformValue.vec3 ⟨0.3, 0.3, 0.3⟩),
       GLCall.setUniform "pointLights[1].diffuse" (UniformValue.vec3 ⟨1.0, 1.0, 1.0⟩),
       GLCall.setUniform "pointLights[1].specular" (UniformValue.vec3 ⟨1.0, 1.0, 1.0⟩),
       GLCall.setUniform "pointLights[1].bActive" (UniformValue.bool true)]
    let s := s.emit
      [GLCall.setUniform "spotLight.position" (UniformValue.vec3 ⟨0.0, 4.0, 5.0⟩),
       GLCall.setUniform "spotLight.direction" (UniformValue.vec3 ⟨0.0, -1.0, -1.0⟩),
       GLCall.setUniform "spotLight.cutOff" (UniformValue.cosine ⟨20.0⟩),
       GLCall.setUniform "spotLight.outerCutOff" (UniformValue.cosine ⟨25.0⟩),
       GLCall.setUniform "spotLight.ambient" (UniformValue.vec3 ⟨0.2, 0.2, 0.2⟩),
       GLCall.setUniform "spotLight.diffuse" (UniformValue.vec3 ⟨1.0, 1.0, 1.0⟩),
       GLCall.setUniform "spotLight.specular" (UniformValue.vec3 ⟨1.0, 1.0, 1.0⟩),
       GLCall.setUniform "spotLight.bActive" (UniformValue.bool true)]
    s
  else s

/-- The file name and the tag of the eleven `CreateGLTexture` calls of `LoadSceneTextures`,
in call order. -/
def LoadSceneTextures.files : List (String × String) :=
  [("../textures/K_.jpg", "T"), ("../textures/R_.jpg", "M"), ("../textures/R_.jpg", "S"),
   ("../textures/I_.jpg", "B"), ("../textures/A_.png", "F"), ("../textures/M.jpg", "br"),
   ("../textures/M_.jpg", "FLO"), ("../textures/P_.jpg", "N"), ("../textures/E_.jpg", "H"),
   ("../textures/L_.png", "I"), ("../textures/Y_.png", "u")]

/-- `SceneManager::LoadSceneTextures`. `io k` is what the outside gives call number `k`:
the outcome of `stbi_load` and the handle of `glGenTextures`. The value each call returns
is assigned to `bReturn` and not looked at. `none`: a call indexes `m_textureIDs` outside
the array. -/
def LoadSceneTextures (io : Nat → Option Int × Nat) (s : SceneManager) :
    Option SceneManager :=
  match CreateGLTextures
      (LoadSceneTextures.files.enum.map fun f => ((io f.1).1, (io f.1).2, f.2.2)) s with
  | none => none
  | some r => BindGLTextures r.2

/-- The local `goldMaterial` of `DefineObjectMaterials`. -/
def DefineObjectMaterials.goldMaterial : OBJECT_MATERIAL :=
  { diffuseColor := ⟨0.4, 0.4, 0.4⟩, specularColor := ⟨0.7, 0.7, 0.6⟩, shininess := 52.0,
    tag := "metal" }

/-- The local `woodMaterial` of `DefineObjectMaterials`. -/
def DefineObjectMaterials.woodMaterial : OBJECT_MATERIAL :=
  { diffuseColor := ⟨0.2, 0.2, 0.3⟩, specularColor := ⟨0.0, 0.0, 0.0⟩, shininess := 0.1,
    tag := "wood" }

/-- The local `glassMaterial` of `DefineObjectMaterials`. -/
def DefineObjectMaterials.glassMaterial : OBJECT_MATERIAL :=
  { diffuseColor := ⟨0.2, 0.2, 0.2⟩, specularColor := ⟨1.0, 1.0, 1.0⟩, shininess := 95.0,
    tag := "glass" }

/-- The local `plateMaterial` of `DefineObjectMaterials`. -/
def DefineObjectMaterials.plateMaterial : OBJECT_MATERIAL :=
  { diffuseColor := ⟨0.4, 0.4, 0.4⟩, specularColor := ⟨0.2, 0.2, 0.2⟩, shininess := 30.0,
    tag := "plate" }

/-- The local `fabricMaterial` of `DefineObjectMaterials`. -/
def DefineObjectMaterials.fabricMaterial : OBJECT_MATERIAL :=
  { diffuseColor := ⟨0.6, 0.3, 0.2⟩, specularColor := ⟨0.1, 0.1, 0.1⟩, shininess := 10.0,
    tag := "fabric" }

/-- `SceneManager::DefineObjectMaterials`: five `push_back` calls. -/
def DefineObjectMaterials (s : SceneManager) : SceneManager :=
  { s with m_objectMaterials := s.m_objectMaterials ++
      [DefineObjectMaterials.goldMaterial, DefineObjectMaterials.woodMaterial,
       DefineObjectMaterials.glassMaterial, DefineObjectMaterials.plateMaterial,
       DefineObjectMaterials.fabricMaterial] }

/-- `SceneManager::PrepareScene`. The five mesh loads that end it are calls to the external
mesh library that touch nothing of the scene manager; they are not recorded. -/
def PrepareScene (io : Nat → Option Int × Nat) (s : SceneManager) : Option SceneManager :=
  match LoadSceneTextures io s with
  | none => none
  | some s =>
    let s := DefineObjectMaterials s
    let s := SetupSceneLights s
    some s

/-! ## Scene composer

Every renderer takes `uninit`, the content of the uninitialised local of the
`SetShaderMaterial` calls it makes. -/

/-- `SceneManager::RenderTable`. -/
def RenderTable (uninit : OBJECT_MATERIAL) (s : SceneManager) : Option SceneManager := do
  let scaleXYZ : Vec3 := ⟨20.0, 1.0, 10.0⟩
  let positionXYZ : Vec3 := ⟨0.0, -0.5, 0.0⟩
  let s := SetTransformations scaleXYZ 0.0 0.0 0.0 positionXYZ defaultOffset s
  let s ← SetShaderMaterial "wood" uninit s
  let s ← SetShaderTexture "T" s
  let s := SetTextureUVScale 5.0 5.0 s
  pure (DrawMesh Mesh.plane s)

/-- `SceneManager::RenderMonitor`. -/
def RenderMonitor (uninit : OBJECT_MATERIAL) (s : SceneManager) : Option SceneManager := do
  let scaleXYZ : Vec3 := ⟨2.0, 0.2, 0.5⟩
  let positionXYZ : Vec3 := ⟨0.0, 0.1, 0.0⟩
  let s := SetTransformations scaleXYZ 0.0 0.0 0.0 positionXYZ defaultOffset s
  let s ← SetShaderMaterial "metal" uninit s
  let s ← SetShaderTexture "H" s
  let s := DrawMesh Mesh.box s
  let scaleXYZ : Vec3 := ⟨8.0, 5.0, 0.5⟩
  let positionXYZ : Vec3 := ⟨0.0, 3.0, 0.0⟩
  let s := SetTransformations scaleXYZ 0.0 0.0 0.0 positionXYZ defaultOffset s
  let s ← SetShaderMaterial "metal" uninit s
  let s ← SetShaderTexture "N" s
  let s := DrawMesh Mesh.box s
  let scaleXYZ : Vec3 := ⟨7.5, 4.5, 0.1⟩
  let positionXYZ : Vec3 := ⟨0.0, 3.0, 0.26⟩
  let s := SetTransformations scaleXYZ 0.0 0.0 0.0 positionXYZ defaultOffset s
  let s ← SetShaderMaterial "glass" uninit s
  let s := SetShaderColor 1.0 1.0 1.0 1.0 s
  pure (DrawMesh Mesh.box s)

/-- Body of the inner loop of `RenderKeyboard`: the key in row `r`, column `c`. -/
def RenderKeyboard.key (r c : Nat) (s : SceneManager) : Option SceneManager := do
  let keyScaleXYZ : Vec3 := ⟨0.35, 0.1, 0.35⟩
  let keySpacingX : ℚ := 0.4
  let keySpacingZ : ℚ := 0.4
  let keyStartPosition : Vec3 := ⟨-1.8, -0.08, 2.0⟩
  let keyPosition := keyStartPosition + ⟨c * keySpacingX, 0.0, r * keySpacingZ⟩
  let s := SetTransformations keyScaleXYZ 0.0 0.0 0.0 keyPosition defaultOffset s
  let s ← SetShaderTexture "u" s
  pure (DrawMesh Mesh.box s)

/-- `SceneManager::RenderKeyboard`. -/
def RenderKeyboard (uninit : OBJECT_MATERIAL) (s : SceneManager) : Option SceneManager := do
  let XrotationDegrees : ℚ := 0.0
  let YrotationDegrees : ℚ := 0.0
  let ZrotationDegrees : ℚ := 0.0
  let scaleXYZ : Vec3 := ⟨6.0, 0.2, 1.5⟩
  let positionXYZ : Vec3 := ⟨0.0, -0.2, 2.5⟩
  let s := SetTransformations scaleXYZ XrotationDegrees YrotationDegrees ZrotationDegrees
    positionXYZ defaultOffset s
  let s ← SetShaderMaterial "metal" uninit s
  let s ← SetShaderTexture "N" s
  let s := DrawMesh Mesh.box s
  let rows := 4
  let cols := 10
  let s := SetTextureUVScale 4.0 4.0 s
  let s ← (List.range rows).foldlM
    (fun s r => (List.range cols).foldlM (fun s c => RenderKeyboard.key r c s) s) s
  pure (SetTextureUVScale 1.0 1.0 s)

/-- `SceneManager::RenderMouse`. -/
def RenderMouse (uninit : OBJECT_MATERIAL) (s : SceneManager) : Option SceneManager := do
  let scaleXYZ : Vec3 := ⟨0.5, 0.3, 0.8⟩
  let positionXYZ : Vec3 := ⟨3.5, -0.15, 2.5⟩
  let s := SetTransformations scaleXYZ 0.0 0.0 0.0 positionXYZ defaultOffset s
  let s ← SetShaderMaterial "metal" uninit s
  let s ← SetShaderTexture "H" s
  pure (DrawMesh Mesh.sphere s)

/-- The vector `bookMaterials` of `RenderBooks`: texture tag and material tag per book. -/
def RenderBooks.bookMaterials : List (String × String) :=
  [("F", "fabric"), ("br", "wood"), ("FLO", "plate")]

/-- Body of the loop of `RenderBooks` for book `i`; the loop carries `bookPosition` along
with the state. -/
def RenderBooks.book (uninit : OBJECT_MATERIAL) (acc : Vec3 × SceneManager) (i : Nat) :
    Option (Vec3 × SceneManager) := do
  let bookBaseScale : Vec3 := ⟨2.8, 0.3, 1.8⟩
  let bookSpacingY : ℚ := 0.05
  let bookPosition := acc.1
  let s := acc.2
  let currentBookScale := bookBaseScale
  let currentBookScale : Vec3 :=
    if i = 1 then { currentBookScale with y := currentBookScale.y * 1.2 } else currentBookScale
  let currentBookScale : Vec3 :=
    if i = 2 then { currentBookScale with y := currentBookScale.y * 1.1 } else currentBookScale
  let xOffset : ℚ := if i % 2 = 0 then -0.1 else 0.1
  let zOffset : ℚ := if i % 2 = 0 then 0.05 else -0.05
  let misalignedPosition := bookPosition + ⟨xOffset, 0.0, zOffset⟩
  let rotationAngle : ℚ := if i > 0 then (if i % 2 = 0 then -5.0 else 5.0) else 0.0
  let s := SetTransformations currentBookScale 0.0 rotationAngle 0.0 misalignedPosition
    defaultOffset s
  let entry := RenderBooks.bookMaterials.getD i ("", "")
  let s ← SetShaderMaterial entry.2 uninit s
  let s ← SetShaderTexture entry.1 s
  let s := DrawMesh Mesh.box s
  let bookPosition := { bookPosition with y := bookPosition.y + (currentBookScale.y + bookSpacingY) }
  pure (bookPosition, s)

/-- `SceneManager::RenderBooks`. -/
def RenderBooks (uninit : OBJECT_MATERIAL) (s : SceneManager) : Option SceneManager := do
  let bookPosition : Vec3 := ⟨-6.5, 0.2, 0.0⟩
  let r ← (List.range RenderBooks.bookMaterials.length).foldlM (RenderBooks.book uninit)
    (bookPosition, s)
  pure r.2

/-- `SceneManager::RenderPencilHolder`. -/
def RenderPencilHolder (uninit : OBJECT_MATERIAL) (s : SceneManager) :
    Option SceneManager := do
  let holderScale : Vec3 := ⟨0.6, 1.2, 0.6⟩
  let holderPosition : Vec3 := ⟨6.0, 0.6, 0.0⟩
  let s := SetTransformations holderScale 0.0 0.0 0.0 holderPosition defaultOffset s
  let s ← SetShaderMaterial "metal" uninit s
  let s ← SetShaderTexture "B" s
  pure (DrawMesh Mesh.cylinder s)

/-- The array `rotationOffsets` of `RenderPencils`. -/
def RenderPencils.rotationOffsets : List ℚ := [-10.0, 5.0, 15.0, -20.0, 10.0]

/-- The array `pencilColors` of `RenderPencils`. -/
def RenderPencils.pencilColors : List Vec3 :=
  [⟨1.0, 0.0, 0.0⟩, ⟨1.0, 1.0, 0.0⟩, ⟨0.0, 0.0, 1.0⟩, ⟨0.0, 1.0, 0.0⟩, ⟨1.0, 0.5, 0.0⟩]

/-- Body of the loop of `RenderPencils` for pencil `i`. -/
def RenderPencils.pencil (s : SceneManager) (i : Nat) : SceneManager :=
  let pencilScale : Vec3 := ⟨0.05, 1.8, 0.05⟩
  let basePosition : Vec3 := ⟨6.0, 1.4, 0.0⟩
  let pencilPosition := basePosition +
    ⟨if i % 2 = 0 then -0.1 else 0.1, i * 0.1, if i % 2 = 0 then -0.05 else 0.05⟩
  let rotationAngle := RenderPencils.rotationOffsets.getD i 0
  let chosenColor := RenderPencils.pencilColors.getD i ⟨0, 0, 0⟩
  let s := SetTransformations pencilScale rotationAngle 0.0 0.0 pencilPosition defaultOffset s
  let s := SetShaderColor chosenColor.x chosenColor.y chosenColor.z 1.0 s
  DrawMesh Mesh.cylinder s

/-- `SceneManager::RenderPencils`. The function makes no call that can fail; it returns an
option like the other renderers. -/
def RenderPencils (_uninit : OBJECT_MATERIAL) (s : SceneManager) : Option SceneManager :=
  some ((List.range 5).foldl RenderPencils.pencil s)

/-- `SceneManager::RenderScene`. -/
def RenderScene (uninit : OBJECT_MATERIAL) (s : SceneManager) : Option SceneManager := do
  let s ← RenderTable uninit s
  let s ← RenderMonitor uninit s
  let s ← RenderKeyboard uninit s
  let s ← RenderMouse uninit s
  let s ← RenderBooks uninit s
  let s ← RenderPencilHolder uninit s
  RenderPencils uninit s

/-! ## Observations on traces -/

/-- The value a uniform holds after a trace: the value of the last push to that name. -/
def uniformValue (name : String) : List GLCall → Option UniformValue
  | [] => none
  | c :: rest =>
    match uniformValue name rest with
    | some v => some v
    | none =>
      match c with
      | GLCall.setUniform n v => if n = name then some v else none
      | _ => none

/-- The texture bound to texture unit `unit` after a trace of GL calls: `glActiveTexture`
selects a unit and `glBindTexture` binds to the selected unit. `active` is the unit selected
so far and `cur` the texture bound to `unit` so far. -/
def boundTexture (unit : Nat) : List GLCall → Nat → Option Nat → Option Nat
  | [], _, cur => cur
  | GLCall.glActiveTexture u :: rest, _, cur => boundTexture unit rest u cur
  | GLCall.glBindTexture id :: rest, active, cur =>
    boundTexture unit rest active (if active = unit then some id else cur)
  | _ :: rest, active, cur => boundTexture unit rest active cur

/-! ## Floating-point values

The members and locals of type `float` and `double` that the scroll and mouse callbacks
compute with are values of IEEE 754 binary32 and binary64, rounded to nearest, ties to
even. -/

/-- A value of the C++ types `float` and `double`: NaN, an infinity, or a finite number.
The sign of zero is not modelled. -/
inductive FP where
  | nan
  | inf (negative : Bool)
  | num (q : ℚ)
deriving DecidableEq, Repr

instance (n : Nat) : OfNat FP n := ⟨FP.num n⟩

/-- A binary floating-point format: the number of bits of the significand (hidden bit
included) and the exponents of the smallest and of the largest binade of normal numbers. -/
structure FloatFormat where
  precision : Nat
  emin : Int
  emax : Int
deriving DecidableEq, Repr

/-- The format of `float`. -/
def binary32 : FloatFormat := ⟨24, -126, 127⟩

/-- The format of `double`. -/
def binary64 : FloatFormat := ⟨53, -1022, 1023⟩

/-- The integer nearest to `q`, the even one when `q` is half way between two integers. -/
def roundHalfEven (q : ℚ) : Int :=
  if q - ⌊q⌋ < 1 / 2 then ⌊q⌋
  else if 1 / 2 < q - ⌊q⌋ then ⌊q⌋ + 1
  else if ⌊q⌋ % 2 = 0 then ⌊q⌋ else ⌊q⌋ + 1

/-- The distance between neighbouring numbers of the format in the binade of `q` (in the
subnormal range below the smallest binade of normal numbers). -/
def FloatFormat.quantum (F : FloatFormat) (q : ℚ) : ℚ :=
  (2 : ℚ) ^ (max (Int.log 2 |q|) F.emin - ((F.precision : Int) - 1))

/-- Rounding of a number to the format, to nearest, ties to even; a result beyond the
largest finite number of the format is the infinity of the sign of `q`. -/
def FloatFormat.round (F : FloatFormat) (q : ℚ) : FP :=
  let r : ℚ := roundHalfEven (q / F.quantum q) * F.quantum q
  if (2 : ℚ) ^ (F.emax + 1) ≤ |r| then FP.inf (decide (q < 0)) else FP.num r

/-- Conversion of a floating-point value to the format `F`. -/
def FP.cast (F : FloatFormat) : FP → FP
  | FP.num q => F.round q
  | a => a

/-- The negative of a floating-point value. -/
def FP.neg : FP → FP
  | FP.nan => FP.nan
  | FP.inf negative => FP.inf (!negative)
  | FP.num q => FP.num (-q)

/-- The sum of two floating-point values, computed in the format `F`. -/
def FP.add (F : FloatFormat) : FP → FP → FP
  | FP.nan, _ => FP.nan
  | _, FP.nan => FP.nan
  | FP.inf a, FP.inf b => if a = b then FP.inf a else FP.nan
  | FP.inf a, FP.num _ => FP.inf a
  | FP.num _, FP.inf b => FP.inf b
  | FP.num x, FP.num y => F.round (x + y)

/-- The difference of two floating-point values, computed in the format `F`. -/
def FP.sub (F : FloatFormat) (a b : FP) : FP := FP.add F a b.neg

/-- The product of two floating-point values, computed in the format `F`. -/
def FP.mul (F : FloatFormat) : FP → FP → FP
  | FP.nan, _ => FP.nan
  | _, FP.nan => FP.nan
  | FP.inf a, FP.inf b => FP.inf (a != b)
  | FP.inf a, FP.num y => if y = 0 then FP.nan else FP.inf (a != decide (y < 0))
  | FP.num x, FP.inf b => if x = 0 then FP.nan else FP.inf (decide (x < 0) != b)
  | FP.num x, FP.num y => F.round (x * y)

/-- The comparison `a < b` of two floating-point values; false when one of them is NaN. -/
def FP.lt : FP → FP → Bool
  | FP.num x, FP.num y => decide (x < y)
  | FP.num _, FP.inf negative => !negative
  | FP.inf negative, FP.num _ => negative
  | FP.inf a, FP.inf b => a && !b
  | _, _ => false

/-- The comparison `a <= b` of two floating-point values; false when one of them is NaN. -/
def FP.le : FP → FP → Bool
  | FP.num x, FP.num y => decide (x ≤ y)
  | FP.num _, FP.inf negative => !negative
  | FP.inf negative, FP.num _ => negative
  | FP.inf a, FP.inf b => a || !b
  | _, _ => false

/-! ## View manager -/

/-- Scalar multiple of a vector (`glm::vec3 operator*`). -/
def Vec3.smul (a : ℚ) (v : Vec3) : Vec3 := ⟨a * v.x, a * v.y, a * v.z⟩

/-- Linear blend `glm::mix(x, y, a)`, which GLSL defines as `x * (1 - a) + y * a`. -/
def mix (x y : Vec3) (a : ℚ) : Vec3 := Vec3.smul (1 - a) x + Vec3.smul a y

/-- Modelled from the spec: the class `Camera` of `camera.h` (not among the sources). The
first five members are the ones `ViewManager.cpp` reads and writes; `Yaw` and `Pitch` are
the orientation that, by the spec, mouse motion updates. `MovementSpeed` is a `float` with
its infinities and NaN; the members the hotkeys assign are kept as exact numbers. -/
structure Camera where
  Position : Vec3
  Front : Vec3
  Up : Vec3
  Zoom : ℚ
  MovementSpeed : FP
  Yaw : ℚ
  Pitch : ℚ
deriving DecidableEq, Repr

/-- The enumeration `Camera_Movement` of `camera.h`. -/
inductive Camera_Movement where
  | FORWARD
  | BACKWARD
  | LEFT
  | RIGHT
  | UP
  | DOWN
deriving DecidableEq, Repr

/-- The methods of `Camera` that `ViewManager.cpp` calls; `camera.h` is not among the
sources, so they are parameters of the embedding. `default` is the object `Camera()`
constructs. -/
structure CameraMethods where
  default : Camera
  ProcessKeyboard : Camera_Movement → FP → Camera → Camera
  ProcessMouseMovement : FP → FP → Camera → Camera

/-- Projection matrices built by `glm::ortho` and `glm::perspective`, kept symbolic. -/
inductive Projection where
  | ortho (left right bottom top zNear zFar : ℚ)
  | perspective (fovy : Radians) (aspect zNear zFar : ℚ)
deriving DecidableEq, Repr

/-- One call leaving the view manager; `setView c` stands for pushing the matrix
`GetViewMatrix()` of the camera in state `c`. -/
inductive ViewCall where
  | glfwSetWindowShouldClose
  | setView (camera : Camera)
  | setProjection (projection : Projection)
  | setViewPosition (position : Vec3)
deriving DecidableEq, Repr

/-- Key states as `glfwGetKey` reports them: `true` is `GLFW_PRESS`, `false` is
`GLFW_RELEASE`. -/
structure Keys where
  ESCAPE : Bool
  W : Bool
  S : Bool
  A : Bool
  D : Bool
  Q : Bool
  E : Bool
  P : Bool
  O : Bool
  K1 : Bool
  K2 : Bool
  K3 : Bool
  K4 : Bool
deriving DecidableEq, Repr

/-- No key pressed. -/
def Keys.none : Keys :=
  ⟨false, false, false, false, false, false, false, false, false, false, false, false, false⟩

def WINDOW_WIDTH : ℚ := 1000

def WINDOW_HEIGHT : ℚ := 800

/-- State of the view manager: the members of the object (`m_pShaderManager` as a non-null
flag, `bOrthographicProjection` declared in `ViewManager.h`), the variables of the anonymous
namespace of `ViewManager.cpp`, the static locals of `ProcessKeyboardEvents`, and the trace
of the calls issued. Inside the member functions the name `bOrthographicProjection` denotes
the member; `g_bOrthographicProjection` is the namespace variable of the same name, which
the member hides. -/
structure ViewManager where
  m_pShaderManager : Bool
  bOrthographicProjection : Bool
  g_pCamera : Option Camera
  gLastX : FP
  gLastY : FP
  gFirstMouse : Bool
  gDeltaTime : ℚ
  gLastFrame : ℚ
  g_bOrthographicProjection : Bool
  pKeyPressed : Bool
  oKeyPressed : Bool
  key1Pressed : Bool
  key2Pressed : Bool
  key3Pressed : Bool
  key4Pressed : Bool
  calls : List ViewCall
deriving DecidableEq, Repr

/-- The constructor `ViewManager::ViewManager` run at program start (namespace variables
and static locals hold their initialisers). The constructor does not write the member
`bOrthographicProjection`; `uninitOrtho` is the value it happens to hold. -/
def ViewManager.new (M : CameraMethods) (pShaderManager uninitOrtho : Bool) : ViewManager :=
  { m_pShaderManager := pShaderManager
    bOrthographicProjection := uninitOrtho
    g_pCamera := some
      { M.default with
          Position := ⟨0.5, 5.5, 10.0⟩
          Front := ⟨0.0, -0.5, -2.0⟩
          Up := ⟨0.0, 1.0, 0.0⟩
          Zoom := 80
          MovementSpeed := 10 }
    gLastX := FP.num (WINDOW_WIDTH / 2.0)
    gLastY := FP.num (WINDOW_HEIGHT / 2.0)
    gFirstMouse := true
    gDeltaTime := 0.0
    gLastFrame := 0.0
    g_bOrthographicProjection := false
    pKeyPressed := false
    oKeyPressed := false
    key1Pressed := false
    key2Pressed := false
    key3Pressed := false
    key4Pressed := false
    calls := [] }

/-- The local `sensitivity` of `Mouse_Position_Callback`: the `float` of the literal
`0.1f`. -/
def Mouse_Position_Callback.sensitivity : FP := binary32.round 0.1

/-- The value of `(a - b) * sensitivity` stored into a local of type `float` in
`Mouse_Position_Callback`: `a - b` has an operand of type `double`, so the difference and
the product are computed in `double`, and the initialisation narrows to `float`. -/
def Mouse_Position_Callback.offset (a b : FP) : FP :=
  FP.cast binary32
    (FP.mul binary64 (FP.sub binary64 a b) Mouse_Position_Callback.sensitivity)

/-- `ViewManager::Mouse_Position_Callback`; the arguments are of type `double`, and the
assignments to `gLastX` and `gLastY` narrow them to `float`. `none`: `g_pCamera` is null
when the method `ProcessMouseMovement` is called through it. -/
def Mouse_Position_Callback (M : CameraMethods) (xMousePos yMousePos : FP)
    (v : ViewManager) : Option ViewManager :=
  let v :=
    if v.gFirstMouse then
      { v with
          gLastX := FP.cast binary32 xMousePos
          gLastY := FP.cast binary32 yMousePos
          gFirstMouse := false }
    else v
  let xOffset := Mouse_Position_Callback.offset xMousePos v.gLastX
  let yOffset := Mouse_Position_Callback.offset v.gLastY yMousePos
  let v := { v with gLastX := FP.cast binary32 xMousePos, gLastY := FP.cast binary32 yMousePos }
  match v.g_pCamera with
  | none => none
  | some c => some { v with g_pCamera := some (M.ProcessMouseMovement xOffset yOffset c) }

/-- The value the statement `MovementSpeed += yScrollDistance * 0.5f` of
`Mouse_Scroll_Wheel_Callback` assigns: `yScrollDistance` is of type `double`, so the product
and the sum are computed in `double`, and the assignment narrows to `float`. -/
def Mouse_Scroll_Wheel_Callback.sum (MovementSpeed yScrollDistance : FP) : FP :=
  FP.cast binary32
    (FP.add binary64 MovementSpeed (FP.mul binary64 yScrollDistance (FP.num 0.5)))

/-- `ViewManager::Mouse_Scroll_Wheel_Callback`. -/
def Mouse_Scroll_Wheel_Callback (_x yScrollDistance : FP) (v : ViewManager) : ViewManager :=
  match v.g_pCamera with
  | some c =>
    let c :=
      { c with
          MovementSpeed := Mouse_Scroll_Wheel_Callback.sum c.MovementSpeed yScrollDistance }
    let c := if FP.lt c.MovementSpeed (FP.num 0.5) then { c with MovementSpeed := FP.num 0.5 }
      else c
    let c := if FP.lt (FP.num 20.0) c.MovementSpeed then { c with MovementSpeed := FP.num 20.0 }
      else c
    { v with g_pCamera := some c }
  | none => v

/-- The six movement tests of `ProcessKeyboardEvents` (keys W, S, A, D, Q, E) applied to
the camera; `gDeltaTime` is the frame time the local `movementSpeed` is computed from, in
`float`; the frame time itself is kept as an exact number. -/
def ProcessKeyboardEvents.move (M : CameraMethods) (keys : Keys) (gDeltaTime : ℚ)
    (c : Camera) : Camera :=
  let movementSpeed :=
    FP.mul binary32 (FP.mul binary32 c.MovementSpeed (binary32.round 0.3)) (FP.num gDeltaTime)
  let c := if keys.W then M.ProcessKeyboard Camera_Movement.FORWARD movementSpeed c else c
  let c := if keys.S then M.ProcessKeyboard Camera_Movement.BACKWARD movementSpeed c else c
  let c := if keys.A then M.ProcessKeyboard Camera_Movement.LEFT movementSpeed c else c
  let c := if keys.D then M.ProcessKeyboard Camera_Movement.RIGHT movementSpeed c else c
  let c := if keys.Q then M.ProcessKeyboard Camera_Movement.UP movementSpeed c else c
  let c := if keys.E then M.ProcessKeyboard Camera_Movement.DOWN movementSpeed c else c
  c

/-- The two `if` statements of `ProcessKeyboardEvents` for key P; `pressed` is the state
`glfwGetKey` reports for the key. -/
def ProcessKeyboardEvents.keyP (pressed : Bool) (v : ViewManager) : ViewManager :=
  let v :=
    if pressed && !v.pKeyPressed then
      { v with
          bOrthographicProjection := false
          g_pCamera := v.g_pCamera.map fun c =>
            { c with
                Position := ⟨0.0, 5.0, 8.0⟩
                Front := ⟨0.0, -0.3, -1.0⟩
                Up := ⟨0.0, 1.0, 0.0⟩
                Zoom := 80 }
          pKeyPressed := true }
    else v
  if !pressed then { v with pKeyPressed := false } else v

/-- The two `if` statements of `ProcessKeyboardEvents` for key O. -/
def ProcessKeyboardEvents.keyO (pressed : Bool) (v : ViewManager) : ViewManager :=
  let v :=
    if pressed && !v.oKeyPressed then
      { v with
          bOrthographicProjection := true
          g_pCamera := v.g_pCamera.map fun c =>
            { c with
                Position := ⟨0.0, 10.0, 0.0⟩
                Front := ⟨0.0, -1.0, 0.0⟩
                Up := ⟨0.0, 0.0, -1.0⟩
                Zoom := 50 }
          oKeyPressed := true }
    else v
  if !pressed then { v with oKeyPressed := false } else v

/-- The two `if` statements of `ProcessKeyboardEvents` for key 1 (front view). -/
def ProcessKeyboardEvents.key1 (pressed : Bool) (v : ViewManager) : ViewManager :=
  let v :=
    if pressed && !v.key1Pressed then
      { v with
          bOrthographicProjection := true
          g_pCamera := v.g_pCamera.map fun c =>
            { c with
                Position := mix c.Position ⟨0.0, 4.0, 10.0⟩ 0.5
                Front := ⟨0.0, 0.0, -1.0⟩
                Up := ⟨0.0, 1.0, 0.0⟩ }
          key1Pressed := true }
    else v
  if !pressed then { v with key1Pressed := false } else v

/-- The two `if` statements of `ProcessKeyboardEvents` for key 2 (side view). -/
def ProcessKeyboardEvents.key2 (pressed : Bool) (v : ViewManager) : ViewManager :=
  let v :=
    if pressed && !v.key2Pressed then
      { v with
          bOrthographicProjection := true
          g_pCamera := v.g_pCamera.map fun c =>
            { c with
                Position := mix c.Position ⟨10.0, 4.0, 0.0⟩ 0.5
                Front := ⟨-1.0, 0.0, 0.0⟩
                Up := ⟨0.0, 1.0, 0.0⟩ }
          key2Pressed := true }
    else v
  if !pressed then { v with key2Pressed := false } else v

/-- The two `if` statements of `ProcessKeyboardEvents` for key 3 (top view). -/
def ProcessKeyboardEvents.key3 (pressed : Bool) (v : ViewManager) : ViewManager :=
  let v :=
    if pressed && !v.key3Pressed then
      { v with
          bOrthographicProjection := true
          g_pCamera := v.g_pCamera.map fun c =>
            { c with
                Position := mix c.Position ⟨0.0, 10.0, 0.0⟩ 0.5
                Front := ⟨0.0, -1.0, 0.0⟩
                Up := ⟨0.0, 0.0, -1.0⟩ }
          key3Pressed := true }
    else v
  if !pressed then { v with key3Pressed := false } else v

/-- The two `if` statements of `ProcessKeyboardEvents` for key 4 (perspective view). -/
def ProcessKeyboardEvents.key4 (pressed : Bool) (v : ViewManager) : ViewManager :=
  let v :=
    if pressed && !v.key4Pressed then
      { v with
          bOrthographicProjection := false
          g_pCamera := v.g_pCamera.map fun c =>
            { c with
                Position := mix c.Position ⟨0.0, 5.0, 8.0⟩ 0.5
                Front := ⟨0.0, -0.3, -1.0⟩
                Up := ⟨0.0, 1.0, 0.0⟩
                Zoom := 80 }
          key4Pressed := true }
    else v
  if !pressed then { v with key4Pressed := false } else v

/-- The part of `ProcessKeyboardEvents` after the escape test: the null test on
`g_pCamera`, the movement keys, then the blocks of keys P, O, 1, 2, 3, 4 in source order. -/
def ProcessKeyboardEvents.camera (M : CameraMethods) (keys : Keys) (v : ViewManager) :
    ViewManager :=
  match v.g_pCamera with
  | none => v
  | some c =>
    let v := { v with g_pCamera := some (ProcessKeyboardEvents.move M keys v.gDeltaTime c) }
    let v := ProcessKeyboardEvents.keyP keys.P v
    let v := ProcessKeyboardEvents.keyO keys.O v
    let v := ProcessKeyboardEvents.key1 keys.K1 v
    let v := ProcessKeyboardEvents.key2 keys.K2 v
    let v := ProcessKeyboardEvents.key3 keys.K3 v
    let v := ProcessKeyboardEvents.key4 keys.K4 v
    v

/-- `ViewManager::ProcessKeyboardEvents`, for the key states `keys`. -/
def ProcessKeyboardEvents (M : CameraMethods) (keys : Keys) (v : ViewManager) : ViewManager :=
  let v :=
    if keys.ESCAPE then { v with calls := v.calls ++ [ViewCall.glfwSetWindowShouldClose] }
    else v
  ProcessKeyboardEvents.camera M keys v

/-- The projection matrix `PrepareSceneView` defines from the mode flag and the camera. -/
def PrepareSceneView.projection (bOrthographicProjection : Bool) (c : Camera) : Projection :=
  if bOrthographicProjection then
    let orthoSize : ℚ := 10.0
    Projection.ortho (-orthoSize) orthoSize (-orthoSize) orthoSize 0.1 100.0
  else
    Projection.perspective ⟨c.Zoom⟩ (WINDOW_WIDTH / WINDOW_HEIGHT) 0.1 100.0

/-- `ViewManager::PrepareSceneView`; `currentFrame` is the value `glfwGetTime()` returns.
`none`: `g_pCamera` is null when `GetViewMatrix` is called through it. -/
def PrepareSceneView (M : CameraMethods) (currentFrame : ℚ) (keys : Keys)
    (v : ViewManager) : Option ViewManager :=
  let v := { v with gDeltaTime := currentFrame - v.gLastFrame, gLastFrame := currentFrame }
  let v := ProcessKeyboardEvents M keys v
  match v.g_pCamera with
  | none => none
  | some c =>
    let projection := PrepareSceneView.projection v.bOrthographicProjection c
    if v.m_pShaderManager then
      some { v with calls := v.calls ++
        [ViewCall.setView c, ViewCall.setProjection projection,
         ViewCall.setViewPosition c.Position] }
    else some v

/-- An input the view manager reacts to. -/
inductive Event where
  | mousePosition (xMousePos yMousePos : FP)
  | scrollWheel (x yScrollDistance : FP)
  | keyboard (keys : Keys)
  | frame (currentFrame : ℚ) (keys : Keys)
deriving DecidableEq, Repr

/-- Reaction of the view manager to one input. -/
def step (M : CameraMethods) (v : ViewManager) : Event → Option ViewManager
  | Event.mousePosition x y => Mouse_Position_Callback M x y v
  | Event.scrollWheel x y => some (Mouse_Scroll_Wheel_Callback x y v)
  | Event.keyboard keys => some (ProcessKeyboardEvents M keys v)
  | Event.frame t keys => PrepareSceneView M t keys v

/-- Reaction of the view manager to a sequence of inputs, oldest first. -/
def run (M : CameraMethods) (v : ViewManager) (events : List Event) : Option ViewManager :=
  events.foldlM (step M) v

/-! ## Notions used by the proofs about the scene composer -/

/-- A scene manager the renderers can run on: the shader manager is not null and the
populated count does not exceed the texture array. -/
def Ready (s : SceneManager) : Prop :=
  s.m_pShaderManager = true ∧ s.m_loadedTextures ≤ s.m_textureIDs.length

/-- The calls on which the pipeline-state properties depend: mesh draws and pushes of the
uniforms "UVscale" and "bUseTexture". -/
def observed : GLCall → Bool
  | GLCall.draw _ => true
  | GLCall.setUniform n _ => decide (n = "UVscale") || decide (n = "bUseTexture")
  | _ => false

/-- The observed calls of a trace, in order. -/
def view (l : List GLCall) : List GLCall := l.filter observed

/-- The sampler index `SetShaderTexture` pushes for a tag. -/
def slotOf (tag : String) (s : SceneManager) : Int := (FindTextureSlot tag s).getD (-1)

/-- The calls `SetShaderMaterial` issues through a non-null shader manager. -/
def materialCalls (materialTag : String) (material : OBJECT_MATERIAL) (s : SceneManager) :
    List GLCall :=
  if s.m_objectMaterials.length > 0 ∧ (FindMaterial materialTag material s).1 = true then
    [GLCall.setUniform "material.diffuseColor"
       (UniformValue.vec3 (FindMaterial materialTag material s).2.diffuseColor),
     GLCall.setUniform "material.specularColor"
       (UniformValue.vec3 (FindMaterial materialTag material s).2.specularColor),
     GLCall.setUniform "material.shininess"
       (UniformValue.float (FindMaterial materialTag material s).2.shininess)]
  else []

/-- The calls `RenderKeyboard.key` issues for the key in row `r`, column `c`. -/
def keyCalls (s : SceneManager) (r c : Nat) : List GLCall :=
  [GLCall.setUniform "model" (UniformValue.mat4
     (Mat4.mul (Mat4.mul (Mat4.mul (Mat4.mul
       (Mat4.translate
         ((⟨-1.8, -0.08, 2.0⟩ + ⟨c * (0.4 : ℚ), 0.0, r * (0.4 : ℚ)⟩ : Vec3) + defaultOffset))
       (Mat4.rotate ⟨0.0⟩ ⟨0, 0, 1⟩)) (Mat4.rotate ⟨0.0⟩ ⟨0, 1, 0⟩))
       (Mat4.rotate ⟨0.0⟩ ⟨1, 0, 0⟩)) (Mat4.scale ⟨0.35, 0.1, 0.35⟩))),
   GLCall.setUniform "bUseTexture" (UniformValue.int 1),
   GLCall.setUniform "objectTexture" (UniformValue.sampler2D (slotOf "u" s)),
   GLCall.draw Mesh.box]

/-- A renderer returns from state `s` with the UV-scale uniform at `uv` and the use-texture
flag at `tex`. -/
def ReturnsWith (f : OBJECT_MATERIAL → SceneManager → Option SceneManager)
    (u : OBJECT_MATERIAL) (s : SceneManager) (uv tex : UniformValue) : Prop :=
  ∃ s', f u s = some s' ∧ uniformValue "UVscale" s'.gl = some uv ∧
    uniformValue "bUseTexture" s'.gl = some tex

/-- The `MovementSpeed` of the camera `g_pCamera` points to, if any. -/
def cameraSpeed (v : ViewManager) : Option FP := v.g_pCamera.map fun c => c.MovementSpeed

/-- The methods of `Camera` leave `MovementSpeed` as it is. -/
def KeepsSpeed (M : CameraMethods) : Prop :=
  (∀ d t c, (M.ProcessKeyboard d t c).MovementSpeed = c.MovementSpeed) ∧
  (∀ x y c, (M.ProcessMouseMovement x y c).MovementSpeed = c.MovementSpeed)

/-- The value the two clamp tests of `Mouse_Scroll_Wheel_Callback` leave for a speed `a`. -/
def clampSpeed (a : FP) : FP :=
  let a := if FP.lt a (FP.num 0.5) then FP.num 0.5 else a
  if FP.lt (FP.num 20.0) a then FP.num 20.0 else a

/-- Consecutive calls of `Mouse_Scroll_Wheel_Callback`, all with the same arguments; the
first argument is the number of calls. -/
def scrollTimes : Nat → FP → FP → ViewManager → ViewManager
  | 0, _, _, v => v
  | n + 1, x, y, v => scrollTimes n x y (Mouse_Scroll_Wheel_Callback x y v)

/-- The six hotkeys of `ProcessKeyboardEvents`. -/
inductive Hotkey where
  | P
  | O
  | K1
  | K2
  | K3
  | K4
deriving DecidableEq, Repr

/-- The state `glfwGetKey` reports for a hotkey. -/
def Hotkey.pressed : Hotkey → Keys → Bool
  | Hotkey.P, keys => keys.P
  | Hotkey.O, keys => keys.O
  | Hotkey.K1, keys => keys.K1
  | Hotkey.K2, keys => keys.K2
  | Hotkey.K3, keys => keys.K3
  | Hotkey.K4, keys => keys.K4

/-- The static local of `ProcessKeyboardEvents` that belongs to a hotkey. -/
def Hotkey.latch : Hotkey → ViewManager → Bool
  | Hotkey.P, v => v.pKeyPressed
  | Hotkey.O, v => v.oKeyPressed
  | Hotkey.K1, v => v.key1Pressed
  | Hotkey.K2, v => v.key2Pressed
  | Hotkey.K3, v => v.key3Pressed
  | Hotkey.K4, v => v.key4Pressed

/-- The two `if` statements of `ProcessKeyboardEvents` that belong to a hotkey. -/
def Hotkey.block : Hotkey → Bool → ViewManager → ViewManager
  | Hotkey.P => ProcessKeyboardEvents.keyP
  | Hotkey.O => ProcessKeyboardEvents.keyO
  | Hotkey.K1 => ProcessKeyboardEvents.key1
  | Hotkey.K2 => ProcessKeyboardEvents.key2
  | Hotkey.K3 => ProcessKeyboardEvents.key3
  | Hotkey.K4 => ProcessKeyboardEvents.key4

/-- The test that guards the transition body of a hotkey, for a call entered in state `v`
with key states `keys`: pressed, and the static local not set. -/
def Hotkey.fires (k : Hotkey) (keys : Keys) (v : ViewManager) : Bool :=
  k.pressed keys && !k.latch v

/-- The value the transition body of a hotkey assigns to the orthographic flag. -/
def Hotkey.mode : Hotkey → Bool
  | Hotkey.P => false
  | Hotkey.O => true
  | Hotkey.K1 => true
  | Hotkey.K2 => true
  | Hotkey.K3 => true
  | Hotkey.K4 => false

/-- The value the transition body of a hotkey assigns to `Front`. -/
def Hotkey.front : Hotkey → Vec3
  | Hotkey.P => ⟨0.0, -0.3, -1.0⟩
  | Hotkey.O => ⟨0.0, -1.0, 0.0⟩
  | Hotkey.K1 => ⟨0.0, 0.0, -1.0⟩
  | Hotkey.K2 => ⟨-1.0, 0.0, 0.0⟩
  | Hotkey.K3 => ⟨0.0, -1.0, 0.0⟩
  | Hotkey.K4 => ⟨0.0, -0.3, -1.0⟩

/-- Consecutive calls of `ProcessKeyboardEvents`, one per entry of the list of key states,
oldest first. -/
def keyboardCalls (M : CameraMethods) (calls : List Keys) (v : ViewManager) : ViewManager :=
  calls.foldl (fun v keys => ProcessKeyboardEvents M keys v) v

/-- The key states in which one hotkey is pressed and every other key is released. -/
def Hotkey.alone : Hotkey → Keys
  | Hotkey.P => { Keys.none with P := true }
  | Hotkey.O => { Keys.none with O := true }
  | Hotkey.K1 => { Keys.none with K1 := true }
  | Hotkey.K2 => { Keys.none with K2 := true }
  | Hotkey.K3 => { Keys.none with K3 := true }
  | Hotkey.K4 => { Keys.none with K4 := true }

/-- The assignments of the transition body of a hotkey, the write to its static local
apart. -/
def Hotkey.transition : Hotkey → ViewManager → ViewManager
  | Hotkey.P, v =>
    { v with
        bOrthographicProjection := false
        g_pCamera := v.g_pCamera.map fun c =>
          { c with
              Position := ⟨0.0, 5.0, 8.0⟩
              Front := ⟨0.0, -0.3, -1.0⟩
              Up := ⟨0.0, 1.0, 0.0⟩
              Zoom := 80 } }
  | Hotkey.O, v =>
    { v with
        bOrthographicProjection := true
        g_pCamera := v.g_pCamera.map fun c =>
          { c with
              Position := ⟨0.0, 10.0, 0.0⟩
              Front := ⟨0.0, -1.0, 0.0⟩
              Up := ⟨0.0, 0.0, -1.0⟩
              Zoom := 50 } }
  | Hotkey.K1, v =>
    { v with
        bOrthographicProjection := true
        g_pCamera := v.g_pCamera.map fun c =>
          { c with
              Position := mix c.Position ⟨0.0, 4.0, 10.0⟩ 0.5
              Front := ⟨0.0, 0.0, -1.0⟩
              Up := ⟨0.0, 1.0, 0.0⟩ } }
  | Hotkey.K2, v =>
    { v with
        bOrthographicProjection := true
        g_pCamera := v.g_pCamera.map fun c =>
          { c with
              Position := mix c.Position ⟨10.0, 4.0, 0.0⟩ 0.5
              Front := ⟨-1.0, 0.0, 0.0⟩
              Up := ⟨0.0, 1.0, 0.0⟩ } }
  | Hotkey.K3, v =>
    { v with
        bOrthographicProjection := true
        g_pCamera := v.g_pCamera.map fun c =>
          { c with
              Position := mix c.Position ⟨0.0, 10.0, 0.0⟩ 0.5
              Front := ⟨0.0, -1.0, 0.0⟩
              Up := ⟨0.0, 0.0, -1.0⟩ } }
  | Hotkey.K4, v =>
    { v with
        bOrthographicProjection := false
        g_pCamera := v.g_pCamera.map fun c =>
          { c with
              Position := mix c.Position ⟨0.0, 5.0, 8.0⟩ 0.5
              Front := ⟨0.0, -0.3, -1.0⟩
              Up := ⟨0.0, 1.0, 0.0⟩
              Zoom := 80 } }

/-- Assigns the static local of a hotkey. -/
def Hotkey.setLatch : Hotkey → Bool → ViewManager → ViewManager
  | Hotkey.P, b, v => { v with pKeyPressed := b }
  | Hotkey.O, b, v => { v with oKeyPressed := b }
  | Hotkey.K1, b, v => { v with key1Pressed := b }
  | Hotkey.K2, b, v => { v with key2Pressed := b }
  | Hotkey.K3, b, v => { v with key3Pressed := b }
  | Hotkey.K4, b, v => { v with key4Pressed := b }

/-- The transition of a hotkey, executed when `f` holds. -/
def Hotkey.onEdge (k : Hotkey) (f : Bool) (v : ViewManager) : ViewManager :=
  if f then k.transition v else v

/-- A call of `ProcessKeyboardEvents` as the specification of edge triggering reads it: the
escape test, the null test and the movement keys as in the source; then, in the order
P, O, 1, 2, 3, 4, the transition of a hotkey is executed exactly when `executes` says so;
the static locals end as the key states `now` reported in the call. -/
def transitionsCall (M : CameraMethods) (executes : Hotkey → Bool) (now : Keys)
    (v : ViewManager) : ViewManager :=
  let v :=
    if now.ESCAPE then { v with calls := v.calls ++ [ViewCall.glfwSetWindowShouldClose] }
    else v
  match v.g_pCamera with
  | none => v
  | some c =>
    let v := { v with g_pCamera := some (ProcessKeyboardEvents.move M now v.gDeltaTime c) }
    let v := [Hotkey.P, Hotkey.O, Hotkey.K1, Hotkey.K2, Hotkey.K3, Hotkey.K4].foldl
      (fun v k => if executes k then k.transition v else v) v
    { v with
        pKeyPressed := now.P
        oKeyPressed := now.O
        key1Pressed := now.K1
        key2Pressed := now.K2
        key3Pressed := now.K3
        key4Pressed := now.K4 }

/-- The edge of a hotkey between two successive calls: pressed in the call `now`, released
in the most recent earlier call `last`. -/
def Hotkey.edge (last now : Keys) (k : Hotkey) : Bool := k.pressed now && !k.pressed last

/-- Edge-triggered reading of consecutive calls of `ProcessKeyboardEvents`, oldest first:
in every call the transition of a hotkey is executed exactly on the edge of the key; `last`
are the key states of the most recent earlier call, all released when there is none. -/
def edgeTriggeredCalls (M : CameraMethods) : Keys → List Keys → ViewManager → ViewManager
  | _, [], v => v
  | last, now :: rest, v =>
    edgeTriggeredCalls M now rest (transitionsCall M (Hotkey.edge last now) now v)

/-- The calls of a sequence, oldest first, in which a hotkey has an edge. -/
def Hotkey.edges (k : Hotkey) : Keys → List Keys → List Bool
  | _, [] => []
  | last, now :: rest => Hotkey.edge last now k :: k.edges now rest

/-- The calls the loop of `BindGLTextures` issues for the `k` slots from index `i` on. -/
def bindCalls (s : SceneManager) (i k : Nat) : List GLCall :=
  (List.range' i k).flatMap fun j =>
    [GLCall.glActiveTexture j, GLCall.glBindTexture (s.m_textureIDs.getD j ⟨"/0", GLuint.ofInt (-1)⟩).ID]

/-- The free interpretation of a symbolic matrix: the list of the factors of the product, in
order, the rotations by the angle 0 left out. A product is interpreted as the product of
the interpretations and a rotation by the angle 0 as the unit. -/
def Mat4.factors : Mat4 → FreeMonoid Mat4
  | Mat4.mul a b => a.factors * b.factors
  | Mat4.rotate angle axis =>
    if angle.ofDegrees = 0 then 1 else FreeMonoid.of (Mat4.rotate angle axis)
  | Mat4.scale v => FreeMonoid.of (Mat4.scale v)
  | Mat4.translate v => FreeMonoid.of (Mat4.translate v)

/-- The calls that carry the result of a lookup by tag: the sampler index pushed by
`SetShaderTexture` and the three material uniforms pushed by `SetShaderMaterial`. -/
def lookup : GLCall → Bool
  | GLCall.setUniform n _ =>
    decide (n = "objectTexture") || decide (n = "material.diffuseColor") ||
      decide (n = "material.specularColor") || decide (n = "material.shininess")
  | _ => false

/-- The lookup results of a trace, in order. -/
def lookups (l : List GLCall) : List GLCall := l.filter lookup

/-- The push of a sampler index by `SetShaderTexture`. -/
def samplerPush (slot : Int) : GLCall :=
  GLCall.setUniform "objectTexture" (UniformValue.sampler2D slot)

/-- The three pushes of `SetShaderMaterial` when they carry the values of `m`. -/
def materialPushes (m : OBJECT_MATERIAL) : List GLCall :=
  [GLCall.setUniform "material.diffuseColor" (UniformValue.vec3 m.diffuseColor),
   GLCall.setUniform "material.specularColor" (UniformValue.vec3 m.specularColor),
   GLCall.setUniform "material.shininess" (UniformValue.float m.shininess)]

/-- The lookup results of one `RenderScene`, renderer after renderer, when the material
pushes for a tag are `mat tag` and the sampler index for a tag is `slot tag`. -/
def lookupsWith (mat : String → List GLCall) (slot : String → Int) : List GLCall :=
  -- table
  (mat "wood" ++ [samplerPush (slot "T")]) ++
  -- monitor
  (mat "metal" ++ [samplerPush (slot "H")] ++ mat "metal" ++ [samplerPush (slot "N")] ++
    mat "glass") ++
  -- keyboard
  (mat "metal" ++ [samplerPush (slot "N")] ++ List.replicate 40 (samplerPush (slot "u"))) ++
  -- mouse
  (mat "metal" ++ [samplerPush (slot "H")]) ++
  -- books
  (mat "fabric" ++ [samplerPush (slot "F")] ++ mat "wood" ++ [samplerPush (slot "br")] ++
    mat "plate" ++ [samplerPush (slot "FLO")]) ++
  -- pencil holder
  (mat "metal" ++ [samplerPush (slot "B")])

/-- The lookup results of one `RenderScene` on the scene `PrepareScene` builds: every
material push carries the values of the material `DefineObjectMaterials` defines under the
tag, every sampler index is the position of the tag among the calls of
`LoadSceneTextures`. -/
def sceneLookups : List GLCall :=
  -- table: "wood", "T"
  (materialPushes DefineObjectMaterials.woodMaterial ++ [samplerPush 0]) ++
  -- monitor: "metal", "H"; "metal", "N"; "glass"
  (materialPushes DefineObjectMaterials.goldMaterial ++ [samplerPush 8] ++
    materialPushes DefineObjectMaterials.goldMaterial ++ [samplerPush 7] ++
    materialPushes DefineObjectMaterials.glassMaterial) ++
  -- keyboard: "metal", "N"; forty keys "u"
  (materialPushes DefineObjectMaterials.goldMaterial ++ [samplerPush 7] ++
    List.replicate 40 (samplerPush 10)) ++
  -- mouse: "metal", "H"
  (materialPushes DefineObjectMaterials.goldMaterial ++ [samplerPush 8]) ++
  -- books: "fabric", "F"; "wood", "br"; "plate", "FLO"
  (materialPushes DefineObjectMaterials.fabricMaterial ++ [samplerPush 4] ++
    materialPushes DefineObjectMaterials.woodMaterial ++ [samplerPush 5] ++
    materialPushes DefineObjectMaterials.plateMaterial ++ [samplerPush 6]) ++
  -- pencil holder: "metal", "B"
  (materialPushes DefineObjectMaterials.goldMaterial ++ [samplerPush 3])

/-! ## Example states -/

/-- A material list with two entries tagged "wood": index 1 and index 2. -/
def exampleMaterials : List OBJECT_MATERIAL :=
  [ ⟨⟨0.4, 0.4, 0.4⟩, ⟨0.7, 0.7, 0.6⟩, 52.0, "metal"⟩,
    ⟨⟨0.2, 0.2, 0.3⟩, ⟨0.0, 0.0, 0.0⟩, 0.1, "wood"⟩,
    ⟨⟨0.9, 0.9, 0.9⟩, ⟨0.5, 0.5, 0.5⟩, 7.0, "wood"⟩ ]

/-- A scene manager with a shader manager, no texture and the materials above. -/
def exampleScene : SceneManager :=
  { SceneManager.new true with m_objectMaterials := exampleMaterials }

/-- An arbitrary content for an output material. -/
def exampleMaterial : OBJECT_MATERIAL := ⟨⟨1, 2, 3⟩, ⟨4, 5, 6⟩, 7, "stale"⟩

/-- Three loads of RGB and RGBA images under distinct tags. -/
def exampleLoads : List (Option Int × Nat × String) :=
  [(some 3, 7, "T"), (some 4, 8, "M"), (some 3, 9, "S")]

/-- A registry with three populated slots, two of them tagged "M". -/
def exampleRegistry : SceneManager :=
  { SceneManager.new true with
      m_textureIDs := [⟨"T", 7⟩, ⟨"M", 8⟩, ⟨"M", 9⟩] ++ List.replicate 13 ⟨"/0", GLuint.ofInt (-1)⟩
      m_loadedTextures := 3 }

/-- A registry whose only populated slot holds under "T" the largest `GLuint` as handle. -/
def topHandleRegistry : SceneManager :=
  { SceneManager.new true with
      m_textureIDs := [⟨"T", 4294967295⟩] ++ List.replicate 15 ⟨"/0", GLuint.ofInt (-1)⟩
      m_loadedTextures := 1 }

/-- Sixteen loads of RGB images under distinct tags. -/
def sixteenLoads : List (Option Int × Nat × String) :=
  [(some 3, 1, "a"), (some 3, 2, "b"), (some 3, 3, "c"), (some 3, 4, "d"),
   (some 3, 5, "e"), (some 3, 6, "f"), (some 3, 7, "g"), (some 3, 8, "h"),
   (some 3, 9, "i"), (some 3, 10, "j"), (some 3, 11, "k"), (some 3, 12, "l"),
   (some 3, 13, "m"), (some 3, 14, "n"), (some 3, 15, "o"), (some 3, 16, "p")]

/-- The registry after the sixteen loads above on a fresh scene manager: every slot is
populated. -/
def fullRegistry : SceneManager :=
  { SceneManager.new true with
      m_textureIDs := sixteenLoads.map fun c => ⟨c.2.2, c.2.1⟩
      m_loadedTextures := 16
      gl := sixteenLoads.flatMap fun c => [GLCall.glBindTexture c.2.1, GLCall.glBindTexture 0] }

/-- A scene manager on entry to a renderer: UV scale (1,1), use-texture flag enabled. -/
def entryScene : SceneManager :=
  { exampleScene with
      gl := [GLCall.setUniform "UVscale" (UniformValue.vec2 1 1),
             GLCall.setUniform "bUseTexture" (UniformValue.int 1)] }

/-- Three calls with P held: P alone, then P together with a new press of key 1, then the
same two keys still held. -/
def exampleHold : List Keys :=
  [Hotkey.P.alone, { Hotkey.P.alone with K1 := true }, { Hotkey.P.alone with K1 := true }]

/-- The `double` nearest to 0.1. -/
def exampleScroll : ℚ := 3602879701896397 / 2 ^ 55

/-- The `double` nearest to 100.3. -/
def exampleMouseX : ℚ := 7057985041019699 / 2 ^ 46

/-- A frame with W and key 1 pressed, a mouse move and a scroll of -100. -/
def exampleEvents : List Event :=
  [Event.frame 1 { Keys.none with W := true, K1 := true },
   Event.mousePosition (FP.num 510) (FP.num 390), Event.scrollWheel (FP.num 0) (FP.num (-100))]

/-- Camera methods for the examples: the keys move the position along `Front` or `Up`,
mouse motion adds the offsets to yaw and pitch. -/
def exampleCamera : CameraMethods :=
  { default := ⟨⟨0, 0, 3⟩, ⟨0, 0, -1⟩, ⟨0, 1, 0⟩, 45, FP.num (5/2), -90, 0⟩
    ProcessKeyboard := fun d t c =>
      match d, t with
      | Camera_Movement.FORWARD, FP.num t =>
        { c with Position := c.Position + Vec3.smul t c.Front }
      | Camera_Movement.BACKWARD, FP.num t =>
        { c with Position := c.Position + Vec3.smul (-t) c.Front }
      | Camera_Movement.UP, FP.num t => { c with Position := c.Position + Vec3.smul t c.Up }
      | Camera_Movement.DOWN, FP.num t =>
        { c with Position := c.Position + Vec3.smul (-t) c.Up }
      | _, _ => c
    ProcessMouseMovement := fun x y c =>
      match x, y with
      | FP.num x, FP.num y => { c with Yaw := c.Yaw + x, Pitch := c.Pitch + y }
      | _, _ => c }

/-- Outcomes for the image loads of `LoadSceneTextures`: load `k` decodes with three
channels when `k` is even and with four when it is odd, and gets the handle `k + 1`. -/
def exampleImages (k : Nat) : Option Int × Nat :=
  (some (if k % 2 = 0 then 3 else 4), k + 1)

/-! ## Theorems: material registry -/

theorem FindMaterial_loop_miss (tag : String) (material : OBJECT_MATERIAL) :
    ∀ l : List OBJECT_MATERIAL, (∀ m ∈ l, m.tag ≠ tag) →
      FindMaterial.loop tag l material = (false, material)
  | [], _ => rfl
  | m :: rest, h => by
    have hm : m.tag ≠ tag := h m (List.mem_cons_self _ _)
    have hrest : ∀ m' ∈ rest, m'.tag ≠ tag := fun m' hm' => h m' (List.mem_cons_of_mem _ hm')
    simp [FindMaterial.loop, hm, FindMaterial_loop_miss tag material rest hrest]

theorem FindMaterial_loop_first (tag : String) (material : OBJECT_MATERIAL) :
    ∀ (l : List OBJECT_MATERIAL) (i : Nat) (m : OBJECT_MATERIAL), l[i]? = some m →
      m.tag = tag → (∀ j m', j < i → l[j]? = some m' → m'.tag ≠ tag) →
      FindMaterial.loop tag l material =
        (true, { material with
                   diffuseColor := m.diffuseColor
                   specularColor := m.specularColor
                   shininess := m.shininess })
  | [], i, m, h, _, _ => by simp at h
  | a :: rest, 0, m, h, ht, _ => by
    simp at h
    subst h
    simp [FindMaterial.loop, ht]
  | a :: rest, i + 1, m, h, ht, hfirst => by
    have ha : a.tag ≠ tag := hfirst 0 a (Nat.succ_pos i) (by simp)
    have hrest : ∀ j m', j < i → rest[j]? = some m' → m'.tag ≠ tag :=
      fun j m' hj hm' => hfirst (j + 1) m' (Nat.succ_lt_succ hj) (by simpa using hm')
    have h' : rest[i]? = some m := by simpa using h
    simp [FindMaterial.loop, ha, FindMaterial_loop_first tag material rest i m h' ht hrest]

/-- C1 (what the code does): in a scene whose material list is non-empty and has no entry
tagged "steel", `FindMaterial` looks up "steel" and returns true. -/
theorem FindMaterial_true_on_unregistered_tag :
    exampleScene.m_objectMaterials ≠ [] ∧
    (∀ m ∈ exampleScene.m_objectMaterials, m.tag ≠ "steel") ∧
    (FindMaterial "steel" exampleMaterial exampleScene).1 = true := by
  refine ⟨by decide, ?_, rfl⟩
  intro m hm
  simp [exampleScene, exampleMaterials] at hm
  rcases hm with h | h | h <;> subst h <;> decide

/-- C2: the output parameter of `FindMaterial` is unchanged in every field when no entry of
the list carries the tag; when some entry does, its diffuse colour, specular colour and
shininess are those of the entry of lowest index carrying the tag, and its tag field is
left as it was. -/
theorem FindMaterial_output (s : SceneManager) (tag : String) (material : OBJECT_MATERIAL) :
    ((∀ m ∈ s.m_objectMaterials, m.tag ≠ tag) →
      (FindMaterial tag material s).2 = material) ∧
    (∀ (i : Nat) (m : OBJECT_MATERIAL), s.m_objectMaterials[i]? = some m → m.tag = tag →
      (∀ j m', j < i → s.m_objectMaterials[j]? = some m' → m'.tag ≠ tag) →
      (FindMaterial tag material s).2 =
        { material with
            diffuseColor := m.diffuseColor
            specularColor := m.specularColor
            shininess := m.shininess }) := by
  constructor
  · intro h
    unfold FindMaterial
    split
    · rfl
    · simp [FindMaterial_loop_miss tag material _ h]
  · intro i m hi ht hfirst
    unfold FindMaterial
    split
    · rename_i hlen
      have : s.m_objectMaterials = [] := List.length_eq_zero.mp hlen
      rw [this] at hi
      simp at hi
    · simp [FindMaterial_loop_first tag material _ i m hi ht hfirst]

/-- Witness of C2: with "wood" at indices 1 and 2 the output takes the values of index 1,
and a lookup of "steel" leaves the output as it was. -/
theorem FindMaterial_output_witness :
    (FindMaterial "steel" exampleMaterial exampleScene).2 = exampleMaterial ∧
    (FindMaterial "wood" exampleMaterial exampleScene).2 =
      ⟨⟨0.2, 0.2, 0.3⟩, ⟨0.0, 0.0, 0.0⟩, 0.1, "stale"⟩ := by
  constructor
  · refine (FindMaterial_output exampleScene "steel" exampleMaterial).1 ?_
    intro m hm
    simp [exampleScene, exampleMaterials] at hm
    rcases hm with h | h | h <;> subst h <;> decide
  · refine (FindMaterial_output exampleScene "wood" exampleMaterial).2 1
      ⟨⟨0.2, 0.2, 0.3⟩, ⟨0.0, 0.0, 0.0⟩, 0.1, "wood"⟩ rfl rfl ?_
    intro j m' hj hm'
    have hj0 : j = 0 := by omega
    subst hj0
    simp [exampleScene, exampleMaterials] at hm'
    subst hm'
    decide

/-! ## Theorems: texture registry -/

theorem FindTextureSlot_loop_miss (s : SceneManager) (tag : String) :
    ∀ k index : Nat, index + k ≤ s.m_textureIDs.length →
      (∀ i t, index ≤ i → i < index + k → s.m_textureIDs[i]? = some t → t.tag ≠ tag) →
      FindTextureSlot.loop s tag k index = some (-1)
  | 0, _, _, _ => rfl
  | k + 1, index, hlen, h => by
    have hidx : index < s.m_textureIDs.length := by omega
    have ht : s.m_textureIDs[index]? = some s.m_textureIDs[index] :=
      List.getElem?_eq_getElem hidx
    have hne := h index _ le_rfl (by omega) ht
    simp only [FindTextureSlot.loop, ht, hne, if_false]
    exact FindTextureSlot_loop_miss s tag k (index + 1) (by omega)
      (fun i t hi hi' => h i t (by omega) (by omega))

theorem FindTextureID_loop_miss (s : SceneManager) (tag : String) :
    ∀ k index : Nat, index + k ≤ s.m_textureIDs.length →
      (∀ i t, index ≤ i → i < index + k → s.m_textureIDs[i]? = some t → t.tag ≠ tag) →
      FindTextureID.loop s tag k index = some (-1)
  | 0, _, _, _ => rfl
  | k + 1, index, hlen, h => by
    have hidx : index < s.m_textureIDs.length := by omega
    have ht : s.m_textureIDs[index]? = some s.m_textureIDs[index] :=
      List.getElem?_eq_getElem hidx
    have hne := h index _ le_rfl (by omega) ht
    simp only [FindTextureID.loop, ht, hne, if_false]
    exact FindTextureID_loop_miss s tag k (index + 1) (by omega)
      (fun i t hi hi' => h i t (by omega) (by omega))

theorem FindTextureSlot_loop_hit (s : SceneManager) (tag : String) :
    ∀ (k index i : Nat) (t : TEXTURE_INFO), index ≤ i → i < index + k →
      s.m_textureIDs[i]? = some t → t.tag = tag →
      (∀ j t', index ≤ j → j < i → s.m_textureIDs[j]? = some t' → t'.tag ≠ tag) →
      FindTextureSlot.loop s tag k index = some (i : Int)
  | 0, index, i, _, h1, h2, _, _, _ => by omega
  | k + 1, index, i, t, h1, h2, hi, ht, hfirst => by
    rcases Nat.eq_or_lt_of_le h1 with heq | hlt
    · subst heq
      simp [FindTextureSlot.loop, hi, ht]
    · have hlen : i < s.m_textureIDs.length := by
        rcases List.getElem?_eq_some_iff.mp hi with ⟨h, _⟩
        exact h
      have hidx : index < s.m_textureIDs.length := by omega
      have h0 : s.m_textureIDs[index]? = some s.m_textureIDs[index] :=
        List.getElem?_eq_getElem hidx
      have hne := hfirst index _ le_rfl hlt h0
      simp only [FindTextureSlot.loop, h0, hne, if_false]
      exact FindTextureSlot_loop_hit s tag k (index + 1) i t (by omega) (by omega) hi ht
        (fun j t' hj hj' => hfirst j t' (by omega) hj')

theorem FindTextureID_loop_hit (s : SceneManager) (tag : String) :
    ∀ (k index i : Nat) (t : TEXTURE_INFO), index ≤ i → i < index + k →
      s.m_textureIDs[i]? = some t → t.tag = tag →
      (∀ j t', index ≤ j → j < i → s.m_textureIDs[j]? = some t' → t'.tag ≠ tag) →
      FindTextureID.loop s tag k index = some (GLuint.toInt t.ID)
  | 0, index, i, _, h1, h2, _, _, _ => by omega
  | k + 1, index, i, t, h1, h2, hi, ht, hfirst => by
    rcases Nat.eq_or_lt_of_le h1 with heq | hlt
    · subst heq
      simp [FindTextureID.loop, hi, ht]
    · have hlen : i < s.m_textureIDs.length := by
        rcases List.getElem?_eq_some_iff.mp hi with ⟨h, _⟩
        exact h
      have hidx : index < s.m_textureIDs.length := by omega
      have h0 : s.m_textureIDs[index]? = some s.m_textureIDs[index] :=
        List.getElem?_eq_getElem hidx
      have hne := hfirst index _ le_rfl hlt h0
      simp only [FindTextureID.loop, h0, hne, if_false]
      exact FindTextureID_loop_hit s tag k (index + 1) i t (by omega) (by omega) hi ht
        (fun j t' hj hj' => hfirst j t' (by omega) hj')

theorem CreateGLTexture_registers (s : SceneManager) (n : Int) (textureID : Nat) (tag : String)
    (hn : n = 3 ∨ n = 4) (hcap : s.m_loadedTextures < s.m_textureIDs.length) :
    CreateGLTexture (some n) textureID tag s = some (true,
      { s with
          m_textureIDs := s.m_textureIDs.set s.m_loadedTextures ⟨tag, textureID⟩
          m_loadedTextures := s.m_loadedTextures + 1
          gl := s.gl ++ [GLCall.glBindTexture textureID, GLCall.glBindTexture 0] }) := by
  simp [CreateGLTexture, SceneManager.emit, hn, hcap]

theorem CreateGLTexture_true_inv (s s' : SceneManager) (image : Option Int)
    (textureID : Nat) (tag : String)
    (h : CreateGLTexture image textureID tag s = some (true, s')) :
    (image = some 3 ∨ image = some 4) ∧
    s.m_loadedTextures < s.m_textureIDs.length ∧
    s'.m_loadedTextures = s.m_loadedTextures + 1 ∧
    s'.m_textureIDs = s.m_textureIDs.set s.m_loadedTextures ⟨tag, textureID⟩ := by
  cases image with
  | none => simp [CreateGLTexture] at h
  | some n =>
    by_cases hn : n = 3 ∨ n = 4
    · by_cases hcap : s.m_loadedTextures < s.m_textureIDs.length
      · rw [CreateGLTexture_registers s n textureID tag hn hcap] at h
        simp at h
        subst h
        refine ⟨?_, hcap, rfl, rfl⟩
        rcases hn with h3 | h4
        · exact Or.inl (by rw [h3])
        · exact Or.inr (by rw [h4])
      · simp [CreateGLTexture, SceneManager.emit, hn, hcap] at h
    · simp [CreateGLTexture, SceneManager.emit, hn] at h

theorem CreateGLTextures_registers :
    ∀ (calls : List (Option Int × Nat × String)) (s : SceneManager),
      (∀ c ∈ calls, c.1 = some 3 ∨ c.1 = some 4) →
      s.m_loadedTextures + calls.length ≤ s.m_textureIDs.length →
      ∃ s', CreateGLTextures calls s = some (List.replicate calls.length true, s') ∧
        s'.m_loadedTextures = s.m_loadedTextures + calls.length ∧
        s'.m_textureIDs.length = s.m_textureIDs.length ∧
        (∀ i, i < s.m_loadedTextures → s'.m_textureIDs[i]? = s.m_textureIDs[i]?) ∧
        (∀ k c, calls[k]? = some c →
          s'.m_textureIDs[s.m_loadedTextures + k]? = some ⟨c.2.2, c.2.1⟩)
  | [], s, _, _ => ⟨s, rfl, rfl, rfl, fun _ _ => rfl, fun k c h => by simp at h⟩
  | (image, textureID, tag) :: rest, s, hok, hcap => by
    have hcap1 : s.m_loadedTextures < s.m_textureIDs.length := by
      simp only [List.length_cons] at hcap
      omega
    obtain ⟨n, hn, himg⟩ : ∃ n : Int, (n = 3 ∨ n = 4) ∧ image = some n := by
      rcases hok (image, textureID, tag) (List.mem_cons_self _ _) with h | h
      · exact ⟨3, Or.inl rfl, h⟩
      · exact ⟨4, Or.inr rfl, h⟩
    subst himg
    have hstep := CreateGLTexture_registers s n textureID tag hn hcap1
    obtain ⟨s', hrun, hcount, hlen, hkeep, hnew⟩ :=
      CreateGLTextures_registers rest
        { s with
            m_textureIDs := s.m_textureIDs.set s.m_loadedTextures ⟨tag, textureID⟩
            m_loadedTextures := s.m_loadedTextures + 1
            gl := s.gl ++ [GLCall.glBindTexture textureID, GLCall.glBindTexture 0] }
        (fun c hc => hok c (List.mem_cons_of_mem _ hc))
        (by simp only [List.length_cons, List.length_set] at hcap ⊢; omega)
    refine ⟨s', ?_, ?_, ?_, ?_, ?_⟩
    · simp [CreateGLTextures, hstep, hrun, List.replicate_succ]
    · simp only [List.length_cons] at hcount ⊢
      omega
    · simpa using hlen
    · intro i hi
      rw [hkeep i (by simp only []; omega)]
      simp only []
      rw [List.getElem?_set_ne (by omega)]
    · intro k c hk
      cases k with
      | zero =>
        simp at hk
        subst hk
        rw [Nat.add_zero, hkeep s.m_loadedTextures (by simp only []; omega)]
        simp only []
        rw [List.getElem?_set_self hcap1]
      | succ k =>
        have hk' : rest[k]? = some c := by simpa using hk
        have := hnew k c hk'
        simp only [] at this
        rw [← this]
        congr 1
        omega

/-- C3: at most 16 `CreateGLTexture` calls with 3- or 4-channel images and pairwise distinct
tags, applied to a freshly constructed registry, all return true, and afterwards
`FindTextureSlot` maps the tag of call `k` to `k`; and every call that returns true
increases `m_loadedTextures` by one, stores tag and handle in the slot at the old
`m_loadedTextures` and leaves every other slot as it was. -/
theorem CreateGLTexture_slot_order :
    (∀ (calls : List (Option Int × Nat × String)) (pShaderManager : Bool),
      calls.length ≤ 16 →
      (∀ c ∈ calls, c.1 = some 3 ∨ c.1 = some 4) →
      (calls.map fun c => c.2.2).Nodup →
      ∃ s', CreateGLTextures calls (SceneManager.new pShaderManager) =
          some (List.replicate calls.length true, s') ∧
        s'.m_loadedTextures = calls.length ∧
        ∀ (k : Nat) (c : Option Int × Nat × String), calls[k]? = some c →
          FindTextureSlot c.2.2 s' = some (k : Int)) ∧
    (∀ (s s' : SceneManager) (image : Option Int) (textureID : Nat) (tag : String),
      CreateGLTexture image textureID tag s = some (true, s') →
      s'.m_loadedTextures = s.m_loadedTextures + 1 ∧
      s'.m_textureIDs[s.m_loadedTextures]? = some ⟨tag, textureID⟩ ∧
      ∀ i, i ≠ s.m_loadedTextures → s'.m_textureIDs[i]? = s.m_textureIDs[i]?) := by
  constructor
  · intro calls sm hlen hok hnodup
    obtain ⟨s', hrun, hcount, hlen', _, hnew⟩ :=
      CreateGLTextures_registers calls (SceneManager.new sm) hok
        (by simpa [SceneManager.new, textureCapacity] using hlen)
    have hcount0 : s'.m_loadedTextures = calls.length := by
      simpa [SceneManager.new] using hcount
    refine ⟨s', hrun, hcount0, ?_⟩
    intro k c hk
    have hslot : ∀ (j : Nat) (d : Option Int × Nat × String), calls[j]? = some d →
        s'.m_textureIDs[j]? = some (TEXTURE_INFO.mk d.2.2 d.2.1) := by
      intro j d hj
      have := hnew j d hj
      simpa [SceneManager.new] using this
    have hklt : k < calls.length := (List.getElem?_eq_some_iff.mp hk).1
    unfold FindTextureSlot
    refine FindTextureSlot_loop_hit s' c.2.2 _ 0 k ⟨c.2.2, c.2.1⟩ (Nat.zero_le _)
      (by omega) (hslot k c hk) rfl ?_
    intro j t' _ hjk hj
    have hjlt : j < calls.length := by omega
    have hd : calls[j]? = some calls[j] := List.getElem?_eq_getElem hjlt
    have := hslot j _ hd
    rw [this] at hj
    simp at hj
    subst hj
    simp only []
    intro heq
    have hk1 : (calls.map fun c => c.2.2)[k]? = some c.2.2 := by simp [hk]
    have hj1 : (calls.map fun c => c.2.2)[j]? = some c.2.2 := by simp [hd, heq]
    have hjk' : j = k := by
      have h1 := (List.getElem?_eq_some_iff.mp hj1)
      have h2 := (List.getElem?_eq_some_iff.mp hk1)
      rcases h1 with ⟨h1a, h1b⟩
      rcases h2 with ⟨h2a, h2b⟩
      exact (List.Nodup.getElem_inj_iff hnodup).mp (h1b.trans h2b.symm)
    omega
  · intro s s' image textureID tag h
    obtain ⟨_, hcap, hcount, hids⟩ := CreateGLTexture_true_inv s s' image textureID tag h
    refine ⟨hcount, ?_, ?_⟩
    · rw [hids, List.getElem?_set_self hcap]
    · intro i hi
      rw [hids, List.getElem?_set_ne (Ne.symm hi)]

/-- Witness of C3: three loads tagged "T", "M", "S" on a fresh registry. -/
theorem CreateGLTexture_slot_order_witness :
    ∃ s', CreateGLTextures exampleLoads (SceneManager.new true) =
        some (List.replicate exampleLoads.length true, s') ∧
      s'.m_loadedTextures = exampleLoads.length ∧
      ∀ (k : Nat) (c : Option Int × Nat × String), exampleLoads[k]? = some c →
        FindTextureSlot c.2.2 s' = some (k : Int) :=
  CreateGLTexture_slot_order.1 exampleLoads true (by decide) (by decide) (by decide)

theorem GLuint_toInt_small (n : Nat) (h : n < 2 ^ 31) : GLuint.toInt n = (n : Int) := by
  have h1 : n % 2 ^ 32 = n := Nat.mod_eq_of_lt (by omega)
  unfold GLuint.toInt
  rw [h1, if_pos h]

theorem GLuint_toInt_large (n : Nat) (h1 : 2 ^ 31 ≤ n) (h2 : n < 2 ^ 32) :
    GLuint.toInt n = (n : Int) - 2 ^ 32 := by
  have h3 : n % 2 ^ 32 = n := Nat.mod_eq_of_lt h2
  have h4 : ¬ n < 2 ^ 31 := by omega
  unfold GLuint.toInt
  rw [h3, if_neg h4]

theorem GLuint_ofInt_toInt (n : Nat) : GLuint.ofInt (GLuint.toInt n) = n % 2 ^ 32 := by
  have hlt : n % 2 ^ 32 < 2 ^ 32 := Nat.mod_lt _ (by decide)
  unfold GLuint.ofInt GLuint.toInt
  split <;> omega

/-- C4 (what the code does): the load of a 3-channel image for which GL hands out the handle
4294967295, on a fresh scene manager, registers it under "T" in slot 0; `FindTextureSlot`
then answers 0 for "T", and `FindTextureID` answers -1, not the handle stored in slot 0:
the value it answers for a tag no slot carries. -/
theorem FindTextureID_handle_wraps :
    (∃ s', CreateGLTexture (some 3) 4294967295 "T" (SceneManager.new true) = some (true, s') ∧
      s'.m_textureIDs = topHandleRegistry.m_textureIDs ∧
      s'.m_loadedTextures = topHandleRegistry.m_loadedTextures) ∧
    topHandleRegistry.m_textureIDs[0]? = some ⟨"T", 4294967295⟩ ∧
    FindTextureSlot "T" topHandleRegistry = some 0 ∧
    FindTextureID "T" topHandleRegistry = some (-1) ∧
    FindTextureID "absent" topHandleRegistry = some (-1) := by
  refine ⟨⟨_, CreateGLTexture_registers (SceneManager.new true) 3 4294967295 "T"
    (Or.inl rfl) (by decide), rfl, rfl⟩, rfl, ?_, ?_, ?_⟩
  · simp [FindTextureSlot, FindTextureSlot.loop, topHandleRegistry]
  · simp [FindTextureID, FindTextureID.loop, topHandleRegistry, GLuint.toInt]
  · simp [FindTextureID, FindTextureID.loop, topHandleRegistry]

/-- C4 (amended): in a registry whose populated count does not exceed the array,
`FindTextureSlot` returns the smallest populated index whose tag equals the tag searched and
`FindTextureID` the handle stored there converted from `GLuint` to `int`: the handle itself
when it is below 2^31, the handle minus 2^32 from 2^31 on; both return -1 when no populated
slot carries the tag, whatever the unpopulated slots hold. -/
theorem FindTexture_first_match (s : SceneManager) (tag : String)
    (hcap : s.m_loadedTextures ≤ s.m_textureIDs.length) :
    (∀ (i : Nat) (t : TEXTURE_INFO), i < s.m_loadedTextures → s.m_textureIDs[i]? = some t →
      t.tag = tag →
      (∀ (j : Nat) (t' : TEXTURE_INFO), j < i → s.m_textureIDs[j]? = some t' → t'.tag ≠ tag) →
      FindTextureSlot tag s = some (i : Int) ∧
      FindTextureID tag s = some (GLuint.toInt t.ID) ∧
      (t.ID < 2 ^ 31 → FindTextureID tag s = some (t.ID : Int)) ∧
      (2 ^ 31 ≤ t.ID → t.ID < 2 ^ 32 → FindTextureID tag s = some ((t.ID : Int) - 2 ^ 32))) ∧
    ((∀ (i : Nat) (t : TEXTURE_INFO), i < s.m_loadedTextures → s.m_textureIDs[i]? = some t →
        t.tag ≠ tag) →
      FindTextureSlot tag s = some (-1) ∧ FindTextureID tag s = some (-1)) := by
  constructor
  · intro i t hi ht htag hfirst
    have hid : FindTextureID tag s = some (GLuint.toInt t.ID) :=
      FindTextureID_loop_hit s tag _ 0 i t (Nat.zero_le _) (by omega) ht htag
        (fun j t' _ hj => hfirst j t' hj)
    refine ⟨FindTextureSlot_loop_hit s tag _ 0 i t (Nat.zero_le _) (by omega) ht htag
        (fun j t' _ hj => hfirst j t' hj), hid, ?_, ?_⟩
    · intro hsmall
      rw [hid, GLuint_toInt_small _ hsmall]
    · intro h1 h2
      rw [hid, GLuint_toInt_large _ h1 h2]
  · intro hmiss
    exact ⟨FindTextureSlot_loop_miss s tag _ 0 (by omega)
        (fun i t _ hi => hmiss i t (by omega)),
      FindTextureID_loop_miss s tag _ 0 (by omega)
        (fun i t _ hi => hmiss i t (by omega))⟩

/-- Witness of C4: with "M" in slots 1 and 2 the lookup answers slot 1 and its handle 8;
the sentinel tag "/0", held by the thirteen unpopulated slots only, is not found. -/
theorem FindTexture_first_match_witness :
    (FindTextureSlot "M" exampleRegistry = some 1 ∧
      FindTextureID "M" exampleRegistry = some 8) ∧
    (FindTextureSlot "/0" exampleRegistry = some (-1) ∧
      FindTextureID "/0" exampleRegistry = some (-1)) := by
  have hcap : exampleRegistry.m_loadedTextures ≤ exampleRegistry.m_textureIDs.length := by
    decide
  constructor
  · obtain ⟨h1, _, h2, _⟩ := (FindTexture_first_match exampleRegistry "M" hcap).1 1 ⟨"M", 8⟩
      (by decide) rfl rfl (by
        intro j t' hj ht'
        have hj0 : j = 0 := by omega
        subst hj0
        simp [exampleRegistry] at ht'
        subst ht'
        decide)
    exact ⟨h1, h2 (by decide)⟩
  · refine (FindTexture_first_match exampleRegistry "/0" hcap).2 ?_
    intro i t hi ht
    have hi3 : i < 3 := hi
    interval_cases i <;> simp [exampleRegistry] at ht <;> subst ht <;> decide

/-- C5: when the decoder fails, or decodes with a channel count other than 3 and 4,
`CreateGLTexture` returns false and leaves `m_loadedTextures`, every slot of
`m_textureIDs` and the material list as they were; and it returns true only for a channel
count of 3 or 4. -/
theorem CreateGLTexture_failure (s : SceneManager) (image : Option Int) (textureID : Nat)
    (tag : String) :
    ((image = none ∨ ∃ n : Int, image = some n ∧ n ≠ 3 ∧ n ≠ 4) →
      ∃ s', CreateGLTexture image textureID tag s = some (false, s') ∧
        s'.m_loadedTextures = s.m_loadedTextures ∧
        s'.m_textureIDs = s.m_textureIDs ∧
        s'.m_objectMaterials = s.m_objectMaterials) ∧
    (∀ s', CreateGLTexture image textureID tag s = some (true, s') →
      image = some 3 ∨ image = some 4) := by
  constructor
  · rintro (h | ⟨n, h, h3, h4⟩)
    · subst h
      exact ⟨s, rfl, rfl, rfl, rfl⟩
    · subst h
      exact ⟨s.emit [GLCall.glBindTexture textureID],
        by simp [CreateGLTexture, h3, h4], rfl, rfl, rfl⟩
  · intro s' h
    exact (CreateGLTexture_true_inv s s' image textureID tag h).1

/-- Witness of C5: a grayscale image (one channel) and an unreadable file, offered to a
registry with three populated slots. -/
theorem CreateGLTexture_failure_witness :
    (∃ s', CreateGLTexture (some 1) 10 "G" exampleRegistry = some (false, s') ∧
      s'.m_loadedTextures = exampleRegistry.m_loadedTextures ∧
      s'.m_textureIDs = exampleRegistry.m_textureIDs ∧
      s'.m_objectMaterials = exampleRegistry.m_objectMaterials) ∧
    (∃ s', CreateGLTexture none 10 "G" exampleRegistry = some (false, s') ∧
      s'.m_loadedTextures = exampleRegistry.m_loadedTextures ∧
      s'.m_textureIDs = exampleRegistry.m_textureIDs ∧
      s'.m_objectMaterials = exampleRegistry.m_objectMaterials) :=
  ⟨(CreateGLTexture_failure exampleRegistry (some 1) 10 "G").1
      (Or.inr ⟨1, rfl, by decide, by decide⟩),
    (CreateGLTexture_failure exampleRegistry none 10 "G").1 (Or.inl rfl)⟩

theorem CreateGLTexture_keeps_bound (s s' : SceneManager) (image : Option Int)
    (textureID : Nat) (tag : String) (b : Bool)
    (h : CreateGLTexture image textureID tag s = some (b, s')) :
    s'.m_textureIDs.length = s.m_textureIDs.length ∧
    (s.m_loadedTextures ≤ s.m_textureIDs.length →
      s'.m_loadedTextures ≤ s'.m_textureIDs.length) := by
  cases b with
  | true =>
    obtain ⟨_, hcap, hcount, hids⟩ := CreateGLTexture_true_inv s s' image textureID tag h
    rw [hids, hcount, List.length_set]
    exact ⟨rfl, fun _ => hcap⟩
  | false =>
    cases image with
    | none =>
      simp [CreateGLTexture] at h
      subst h
      exact ⟨rfl, id⟩
    | some n =>
      by_cases hn : n = 3 ∨ n = 4
      · by_cases hcap : s.m_loadedTextures < s.m_textureIDs.length
        · rw [CreateGLTexture_registers s n textureID tag hn hcap] at h
          simp at h
        · simp [CreateGLTexture, SceneManager.emit, hn, hcap] at h
      · simp [CreateGLTexture, SceneManager.emit, hn] at h
        subst h
        exact ⟨rfl, id⟩

theorem CreateGLTextures_keep_bound :
    ∀ (calls : List (Option Int × Nat × String)) (s s' : SceneManager) (rs : List Bool),
      CreateGLTextures calls s = some (rs, s') →
      s'.m_textureIDs.length = s.m_textureIDs.length ∧
      (s.m_loadedTextures ≤ s.m_textureIDs.length →
        s'.m_loadedTextures ≤ s'.m_textureIDs.length)
  | [], s, s', rs, h => by
    simp [CreateGLTextures] at h
    rcases h with ⟨_, h⟩
    subst h
    exact ⟨rfl, id⟩
  | (image, textureID, tag) :: rest, s, s', rs, h => by
    simp only [CreateGLTextures] at h
    cases h1 : CreateGLTexture image textureID tag s with
    | none => simp [h1] at h
    | some r1 =>
      obtain ⟨b, s1⟩ := r1
      simp only [h1] at h
      cases h2 : CreateGLTextures rest s1 with
      | none => simp [h2] at h
      | some r2 =>
        obtain ⟨bs, s2⟩ := r2
        simp only [h2, Option.some.injEq, Prod.mk.injEq] at h
        rcases h with ⟨_, h⟩
        subst h
        have hstep := CreateGLTexture_keeps_bound s s1 image textureID tag b h1
        have hrest := CreateGLTextures_keep_bound rest s1 s2 bs h2
        exact ⟨hrest.1.trans hstep.1, fun hb => hrest.2 (hstep.2 hb)⟩

/-- C6 (what the code does): sixteen loads fill a fresh registry, and a seventeenth load of
an RGB image is not answered with false: it registers at index 16 of the 16-slot array, so
it has no defined result. -/
theorem CreateGLTexture_full_not_refused :
    CreateGLTextures sixteenLoads (SceneManager.new true) =
      some (List.replicate 16 true, fullRegistry) ∧
    fullRegistry.m_loadedTextures = 16 ∧
    fullRegistry.m_textureIDs.length = 16 ∧
    CreateGLTexture (some 3) 17 "q" fullRegistry = none ∧
    ¬ ∃ s', CreateGLTexture (some 3) 17 "q" fullRegistry = some (false, s') := by
  have hnone : CreateGLTexture (some 3) 17 "q" fullRegistry = none := by
    simp [CreateGLTexture, SceneManager.emit, fullRegistry, sixteenLoads]
  refine ⟨rfl, rfl, rfl, hnone, ?_⟩
  rintro ⟨s', h⟩
  rw [hnone] at h
  exact Option.noConfusion h

/-- C6 (amended): `CreateGLTexture` makes no capacity check. A call with a 3- or 4-channel
image made while `m_loadedTextures` is below the array length returns true, adds one to
`m_loadedTextures` and keeps the array length; after every sequence of loads on a fresh
scene manager that has a defined result the array has 16 slots and `m_loadedTextures` is
at most 16; and a call with a 3- or 4-channel image made when `m_loadedTextures` equals the
array length is not answered with false. -/
theorem CreateGLTexture_capacity :
    (∀ (s : SceneManager) (n : Int) (textureID : Nat) (tag : String), (n = 3 ∨ n = 4) →
      s.m_loadedTextures < s.m_textureIDs.length →
      ∃ s', CreateGLTexture (some n) textureID tag s = some (true, s') ∧
        s'.m_loadedTextures = s.m_loadedTextures + 1 ∧
        s'.m_textureIDs.length = s.m_textureIDs.length) ∧
    (∀ (calls : List (Option Int × Nat × String)) (pShaderManager : Bool)
      (rs : List Bool) (s' : SceneManager),
      CreateGLTextures calls (SceneManager.new pShaderManager) = some (rs, s') →
      s'.m_textureIDs.length = 16 ∧ s'.m_loadedTextures ≤ 16) ∧
    (∀ (s : SceneManager) (n : Int) (textureID : Nat) (tag : String), (n = 3 ∨ n = 4) →
      s.m_loadedTextures = s.m_textureIDs.length →
      ∀ s', CreateGLTexture (some n) textureID tag s ≠ some (false, s')) := by
  refine ⟨?_, ?_, ?_⟩
  · intro s n textureID tag hn hcap
    exact ⟨_, CreateGLTexture_registers s n textureID tag hn hcap, rfl, by simp⟩
  · intro calls sm rs s' h
    obtain ⟨hlen, hle⟩ := CreateGLTextures_keep_bound calls _ s' rs h
    have h16 : s'.m_textureIDs.length = 16 := by
      simpa [SceneManager.new, textureCapacity] using hlen
    refine ⟨h16, ?_⟩
    have := hle (by simp [SceneManager.new])
    omega
  · intro s n textureID tag hn hfull s' h
    have hcap : ¬ s.m_loadedTextures < s.m_textureIDs.length := by omega
    simp [CreateGLTexture, SceneManager.emit, hn, hcap] at h

/-- Witness of C6 (amended): a load into a registry with three populated slots, the run of
three loads on a fresh registry, and a load into the full registry. -/
theorem CreateGLTexture_capacity_witness :
    (∃ s', CreateGLTexture (some 4) 10 "N" exampleRegistry = some (true, s') ∧
      s'.m_loadedTextures = exampleRegistry.m_loadedTextures + 1 ∧
      s'.m_textureIDs.length = exampleRegistry.m_textureIDs.length) ∧
    (fullRegistry.m_textureIDs.length = 16 ∧ fullRegistry.m_loadedTextures ≤ 16) ∧
    (∀ s', CreateGLTexture (some 3) 17 "q" fullRegistry ≠ some (false, s')) :=
  ⟨CreateGLTexture_capacity.1 exampleRegistry 4 10 "N" (Or.inr rfl) (by decide),
    CreateGLTexture_capacity.2.1 sixteenLoads true (List.replicate 16 true) fullRegistry rfl,
    CreateGLTexture_capacity.2.2 fullRegistry 3 17 "q" (Or.inl rfl) rfl⟩

/-! ## Theorems: scene composer -/

@[simp]
theorem SceneManager_emit_emit (s : SceneManager) (a b : List GLCall) :
    (s.emit a).emit b = s.emit (a ++ b) := by
  simp [SceneManager.emit]

@[simp]
theorem Ready_emit (s : SceneManager) (l : List GLCall) :
    Ready (s.emit l) ↔ Ready s := Iff.rfl

theorem FindTextureSlot_loop_emit (s : SceneManager) (l : List GLCall) (tag : String) :
    ∀ k index : Nat,
      FindTextureSlot.loop (s.emit l) tag k index = FindTextureSlot.loop s tag k index
  | 0, _ => rfl
  | k + 1, index => by
    simp only [FindTextureSlot.loop]
    rw [FindTextureSlot_loop_emit s l tag k (index + 1)]
    rfl

@[simp]
theorem slotOf_emit (tag : String) (s : SceneManager) (l : List GLCall) :
    slotOf tag (s.emit l) = slotOf tag s := by
  unfold slotOf FindTextureSlot
  rw [FindTextureSlot_loop_emit]
  rfl

@[simp]
theorem materialCalls_emit (tag : String) (u : OBJECT_MATERIAL) (s : SceneManager)
    (l : List GLCall) : materialCalls tag u (s.emit l) = materialCalls tag u s := rfl

theorem FindTextureSlot_loop_defined (s : SceneManager) (tag : String) :
    ∀ k index : Nat, index + k ≤ s.m_textureIDs.length →
      ∃ r, FindTextureSlot.loop s tag k index = some r
  | 0, _, _ => ⟨-1, rfl⟩
  | k + 1, index, hlen => by
    have hidx : index < s.m_textureIDs.length := by omega
    have ht : s.m_textureIDs[index]? = some s.m_textureIDs[index] :=
      List.getElem?_eq_getElem hidx
    simp only [FindTextureSlot.loop, ht]
    split
    · exact ⟨_, rfl⟩
    · exact FindTextureSlot_loop_defined s tag k (index + 1) (by omega)

theorem FindTextureSlot_ready (tag : String) (s : SceneManager) (h : Ready s) :
    FindTextureSlot tag s = some (slotOf tag s) := by
  obtain ⟨r, hr⟩ := FindTextureSlot_loop_defined s tag s.m_loadedTextures 0 (by
    have := h.2
    omega)
  unfold slotOf FindTextureSlot
  rw [hr]
  rfl

theorem SetTransformations_ready (a : Vec3) (x y z : ℚ) (p o : Vec3) (s : SceneManager)
    (h : Ready s) :
    SetTransformations a x y z p o s = s.emit [GLCall.setUniform "model" (UniformValue.mat4
      (Mat4.mul (Mat4.mul (Mat4.mul (Mat4.mul (Mat4.translate (p + o))
        (Mat4.rotate ⟨z⟩ ⟨0, 0, 1⟩)) (Mat4.rotate ⟨y⟩ ⟨0, 1, 0⟩))
        (Mat4.rotate ⟨x⟩ ⟨1, 0, 0⟩)) (Mat4.scale a)))] := by
  simp [SetTransformations, h.1]

theorem Vec3_add_zero (p : Vec3) : p + (⟨0, 0, 0⟩ : Vec3) = p := by
  cases p
  show Vec3.add _ _ = _
  simp [Vec3.add]

/-- C7: through a shader manager that is not null, `SetTransformations` pushes as the
"model" uniform the product translate(position + offset) * rotate(radians Z, z axis) *
rotate(radians Y, y axis) * rotate(radians X, x axis) * scale(scale), in that order, for
every scale, rotation triple, position and offset; with a null shader manager it pushes
nothing. In every interpretation of the matrices in a monoid that takes the matrix product
to the product and a rotation by the angle 0 to the unit, the matrix pushed for X = Z = 0
and offset 0 is interpreted as translate(position) * rotate(radians Y, y axis) *
scale(scale). -/
theorem SetTransformations_model {M : Type} [Monoid M] (sem : Mat4 → M)
    (hmul : ∀ a b, sem (Mat4.mul a b) = sem a * sem b)
    (hrot : ∀ axis, sem (Mat4.rotate ⟨0⟩ axis) = 1) :
    (∀ (scaleXYZ : Vec3) (X Y Z : ℚ) (positionXYZ offset : Vec3) (s : SceneManager),
      s.m_pShaderManager = true →
      SetTransformations scaleXYZ X Y Z positionXYZ offset s =
        s.emit [GLCall.setUniform "model" (UniformValue.mat4
          (Mat4.mul (Mat4.mul (Mat4.mul (Mat4.mul (Mat4.translate (positionXYZ + offset))
            (Mat4.rotate ⟨Z⟩ ⟨0, 0, 1⟩)) (Mat4.rotate ⟨Y⟩ ⟨0, 1, 0⟩))
            (Mat4.rotate ⟨X⟩ ⟨1, 0, 0⟩)) (Mat4.scale scaleXYZ)))]) ∧
    (∀ (scaleXYZ : Vec3) (X Y Z : ℚ) (positionXYZ offset : Vec3) (s : SceneManager),
      s.m_pShaderManager = false →
      SetTransformations scaleXYZ X Y Z positionXYZ offset s = s) ∧
    (∀ (scaleXYZ : Vec3) (Y : ℚ) (positionXYZ : Vec3) (s : SceneManager),
      s.m_pShaderManager = true →
      ∃ m, SetTransformations scaleXYZ 0 Y 0 positionXYZ ⟨0, 0, 0⟩ s =
          s.emit [GLCall.setUniform "model" (UniformValue.mat4 m)] ∧
        sem m = sem (Mat4.translate positionXYZ) * sem (Mat4.rotate ⟨Y⟩ ⟨0, 1, 0⟩) *
          sem (Mat4.scale scaleXYZ)) := by
  refine ⟨?_, ?_, ?_⟩
  · intro a X Y Z p o s h
    simp [SetTransformations, h]
  · intro a X Y Z p o s h
    simp [SetTransformations, h]
  · intro a Y p s h
    refine ⟨Mat4.mul (Mat4.mul (Mat4.mul (Mat4.mul (Mat4.translate (p + ⟨0, 0, 0⟩))
      (Mat4.rotate ⟨0⟩ ⟨0, 0, 1⟩)) (Mat4.rotate ⟨Y⟩ ⟨0, 1, 0⟩))
      (Mat4.rotate ⟨0⟩ ⟨1, 0, 0⟩)) (Mat4.scale a), by simp [SetTransformations, h], ?_⟩
    rw [hmul, hmul, hmul, hmul, hrot, hrot, Vec3_add_zero, mul_one, mul_one]

/-- Witness of C7: the free interpretation, and the example of the specification: scale (2,1,1),
rotation (0,90,0), position (1,0,0), on the example scene manager. -/
theorem SetTransformations_model_witness :
    (∀ a b, Mat4.factors (Mat4.mul a b) = Mat4.factors a * Mat4.factors b) ∧
    (∀ axis, Mat4.factors (Mat4.rotate ⟨0⟩ axis) = 1) ∧
    ∃ m, SetTransformations ⟨2, 1, 1⟩ 0 90 0 ⟨1, 0, 0⟩ ⟨0, 0, 0⟩ exampleScene =
        exampleScene.emit [GLCall.setUniform "model" (UniformValue.mat4 m)] ∧
      Mat4.factors m = Mat4.factors (Mat4.translate ⟨1, 0, 0⟩) *
        Mat4.factors (Mat4.rotate ⟨90⟩ ⟨0, 1, 0⟩) * Mat4.factors (Mat4.scale ⟨2, 1, 1⟩) :=
  have hmul : ∀ a b, Mat4.factors (Mat4.mul a b) = Mat4.factors a * Mat4.factors b :=
    fun _ _ => rfl
  have hrot : ∀ axis, Mat4.factors (Mat4.rotate ⟨0⟩ axis) = 1 := fun _ => rfl
  ⟨hmul, hrot, (SetTransformations_model Mat4.factors hmul hrot).2.2 ⟨2, 1, 1⟩ 90 ⟨1, 0, 0⟩
    exampleScene rfl⟩

theorem SetShaderColor_ready (r g b a : ℚ) (s : SceneManager) (h : Ready s) :
    SetShaderColor r g b a s = s.emit
      [GLCall.setUniform "bUseTexture" (UniformValue.int 0),
       GLCall.setUniform "objectColor" (UniformValue.vec4 r g b a)] := by
  simp [SetShaderColor, h.1]

theorem SetTextureUVScale_ready (u v : ℚ) (s : SceneManager) (h : Ready s) :
    SetTextureUVScale u v s = s.emit [GLCall.setUniform "UVscale" (UniformValue.vec2 u v)] := by
  simp [SetTextureUVScale, h.1]

theorem SetShaderTexture_ready (tag : String) (s : SceneManager) (h : Ready s) :
    SetShaderTexture tag s = some (s.emit
      [GLCall.setUniform "bUseTexture" (UniformValue.int 1),
       GLCall.setUniform "objectTexture" (UniformValue.sampler2D (slotOf tag s))]) := by
  have h1 : Ready (s.emit [GLCall.setUniform "bUseTexture" (UniformValue.int 1)]) := h
  simp [SetShaderTexture, h.1, FindTextureSlot_ready tag _ h1]

theorem SetShaderMaterial_ready (tag : String) (u : OBJECT_MATERIAL) (s : SceneManager)
    (h : Ready s) :
    SetShaderMaterial tag u s = some (s.emit (materialCalls tag u s)) := by
  unfold SetShaderMaterial materialCalls
  by_cases hlen : s.m_objectMaterials.length > 0
  · by_cases hb : (FindMaterial tag u s).1 = true
    · simp [hlen, hb, h.1]
    · simp [hlen, hb, SceneManager.emit]
  · simp [hlen, SceneManager.emit]

theorem view_materialCalls (tag : String) (u : OBJECT_MATERIAL) (s : SceneManager) :
    view (materialCalls tag u s) = [] := by
  unfold materialCalls view
  split <;> simp [observed]

@[simp]
theorem filter_materialCalls (tag : String) (u : OBJECT_MATERIAL) (s : SceneManager) :
    List.filter observed (materialCalls tag u s) = [] := view_materialCalls tag u s

theorem view_flatMap {α : Type} (f : α → List GLCall) :
    ∀ xs : List α, view (xs.flatMap f) = xs.flatMap fun x => view (f x)
  | [] => rfl
  | x :: xs => by
    simp only [List.flatMap_cons, view, List.filter_append]
    have := view_flatMap f xs
    simp only [view] at this
    rw [this]

theorem foldlM_emit {α : Type} (body : SceneManager → α → Option SceneManager)
    (L : SceneManager → α → List GLCall)
    (hbody : ∀ s i, Ready s → body s i = some (s.emit (L s i)))
    (hL : ∀ s l i, L (s.emit l) i = L s i) :
    ∀ (xs : List α) (s : SceneManager), Ready s →
      xs.foldlM body s = some (s.emit (xs.flatMap (L s)))
  | [], s, _ => by simp [SceneManager.emit]
  | x :: xs, s, h => by
    have hfun : L (s.emit (L s x)) = L s := funext fun i => hL s (L s x) i
    rw [List.foldlM_cons, hbody s x h]
    simp only [bind, Option.bind]
    rw [foldlM_emit body L hbody hL xs (s.emit (L s x)) h, hfun]
    simp

@[simp]
theorem keyCalls_emit (s : SceneManager) (l : List GLCall) :
    keyCalls (s.emit l) = keyCalls s := by
  funext r c
  simp [keyCalls]

theorem RenderKeyboard_key_calls (r c : Nat) (s : SceneManager) (h : Ready s) :
    RenderKeyboard.key r c s = some (s.emit (keyCalls s r c)) := by
  simp only [RenderKeyboard.key, DrawMesh, h, SetTransformations_ready,
    SetShaderTexture_ready, Ready_emit, SceneManager_emit_emit, slotOf_emit, bind,
    Option.bind, pure]
  rfl

theorem RenderKeyboard_keys_calls (s : SceneManager) (h : Ready s) :
    (List.range 4).foldlM
      (fun s r => (List.range 10).foldlM (fun s c => RenderKeyboard.key r c s) s) s =
    some (s.emit ((List.range 4).flatMap fun r => (List.range 10).flatMap (keyCalls s r))) := by
  refine foldlM_emit
    (fun s r => (List.range 10).foldlM (fun s c => RenderKeyboard.key r c s) s)
    (fun s r => (List.range 10).flatMap (keyCalls s r)) ?_ ?_ (List.range 4) s h
  · intro s r hs
    exact foldlM_emit (fun s c => RenderKeyboard.key r c s) (fun s c => keyCalls s r c)
      (fun s c hs => RenderKeyboard_key_calls r c s hs)
      (fun s l c => by simp) (List.range 10) s hs
  · intro s l r
    simp

theorem view_keys (s : SceneManager) :
    view ((List.range 4).flatMap fun r => (List.range 10).flatMap (keyCalls s r)) =
      (List.replicate 40
        [GLCall.setUniform "bUseTexture" (UniformValue.int 1), GLCall.draw Mesh.box]).flatten := by
  rw [view_flatMap]
  have hkey : ∀ r c, view (keyCalls s r c) =
      [GLCall.setUniform "bUseTexture" (UniformValue.int 1), GLCall.draw Mesh.box] := by
    intro r c
    simp [view, keyCalls, observed]
  simp only [view_flatMap, hkey]
  rfl

theorem RenderTable_calls (u : OBJECT_MATERIAL) (s : SceneManager) (h : Ready s) :
    ∃ l, RenderTable u s = some (s.emit l) ∧
      view l = [GLCall.setUniform "bUseTexture" (UniformValue.int 1),
                GLCall.setUniform "UVscale" (UniformValue.vec2 5.0 5.0),
                GLCall.draw Mesh.plane] := by
  apply Exists.intro
  apply And.intro
  · simp only [RenderTable, DrawMesh, h, SetTransformations_ready, SetShaderMaterial_ready,
      SetShaderTexture_ready, SetTextureUVScale_ready, Ready_emit, SceneManager_emit_emit,
      slotOf_emit, materialCalls_emit, bind, Option.bind, pure]
    rfl
  · simp [view, List.filter_append, observed]

theorem RenderMonitor_calls (u : OBJECT_MATERIAL) (s : SceneManager) (h : Ready s) :
    ∃ l, RenderMonitor u s = some (s.emit l) ∧
      view l = [GLCall.setUniform "bUseTexture" (UniformValue.int 1), GLCall.draw Mesh.box,
                GLCall.setUniform "bUseTexture" (UniformValue.int 1), GLCall.draw Mesh.box,
                GLCall.setUniform "bUseTexture" (UniformValue.int 0), GLCall.draw Mesh.box] := by
  apply Exists.intro
  apply And.intro
  · simp only [RenderMonitor, DrawMesh, h, SetTransformations_ready, SetShaderMaterial_ready,
      SetShaderTexture_ready, SetShaderColor_ready, Ready_emit, SceneManager_emit_emit,
      slotOf_emit, materialCalls_emit, bind, Option.bind, pure]
    rfl
  · simp [view, List.filter_append, observed]

theorem RenderKeyboard_calls (u : OBJECT_MATERIAL) (s : SceneManager) (h : Ready s) :
    ∃ l, RenderKeyboard u s = some (s.emit l) ∧
      view l = [GLCall.setUniform "bUseTexture" (UniformValue.int 1), GLCall.draw Mesh.box,
                GLCall.setUniform "UVscale" (UniformValue.vec2 4.0 4.0)] ++
        (List.replicate 40
          [GLCall.setUniform "bUseTexture" (UniformValue.int 1), GLCall.draw Mesh.box]).flatten ++
        [GLCall.setUniform "UVscale" (UniformValue.vec2 1.0 1.0)] := by
  apply Exists.intro
  apply And.intro
  · simp only [RenderKeyboard, DrawMesh, h, SetTransformations_ready, SetShaderMaterial_ready,
      SetShaderTexture_ready, SetTextureUVScale_ready, Ready_emit, SceneManager_emit_emit,
      slotOf_emit, materialCalls_emit, bind, Option.bind, pure, RenderKeyboard_keys_calls,
      keyCalls_emit]
    rfl
  · have hk := view_keys s
    simp only [view] at hk
    simp only [view, List.filter_append, hk]
    simp [observed]

theorem RenderMouse_calls (u : OBJECT_MATERIAL) (s : SceneManager) (h : Ready s) :
    ∃ l, RenderMouse u s = some (s.emit l) ∧
      view l = [GLCall.setUniform "bUseTexture" (UniformValue.int 1),
                GLCall.draw Mesh.sphere] := by
  apply Exists.intro
  apply And.intro
  · simp only [RenderMouse, DrawMesh, h, SetTransformations_ready, SetShaderMaterial_ready,
      SetShaderTexture_ready, Ready_emit, SceneManager_emit_emit,
      slotOf_emit, materialCalls_emit, bind, Option.bind, pure]
    rfl
  · simp [view, List.filter_append, observed]

theorem RenderPencilHolder_calls (u : OBJECT_MATERIAL) (s : SceneManager) (h : Ready s) :
    ∃ l, RenderPencilHolder u s = some (s.emit l) ∧
      view l = [GLCall.setUniform "bUseTexture" (UniformValue.int 1),
                GLCall.draw Mesh.cylinder] := by
  apply Exists.intro
  apply And.intro
  · simp only [RenderPencilHolder, DrawMesh, h, SetTransformations_ready,
      SetShaderMaterial_ready, SetShaderTexture_ready, Ready_emit, SceneManager_emit_emit,
      slotOf_emit, materialCalls_emit, bind, Option.bind, pure]
    rfl
  · simp [view, List.filter_append, observed]

theorem RenderBooks_calls (u : OBJECT_MATERIAL) (s : SceneManager) (h : Ready s) :
    ∃ l, RenderBooks u s = some (s.emit l) ∧
      view l = [GLCall.setUniform "bUseTexture" (UniformValue.int 1), GLCall.draw Mesh.box,
                GLCall.setUniform "bUseTexture" (UniformValue.int 1), GLCall.draw Mesh.box,
                GLCall.setUniform "bUseTexture" (UniformValue.int 1), GLCall.draw Mesh.box] := by
  have h3 : List.range RenderBooks.bookMaterials.length = [0, 1, 2] := rfl
  apply Exists.intro
  apply And.intro
  · simp only [RenderBooks, h3, List.foldlM_cons, List.foldlM_nil, RenderBooks.book,
      DrawMesh, h, SetTransformations_ready, SetShaderMaterial_ready,
      SetShaderTexture_ready, Ready_emit, SceneManager_emit_emit,
      slotOf_emit, materialCalls_emit, bind, Option.bind, pure]
    rfl
  · simp [view, List.filter_append, observed]

theorem RenderPencils_calls (u : OBJECT_MATERIAL) (s : SceneManager) (h : Ready s) :
    ∃ l, RenderPencils u s = some (s.emit l) ∧
      view l = [GLCall.setUniform "bUseTexture" (UniformValue.int 0), GLCall.draw Mesh.cylinder,
                GLCall.setUniform "bUseTexture" (UniformValue.int 0), GLCall.draw Mesh.cylinder,
                GLCall.setUniform "bUseTexture" (UniformValue.int 0), GLCall.draw Mesh.cylinder,
                GLCall.setUniform "bUseTexture" (UniformValue.int 0), GLCall.draw Mesh.cylinder,
                GLCall.setUniform "bUseTexture" (UniformValue.int 0), GLCall.draw Mesh.cylinder] := by
  have h5 : List.range 5 = [0, 1, 2, 3, 4] := rfl
  apply Exists.intro
  apply And.intro
  · simp only [RenderPencils, h5, List.foldl_cons, List.foldl_nil, RenderPencils.pencil,
      DrawMesh, h, SetTransformations_ready, SetShaderColor_ready, Ready_emit,
      SceneManager_emit_emit]
    rfl
  · simp [view, List.filter_append, observed]

theorem uniformValue_skip (name : String) (rest : List GLCall) :
    (match uniformValue name rest with
      | some v => some v
      | none => none) = uniformValue name rest := by
  cases uniformValue name rest <;> rfl

theorem uniformValue_view (name : String) (hname : name = "UVscale" ∨ name = "bUseTexture") :
    ∀ l : List GLCall, uniformValue name (view l) = uniformValue name l
  | [] => rfl
  | c :: rest => by
    have ih := uniformValue_view name hname rest
    simp only [view] at ih
    cases c with
    | draw m => simp [view, observed, uniformValue, ih, uniformValue_skip]
    | setUniform n v =>
      by_cases hn : observed (GLCall.setUniform n v) = true
      · simp [view, hn, uniformValue, ih]
      · have hne : n ≠ name := by
          intro heq
          apply hn
          subst heq
          rcases hname with h | h <;> simp [observed, h]
        simp [view, hn, uniformValue, ih, hne, uniformValue_skip]
    | glActiveTexture i => simp [view, observed, uniformValue, ih, uniformValue_skip]
    | glBindTexture i => simp [view, observed, uniformValue, ih, uniformValue_skip]

theorem uniformValue_append (name : String) (b : List GLCall) :
    ∀ a : List GLCall, uniformValue name (a ++ b) =
      match uniformValue name b with
      | some v => some v
      | none => uniformValue name a
  | [] => by
    cases h : uniformValue name b <;> simp [uniformValue, h]
  | c :: rest => by
    have ih := uniformValue_append name b rest
    show (match uniformValue name (rest ++ b) with
      | some v => some v
      | none =>
        match c with
        | GLCall.setUniform n v => if n = name then some v else none
        | _ => none) = _
    rw [ih]
    simp only [uniformValue]
    cases h : uniformValue name b <;> simp

theorem uniformValue_after (name : String) (hname : name = "UVscale" ∨ name = "bUseTexture")
    (s : SceneManager) (l : List GLCall) :
    uniformValue name (s.emit l).gl =
      match uniformValue name (view l) with
      | some v => some v
      | none => uniformValue name s.gl := by
  rw [uniformValue_view name hname]
  exact uniformValue_append name l s.gl

theorem returnsWith_of_calls (f : OBJECT_MATERIAL → SceneManager → Option SceneManager)
    (u : OBJECT_MATERIAL) (s : SceneManager) (v : List GLCall) (uv tex : UniformValue)
    (hf : ∃ l, f u s = some (s.emit l) ∧ view l = v)
    (huv : (match uniformValue "UVscale" v with
      | some x => some x
      | none => uniformValue "UVscale" s.gl) = some uv)
    (htex : (match uniformValue "bUseTexture" v with
      | some x => some x
      | none => uniformValue "bUseTexture" s.gl) = some tex) :
    ReturnsWith f u s uv tex := by
  obtain ⟨l, hl, hv⟩ := hf
  refine ⟨s.emit l, hl, ?_, ?_⟩
  · rw [uniformValue_after "UVscale" (Or.inl rfl), hv]
    exact huv
  · rw [uniformValue_after "bUseTexture" (Or.inr rfl), hv]
    exact htex

/-- C8 (what the code does): entered with the UV scale at (1,1) and the use-texture flag
enabled, `RenderTable` returns with the UV scale at (5,5), and `RenderMonitor` and
`RenderPencils` return with the use-texture flag disabled. -/
theorem Render_state_not_reset :
    Ready entryScene ∧
    uniformValue "UVscale" entryScene.gl = some (UniformValue.vec2 1 1) ∧
    uniformValue "bUseTexture" entryScene.gl = some (UniformValue.int 1) ∧
    ReturnsWith RenderTable exampleMaterial entryScene
      (UniformValue.vec2 5 5) (UniformValue.int 1) ∧
    ReturnsWith RenderMonitor exampleMaterial entryScene
      (UniformValue.vec2 1 1) (UniformValue.int 0) ∧
    ReturnsWith RenderPencils exampleMaterial entryScene
      (UniformValue.vec2 1 1) (UniformValue.int 0) ∧
    ¬ ReturnsWith RenderTable exampleMaterial entryScene
      (UniformValue.vec2 1 1) (UniformValue.int 1) ∧
    ¬ ReturnsWith RenderMonitor exampleMaterial entryScene
      (UniformValue.vec2 1 1) (UniformValue.int 1) ∧
    ¬ ReturnsWith RenderPencils exampleMaterial entryScene
      (UniformValue.vec2 1 1) (UniformValue.int 1) := by
  have hr : Ready entryScene := ⟨rfl, by decide⟩
  have huv : uniformValue "UVscale" entryScene.gl = some (UniformValue.vec2 1 1) := by
    simp [entryScene, uniformValue]
  have htex : uniformValue "bUseTexture" entryScene.gl = some (UniformValue.int 1) := by
    simp [entryScene, uniformValue]
  have hT : ReturnsWith RenderTable exampleMaterial entryScene
      (UniformValue.vec2 5 5) (UniformValue.int 1) :=
    returnsWith_of_calls RenderTable _ _ _ _ _ (RenderTable_calls _ _ hr)
      (by simp [uniformValue]; norm_num) (by simp [uniformValue])
  have hM : ReturnsWith RenderMonitor exampleMaterial entryScene
      (UniformValue.vec2 1 1) (UniformValue.int 0) :=
    returnsWith_of_calls RenderMonitor _ _ _ _ _ (RenderMonitor_calls _ _ hr)
      (by simp [uniformValue, huv]) (by simp [uniformValue])
  have hP : ReturnsWith RenderPencils exampleMaterial entryScene
      (UniformValue.vec2 1 1) (UniformValue.int 0) :=
    returnsWith_of_calls RenderPencils _ _ _ _ _ (RenderPencils_calls _ _ hr)
      (by simp [uniformValue, huv]) (by simp [uniformValue])
  refine ⟨hr, huv, htex, hT, hM, hP, ?_, ?_, ?_⟩
  · rintro ⟨s', hs', h1, _⟩
    obtain ⟨s'', hs'', h2, _⟩ := hT
    rw [hs'] at hs''
    cases hs''
    rw [h1] at h2
    simp at h2
  · rintro ⟨s', hs', _, h1⟩
    obtain ⟨s'', hs'', _, h2⟩ := hM
    rw [hs'] at hs''
    cases hs''
    rw [h1] at h2
    simp at h2
  · rintro ⟨s', hs', _, h1⟩
    obtain ⟨s'', hs'', _, h2⟩ := hP
    rw [hs'] at hs''
    cases hs''
    rw [h1] at h2
    simp at h2

/-- C8 (amended): on a scene manager with a shader manager and a populated count within
the texture array, entered with the UV scale at (1,1) (and the use-texture flag at any
value, enabled included), `RenderKeyboard`, `RenderMouse`, `RenderBooks` and `RenderPencilHolder` return with the UV
scale at (1,1) and the flag enabled; `RenderMonitor` and `RenderPencils` return with the
UV scale at (1,1) and the flag disabled, their last draw being flat-coloured; `RenderTable`
returns with the flag enabled. -/
theorem Render_state_on_return (u : OBJECT_MATERIAL) (s : SceneManager) (h : Ready s)
    (huv : uniformValue "UVscale" s.gl = some (UniformValue.vec2 1 1)) :
    ReturnsWith RenderKeyboard u s (UniformValue.vec2 1 1) (UniformValue.int 1) ∧
    ReturnsWith RenderMouse u s (UniformValue.vec2 1 1) (UniformValue.int 1) ∧
    ReturnsWith RenderBooks u s (UniformValue.vec2 1 1) (UniformValue.int 1) ∧
    ReturnsWith RenderPencilHolder u s (UniformValue.vec2 1 1) (UniformValue.int 1) ∧
    ReturnsWith RenderMonitor u s (UniformValue.vec2 1 1) (UniformValue.int 0) ∧
    ReturnsWith RenderPencils u s (UniformValue.vec2 1 1) (UniformValue.int 0) ∧
    (∃ s', RenderTable u s = some s' ∧
      uniformValue "bUseTexture" s'.gl = some (UniformValue.int 1)) := by
  refine ⟨?_, ?_, ?_, ?_, ?_, ?_, ?_⟩
  · refine returnsWith_of_calls RenderKeyboard _ _ _ _ _ (RenderKeyboard_calls u s h) ?_ ?_
    · rw [uniformValue_append]
      simp [uniformValue]
      norm_num
    · rw [uniformValue_append]
      simp [uniformValue]
  · exact returnsWith_of_calls RenderMouse _ _ _ _ _ (RenderMouse_calls u s h)
      (by simp [uniformValue, huv]) (by simp [uniformValue])
  · exact returnsWith_of_calls RenderBooks _ _ _ _ _ (RenderBooks_calls u s h)
      (by simp [uniformValue, huv]) (by simp [uniformValue])
  · exact returnsWith_of_calls RenderPencilHolder _ _ _ _ _ (RenderPencilHolder_calls u s h)
      (by simp [uniformValue, huv]) (by simp [uniformValue])
  · exact returnsWith_of_calls RenderMonitor _ _ _ _ _ (RenderMonitor_calls u s h)
      (by simp [uniformValue, huv]) (by simp [uniformValue])
  · exact returnsWith_of_calls RenderPencils _ _ _ _ _ (RenderPencils_calls u s h)
      (by simp [uniformValue, huv]) (by simp [uniformValue])
  · obtain ⟨l, hl, hv⟩ := RenderTable_calls u s h
    refine ⟨_, hl, ?_⟩
    rw [uniformValue_after "bUseTexture" (Or.inr rfl), hv]
    simp [uniformValue]

/-- Witness of C8 (amended): the scene manager entered with UV scale (1,1). -/
theorem Render_state_on_return_witness :
    ReturnsWith RenderKeyboard exampleMaterial entryScene
      (UniformValue.vec2 1 1) (UniformValue.int 1) ∧
    ReturnsWith RenderMouse exampleMaterial entryScene
      (UniformValue.vec2 1 1) (UniformValue.int 1) ∧
    ReturnsWith RenderBooks exampleMaterial entryScene
      (UniformValue.vec2 1 1) (UniformValue.int 1) ∧
    ReturnsWith RenderPencilHolder exampleMaterial entryScene
      (UniformValue.vec2 1 1) (UniformValue.int 1) ∧
    ReturnsWith RenderMonitor exampleMaterial entryScene
      (UniformValue.vec2 1 1) (UniformValue.int 0) ∧
    ReturnsWith RenderPencils exampleMaterial entryScene
      (UniformValue.vec2 1 1) (UniformValue.int 0) ∧
    (∃ s', RenderTable exampleMaterial entryScene = some s' ∧
      uniformValue "bUseTexture" s'.gl = some (UniformValue.int 1)) :=
  Render_state_on_return exampleMaterial entryScene ⟨rfl, by decide⟩
    (by simp [entryScene, uniformValue])

/-! ## Theorems: floating-point values -/

theorem le_roundHalfEven (n : Int) (q : ℚ) (h : (n : ℚ) ≤ q) : n ≤ roundHalfEven q := by
  have hf : n ≤ ⌊q⌋ := Int.le_floor.mpr h
  unfold roundHalfEven
  split
  · exact hf
  · split
    · omega
    · split <;> omega

theorem roundHalfEven_le (n : Int) (q : ℚ) (h : q ≤ (n : ℚ)) : roundHalfEven q ≤ n := by
  have hfl : (⌊q⌋ : ℚ) ≤ q := Int.floor_le q
  have hf : ⌊q⌋ ≤ n := by exact_mod_cast hfl.trans h
  by_cases hfrac : q - ⌊q⌋ < 1 / 2
  · simp only [roundHalfEven, hfrac, if_true]
    exact hf
  · have hne : (⌊q⌋ : ℚ) < q := by linarith
    have hlt : ⌊q⌋ < n := by
      have : (⌊q⌋ : ℚ) < n := lt_of_lt_of_le hne h
      exact_mod_cast this
    unfold roundHalfEven
    simp only [hfrac, if_false]
    split
    · omega
    · split <;> omega

theorem roundHalfEven_intCast (n : Int) : roundHalfEven (n : ℚ) = n :=
  le_antisymm (roundHalfEven_le n _ le_rfl) (le_roundHalfEven n _ le_rfl)

theorem roundHalfEven_eq (n : Int) (q : ℚ) (h1 : (n : ℚ) - 1 / 2 < q) (h2 : q < n + 1 / 2) :
    roundHalfEven q = n := by
  by_cases hq : (n : ℚ) ≤ q
  · have hf : ⌊q⌋ = n := by
      rw [Int.floor_eq_iff]
      constructor
      · exact hq
      · linarith
    unfold roundHalfEven
    rw [hf]
    have : q - n < 1 / 2 := by linarith
    rw [if_pos this]
  · have hq' : q < n := not_le.mp hq
    have hf : ⌊q⌋ = n - 1 := by
      rw [Int.floor_eq_iff]
      push_cast
      constructor
      · linarith
      · linarith
    unfold roundHalfEven
    rw [hf]
    push_cast
    have h3 : ¬ (q - (n - 1) < 1 / 2) := by linarith
    have h4 : 1 / 2 < q - ((n : ℚ) - 1) := by linarith
    rw [if_neg h3, if_pos h4]
    omega

theorem FloatFormat_quantum_pos (F : FloatFormat) (q : ℚ) : 0 < F.quantum q := by
  unfold FloatFormat.quantum
  positivity

theorem Int_log_two_eq (q : ℚ) (e : Int) (h1 : (2 : ℚ) ^ e ≤ |q|) (h2 : |q| < (2 : ℚ) ^ (e + 1)) :
    Int.log 2 |q| = e := by
  have hpos : 0 < |q| := lt_of_lt_of_le (by positivity) h1
  have hle : e ≤ Int.log 2 |q| := by
    rw [← Int.zpow_le_iff_le_log (by norm_num) hpos]
    simpa using h1
  have hlt : Int.log 2 |q| < e + 1 := by
    rw [← Int.lt_zpow_iff_log_lt (by norm_num) hpos]
    simpa using h2
  omega

theorem Int_log_two_le (q : ℚ) (e : Int) (he : 0 ≤ e) (h : |q| < (2 : ℚ) ^ (e + 1)) :
    Int.log 2 |q| ≤ e := by
  rcases eq_or_lt_of_le (abs_nonneg q) with h0 | hpos
  · rw [← h0, Int.log_zero_right]
    exact he
  · have hlt : Int.log 2 |q| < e + 1 := by
      rw [← Int.lt_zpow_iff_log_lt (by norm_num) hpos]
      simpa using h
    omega

theorem FloatFormat_quantum_eq (F : FloatFormat) (q : ℚ) (e : Int) (h1 : (2 : ℚ) ^ e ≤ |q|)
    (h2 : |q| < (2 : ℚ) ^ (e + 1)) :
    F.quantum q = (2 : ℚ) ^ (max e F.emin - ((F.precision : Int) - 1)) := by
  unfold FloatFormat.quantum
  rw [Int_log_two_eq q e h1 h2]

/-- A dyadic number `m * 2^t` is an integer multiple of the quantum of `q` when the exponent
of the quantum is at most `t`. -/
theorem FloatFormat_dyadic_on_grid (F : FloatFormat) (q : ℚ) (m t e : Int) (he : 0 ≤ e)
    (hq : |q| < (2 : ℚ) ^ (e + 1)) (ht : max e F.emin - ((F.precision : Int) - 1) ≤ t) :
    ∃ n : Int, (m : ℚ) * (2 : ℚ) ^ t = (n : ℚ) * F.quantum q := by
  have hlog := Int_log_two_le q e he hq
  have hk : max (Int.log 2 |q|) F.emin - ((F.precision : Int) - 1) ≤ t := by
    have : max (Int.log 2 |q|) F.emin ≤ max e F.emin := max_le_max hlog le_rfl
    omega
  obtain ⟨d, hd⟩ : ∃ d : Nat, t = max (Int.log 2 |q|) F.emin - ((F.precision : Int) - 1) + d :=
    ⟨(t - (max (Int.log 2 |q|) F.emin - ((F.precision : Int) - 1))).toNat, by omega⟩
  refine ⟨m * 2 ^ d, ?_⟩
  unfold FloatFormat.quantum
  rw [hd, zpow_add₀ (by norm_num : (2 : ℚ) ≠ 0)]
  push_cast
  rw [zpow_natCast]
  ring

/-- Rounding does not cross a multiple of the quantum. -/
theorem FloatFormat_round_between (F : FloatFormat) (x lo hi : ℚ)
    (hlo : ∃ n : Int, lo = (n : ℚ) * F.quantum x) (hhi : ∃ n : Int, hi = (n : ℚ) * F.quantum x)
    (h1 : lo ≤ x) (h2 : x ≤ hi)
    (hov1 : -(2 : ℚ) ^ (F.emax + 1) < lo) (hov2 : hi < (2 : ℚ) ^ (F.emax + 1)) :
    ∃ r, F.round x = FP.num r ∧ lo ≤ r ∧ r ≤ hi := by
  obtain ⟨a, ha⟩ := hlo
  obtain ⟨b, hb⟩ := hhi
  have hu := FloatFormat_quantum_pos F x
  have hak : a ≤ roundHalfEven (x / F.quantum x) := by
    apply le_roundHalfEven
    rw [le_div_iff₀ hu, ← ha]
    exact h1
  have hkb : roundHalfEven (x / F.quantum x) ≤ b := by
    apply roundHalfEven_le
    rw [div_le_iff₀ hu, ← hb]
    exact h2
  have hr1 : lo ≤ (roundHalfEven (x / F.quantum x) : ℚ) * F.quantum x := by
    rw [ha]
    exact mul_le_mul_of_nonneg_right (by exact_mod_cast hak) hu.le
  have hr2 : (roundHalfEven (x / F.quantum x) : ℚ) * F.quantum x ≤ hi := by
    rw [hb]
    exact mul_le_mul_of_nonneg_right (by exact_mod_cast hkb) hu.le
  refine ⟨(roundHalfEven (x / F.quantum x) : ℚ) * F.quantum x, ?_, hr1, hr2⟩
  unfold FloatFormat.round
  have hno : ¬ (2 : ℚ) ^ (F.emax + 1) ≤
      |(roundHalfEven (x / F.quantum x) : ℚ) * F.quantum x| := by
    rw [not_le, abs_lt]
    constructor <;> linarith
  simp only [hno, if_false]

theorem FloatFormat_round_zero (F : FloatFormat) : F.round 0 = FP.num 0 := by
  obtain ⟨r, hr, h1, h2⟩ := FloatFormat_round_between F 0 0 0 ⟨0, by simp⟩ ⟨0, by simp⟩ le_rfl le_rfl
    (by simp; positivity) (by positivity)
  rw [hr]
  congr 1
  linarith

/-- Evaluation of the rounding at a number whose binade and nearest multiple are known. -/
theorem FloatFormat_round_eq (F : FloatFormat) (q : ℚ) (e n : Int)
    (he1 : (2 : ℚ) ^ e ≤ |q|) (he2 : |q| < (2 : ℚ) ^ (e + 1))
    (hn1 : ((n : ℚ) - 1 / 2) * (2 : ℚ) ^ (max e F.emin - ((F.precision : Int) - 1)) < q)
    (hn2 : q < ((n : ℚ) + 1 / 2) * (2 : ℚ) ^ (max e F.emin - ((F.precision : Int) - 1)))
    (hov : |(n : ℚ) * (2 : ℚ) ^ (max e F.emin - ((F.precision : Int) - 1))| <
      (2 : ℚ) ^ (F.emax + 1)) :
    F.round q = FP.num ((n : ℚ) * (2 : ℚ) ^ (max e F.emin - ((F.precision : Int) - 1))) := by
  have hquant := FloatFormat_quantum_eq F q e he1 he2
  have hu : (0 : ℚ) < (2 : ℚ) ^ (max e F.emin - ((F.precision : Int) - 1)) := by positivity
  have hk : roundHalfEven (q / (2 : ℚ) ^ (max e F.emin - ((F.precision : Int) - 1))) = n := by
    apply roundHalfEven_eq
    · rw [lt_div_iff₀ hu]
      exact hn1
    · rw [div_lt_iff₀ hu]
      exact hn2
  unfold FloatFormat.round
  rw [hquant, hk]
  simp only [not_le.mpr hov, if_false]

theorem FloatFormat_round_ne_nan (F : FloatFormat) (q : ℚ) : F.round q ≠ FP.nan := by
  unfold FloatFormat.round
  simp only []
  split <;> simp

theorem FloatFormat_quantum_zpow (F : FloatFormat) (x : ℚ) (t : Int)
    (hk : max (Int.log 2 |x|) F.emin - ((F.precision : Int) - 1) ≤ t) (m : Int) :
    ∃ n : Int, (m : ℚ) * (2 : ℚ) ^ t = (n : ℚ) * F.quantum x := by
  obtain ⟨d, hd⟩ : ∃ d : Nat,
      t = max (Int.log 2 |x|) F.emin - ((F.precision : Int) - 1) + d :=
    ⟨(t - (max (Int.log 2 |x|) F.emin - ((F.precision : Int) - 1))).toNat, by omega⟩
  refine ⟨m * 2 ^ d, ?_⟩
  unfold FloatFormat.quantum
  rw [hd, zpow_add₀ (by norm_num : (2 : ℚ) ≠ 0)]
  push_cast
  rw [zpow_natCast]
  ring

theorem zpow_log_le (x : ℚ) (hx : 0 < x) : (2 : ℚ) ^ (Int.log 2 |x|) ≤ x := by
  have h := Int.zpow_log_le_self (b := 2) (r := |x|) (by norm_num) (by rw [abs_of_pos hx]; exact hx)
  rw [abs_of_pos hx] at h ⊢
  simpa using h

theorem log_lt_of_lt_zpow (x : ℚ) (hx : 0 < x) (e : Int) (h : x < (2 : ℚ) ^ e) :
    Int.log 2 |x| < e := by
  rw [abs_of_pos hx, ← Int.lt_zpow_iff_log_lt (by norm_num) hx]
  simpa using h

/-- Between a number `m * 2^t` of the format and a number `x` at or above it lies a
multiple of the quantum of `x`. -/
theorem FloatFormat_grid_below (F : FloatFormat) (hp : 1 ≤ F.precision) (x : ℚ) (m t : Int)
    (hm : 0 ≤ m) (hmt : (m : ℚ) < (2 : ℚ) ^ F.precision)
    (ht : F.emin - ((F.precision : Int) - 1) ≤ t) (hx : (m : ℚ) * (2 : ℚ) ^ t ≤ x) :
    ∃ n : Int, (m : ℚ) * (2 : ℚ) ^ t ≤ (n : ℚ) * F.quantum x ∧ (n : ℚ) * F.quantum x ≤ x := by
  have h2t : (0 : ℚ) < (2 : ℚ) ^ t := by positivity
  have hG0 : (0 : ℚ) ≤ (m : ℚ) * (2 : ℚ) ^ t := mul_nonneg (by exact_mod_cast hm) h2t.le
  have hx0 : 0 ≤ x := hG0.trans hx
  rcases eq_or_lt_of_le hx0 with h0 | hxpos
  · refine ⟨0, ?_, ?_⟩
    · rw [← h0] at hx
      simpa using hx
    · simpa using hx0
  by_cases hk : max (Int.log 2 |x|) F.emin - ((F.precision : Int) - 1) ≤ t
  · obtain ⟨n, hn⟩ := FloatFormat_quantum_zpow F x t hk m
    exact ⟨n, by rw [hn], by rw [← hn]; exact hx⟩
  · have hk' : t < max (Int.log 2 |x|) F.emin - ((F.precision : Int) - 1) := not_le.mp hk
    have hmax : max (Int.log 2 |x|) F.emin = Int.log 2 |x| := by
      rcases le_total (Int.log 2 |x|) F.emin with h | h
      · rw [max_eq_right h] at hk'
        omega
      · exact max_eq_left h
    rw [hmax] at hk'
    obtain ⟨d, hd⟩ : ∃ d : Nat, (F.precision : Int) - 1 = d := ⟨F.precision - 1, by omega⟩
    have hq : F.quantum x = (2 : ℚ) ^ (Int.log 2 |x| - ((F.precision : Int) - 1)) := by
      unfold FloatFormat.quantum
      rw [hmax]
    have hpow : (((2 : Int) ^ d : Int) : ℚ) * F.quantum x = (2 : ℚ) ^ (Int.log 2 |x|) := by
      rw [hq, hd]
      push_cast
      rw [← zpow_natCast, ← zpow_add₀ (by norm_num : (2 : ℚ) ≠ 0)]
      congr 1
      omega
    refine ⟨2 ^ d, ?_, ?_⟩
    · rw [hpow]
      have h1 : (m : ℚ) * (2 : ℚ) ^ t ≤ (2 : ℚ) ^ F.precision * (2 : ℚ) ^ t :=
        mul_le_mul_of_nonneg_right hmt.le h2t.le
      have h2 : (2 : ℚ) ^ F.precision * (2 : ℚ) ^ t = (2 : ℚ) ^ ((F.precision : Int) + t) := by
        rw [← zpow_natCast, ← zpow_add₀ (by norm_num : (2 : ℚ) ≠ 0)]
      have h3 : (2 : ℚ) ^ ((F.precision : Int) + t) ≤ (2 : ℚ) ^ (Int.log 2 |x|) :=
        zpow_le_zpow_right₀ (by norm_num) (by omega)
      linarith
    · rw [hpow]
      exact zpow_log_le x hxpos

/-- Between a number `x` and a number `m * 2^t` of the format at or above it lies a
multiple of the quantum of `x`. -/
theorem FloatFormat_grid_above (F : FloatFormat) (x : ℚ) (m t : Int)
    (hm : 0 ≤ m) (hmt : (m : ℚ) < (2 : ℚ) ^ F.precision)
    (ht : F.emin - ((F.precision : Int) - 1) ≤ t) (hx : x ≤ (m : ℚ) * (2 : ℚ) ^ t) :
    ∃ n : Int, x ≤ (n : ℚ) * F.quantum x ∧ (n : ℚ) * F.quantum x ≤ (m : ℚ) * (2 : ℚ) ^ t := by
  have h2t : (0 : ℚ) < (2 : ℚ) ^ t := by positivity
  have hG0 : (0 : ℚ) ≤ (m : ℚ) * (2 : ℚ) ^ t := mul_nonneg (by exact_mod_cast hm) h2t.le
  rcases le_or_lt x 0 with hx0 | hxpos
  · exact ⟨0, by simpa using hx0, by simpa using hG0⟩
  have hlt : x < (2 : ℚ) ^ ((F.precision : Int) + t) := by
    have h1 : (m : ℚ) * (2 : ℚ) ^ t < (2 : ℚ) ^ F.precision * (2 : ℚ) ^ t :=
      mul_lt_mul_of_pos_right hmt h2t
    have h2 : (2 : ℚ) ^ F.precision * (2 : ℚ) ^ t = (2 : ℚ) ^ ((F.precision : Int) + t) := by
      rw [← zpow_natCast, ← zpow_add₀ (by norm_num : (2 : ℚ) ≠ 0)]
    linarith
  have hlog := log_lt_of_lt_zpow x hxpos _ hlt
  have hk : max (Int.log 2 |x|) F.emin - ((F.precision : Int) - 1) ≤ t := by
    rcases le_total (Int.log 2 |x|) F.emin with h | h
    · rw [max_eq_right h]
      exact ht
    · rw [max_eq_left h]
      omega
  obtain ⟨n, hn⟩ := FloatFormat_quantum_zpow F x t hk m
  exact ⟨n, by rw [← hn]; exact hx, by rw [hn]⟩

/-- Rounding keeps a number at or above a number `m * 2^t` of the format that is at or
below it. -/
theorem FloatFormat_round_lower (F : FloatFormat) (hp : 1 ≤ F.precision) (x : ℚ) (m t : Int)
    (hm : 0 ≤ m) (hmt : (m : ℚ) < (2 : ℚ) ^ F.precision)
    (ht : F.emin - ((F.precision : Int) - 1) ≤ t) (hx : (m : ℚ) * (2 : ℚ) ^ t ≤ x) :
    FP.le (FP.num ((m : ℚ) * (2 : ℚ) ^ t)) (F.round x) = true := by
  have h2t : (0 : ℚ) < (2 : ℚ) ^ t := by positivity
  have hG0 : (0 : ℚ) ≤ (m : ℚ) * (2 : ℚ) ^ t := mul_nonneg (by exact_mod_cast hm) h2t.le
  have hx0 : ¬ x < 0 := not_lt.mpr (hG0.trans hx)
  have hu := FloatFormat_quantum_pos F x
  obtain ⟨n, hn1, hn2⟩ := FloatFormat_grid_below F hp x m t hm hmt ht hx
  have hnk : n ≤ roundHalfEven (x / F.quantum x) := by
    apply le_roundHalfEven
    rw [le_div_iff₀ hu]
    exact hn2
  have hr : (m : ℚ) * (2 : ℚ) ^ t ≤ (roundHalfEven (x / F.quantum x) : ℚ) * F.quantum x :=
    hn1.trans (mul_le_mul_of_nonneg_right (by exact_mod_cast hnk) hu.le)
  unfold FloatFormat.round
  simp only []
  split
  · simp [FP.le, hx0]
  · simpa [FP.le] using hr

/-- Rounding keeps a number at or below a number `m * 2^t` of the format that is at or
above it. -/
theorem FloatFormat_round_upper (F : FloatFormat) (x : ℚ) (m t : Int)
    (hm : 0 ≤ m) (hmt : (m : ℚ) < (2 : ℚ) ^ F.precision)
    (ht : F.emin - ((F.precision : Int) - 1) ≤ t) (hx : x ≤ (m : ℚ) * (2 : ℚ) ^ t)
    (hov : (m : ℚ) * (2 : ℚ) ^ t < (2 : ℚ) ^ (F.emax + 1)) :
    FP.le (F.round x) (FP.num ((m : ℚ) * (2 : ℚ) ^ t)) = true := by
  have hu := FloatFormat_quantum_pos F x
  obtain ⟨n, hn1, hn2⟩ := FloatFormat_grid_above F x m t hm hmt ht hx
  have hkn : roundHalfEven (x / F.quantum x) ≤ n := by
    apply roundHalfEven_le
    rw [div_le_iff₀ hu]
    exact hn1
  have hr : (roundHalfEven (x / F.quantum x) : ℚ) * F.quantum x ≤ (m : ℚ) * (2 : ℚ) ^ t :=
    (mul_le_mul_of_nonneg_right (by exact_mod_cast hkn) hu.le).trans hn2
  unfold FloatFormat.round
  simp only []
  split
  · rename_i hbig
    have hneg : x < 0 := by
      by_contra hnn
      have hx0 : 0 ≤ x := not_lt.mp hnn
      have hk0 : 0 ≤ roundHalfEven (x / F.quantum x) :=
        le_roundHalfEven 0 _ (by simpa using div_nonneg hx0 hu.le)
      have hr0 : (0 : ℚ) ≤ (roundHalfEven (x / F.quantum x) : ℚ) * F.quantum x :=
        mul_nonneg (by exact_mod_cast hk0) hu.le
      rw [abs_of_nonneg hr0] at hbig
      linarith
    simp [FP.le, hneg]
  · simpa [FP.le] using hr

theorem FP_cast_lower (F : FloatFormat) (hp : 1 ≤ F.precision) (m t : Int) (hm : 0 ≤ m)
    (hmt : (m : ℚ) < (2 : ℚ) ^ F.precision) (ht : F.emin - ((F.precision : Int) - 1) ≤ t)
    (a : FP) (h : FP.le (FP.num ((m : ℚ) * (2 : ℚ) ^ t)) a = true) :
    FP.le (FP.num ((m : ℚ) * (2 : ℚ) ^ t)) (FP.cast F a) = true := by
  cases a with
  | nan => simp [FP.le] at h
  | inf s => exact h
  | num r =>
    have hr : (m : ℚ) * (2 : ℚ) ^ t ≤ r := by simpa [FP.le] using h
    exact FloatFormat_round_lower F hp r m t hm hmt ht hr

theorem FP_cast_upper (F : FloatFormat) (m t : Int) (hm : 0 ≤ m)
    (hmt : (m : ℚ) < (2 : ℚ) ^ F.precision) (ht : F.emin - ((F.precision : Int) - 1) ≤ t)
    (hov : (m : ℚ) * (2 : ℚ) ^ t < (2 : ℚ) ^ (F.emax + 1))
    (a : FP) (h : FP.le a (FP.num ((m : ℚ) * (2 : ℚ) ^ t)) = true) :
    FP.le (FP.cast F a) (FP.num ((m : ℚ) * (2 : ℚ) ^ t)) = true := by
  cases a with
  | nan => simp [FP.le] at h
  | inf s => exact h
  | num r =>
    have hr : r ≤ (m : ℚ) * (2 : ℚ) ^ t := by simpa [FP.le] using h
    exact FloatFormat_round_upper F r m t hm hmt ht hr hov

theorem FP_num_of_between (a : FP) (lo hi : ℚ) (h1 : FP.le (FP.num lo) a = true)
    (h2 : FP.le a (FP.num hi) = true) : ∃ r, a = FP.num r ∧ lo ≤ r ∧ r ≤ hi := by
  cases a with
  | nan => simp [FP.le] at h1
  | inf s =>
    cases s
    · simp [FP.le] at h2
    · simp [FP.le] at h1
  | num r => exact ⟨r, rfl, by simpa [FP.le] using h1, by simpa [FP.le] using h2⟩

theorem half_eq (g : Int) : (g : ℚ) / 2 = (g : ℚ) * (2 : ℚ) ^ (-1 : Int) := by
  rw [zpow_neg_one]
  ring

/-- In `float` and in `double`, rounding keeps a number at or above a multiple of 1/2
below 2^23 that is at or below it. -/
theorem round_lower_half (F : FloatFormat) (hF : F = binary32 ∨ F = binary64) (x : ℚ)
    (g : Int) (hg : 0 ≤ g) (hg2 : g < 2 ^ 24) (hx : (g : ℚ) / 2 ≤ x) :
    FP.le (FP.num ((g : ℚ) / 2)) (F.round x) = true := by
  rw [half_eq] at hx ⊢
  have hgq : (g : ℚ) < 2 ^ 24 := by exact_mod_cast hg2
  rcases hF with rfl | rfl
  · exact FloatFormat_round_lower binary32 (by decide) x g (-1) hg (by simpa [binary32] using hgq)
      (by decide) hx
  · exact FloatFormat_round_lower binary64 (by decide) x g (-1) hg
      (by
        have : (2 : ℚ) ^ 24 ≤ 2 ^ 53 := by norm_num
        simpa [binary64] using lt_of_lt_of_le hgq this)
      (by decide) hx

/-- In `float` and in `double`, rounding keeps a number at or below a multiple of 1/2
below 2^23 that is at or above it. -/
theorem round_upper_half (F : FloatFormat) (hF : F = binary32 ∨ F = binary64) (x : ℚ)
    (g : Int) (hg : 0 ≤ g) (hg2 : g < 2 ^ 24) (hx : x ≤ (g : ℚ) / 2) :
    FP.le (F.round x) (FP.num ((g : ℚ) / 2)) = true := by
  rw [half_eq] at hx ⊢
  have hgq : (g : ℚ) < 2 ^ 24 := by exact_mod_cast hg2
  have hsmall : (g : ℚ) * (2 : ℚ) ^ (-1 : Int) < 2 ^ 24 := by
    rw [zpow_neg_one]
    have h0 : (0 : ℚ) ≤ g := by exact_mod_cast hg
    linarith
  rcases hF with rfl | rfl
  · exact FloatFormat_round_upper binary32 x g (-1) hg (by simpa [binary32] using hgq) (by decide) hx
      (by
        have : (2 : ℚ) ^ 24 ≤ (2 : ℚ) ^ (binary32.emax + 1) := by norm_num [binary32]
        exact lt_of_lt_of_le hsmall this)
  · exact FloatFormat_round_upper binary64 x g (-1) hg
      (by
        have : (2 : ℚ) ^ 24 ≤ 2 ^ 53 := by norm_num
        simpa [binary64] using lt_of_lt_of_le hgq this)
      (by decide) hx
      (by
        have : (2 : ℚ) ^ 24 ≤ (2 : ℚ) ^ (binary64.emax + 1) := by norm_num [binary64]
        exact lt_of_lt_of_le hsmall this)

theorem cast_lower_half (F : FloatFormat) (hF : F = binary32 ∨ F = binary64) (g : Int)
    (hg : 0 ≤ g) (hg2 : g < 2 ^ 24) (a : FP) (h : FP.le (FP.num ((g : ℚ) / 2)) a = true) :
    FP.le (FP.num ((g : ℚ) / 2)) (FP.cast F a) = true := by
  cases a with
  | nan => simp [FP.le] at h
  | inf s => exact h
  | num r => exact round_lower_half F hF r g hg hg2 (by simpa [FP.le] using h)

theorem cast_upper_half (F : FloatFormat) (hF : F = binary32 ∨ F = binary64) (g : Int)
    (hg : 0 ≤ g) (hg2 : g < 2 ^ 24) (a : FP) (h : FP.le a (FP.num ((g : ℚ) / 2)) = true) :
    FP.le (FP.cast F a) (FP.num ((g : ℚ) / 2)) = true := by
  cases a with
  | nan => simp [FP.le] at h
  | inf s => exact h
  | num r => exact round_upper_half F hF r g hg hg2 (by simpa [FP.le] using h)

/-- Adding, in `float` or `double`, a value that is not negative to a multiple of 1/2 gives
a value at or above it. -/
theorem add_lower_half (F : FloatFormat) (hF : F = binary32 ∨ F = binary64) (q : ℚ) (g : Int)
    (hg : 0 ≤ g) (hg2 : g < 2 ^ 24) (hq : (g : ℚ) / 2 ≤ q) (b : FP)
    (hb : FP.le (FP.num 0) b = true) :
    FP.le (FP.num ((g : ℚ) / 2)) (FP.add F (FP.num q) b) = true := by
  cases b with
  | nan => simp [FP.le] at hb
  | inf s =>
    cases s
    · simp [FP.add, FP.le]
    · simp [FP.le] at hb
  | num r =>
    have hr : (0 : ℚ) ≤ r := by simpa [FP.le] using hb
    exact round_lower_half F hF (q + r) g hg hg2 (by linarith)

/-- Adding, in `float` or `double`, a value that is not positive to a multiple of 1/2 gives
a value at or below it. -/
theorem add_upper_half (F : FloatFormat) (hF : F = binary32 ∨ F = binary64) (q : ℚ) (g : Int)
    (hg : 0 ≤ g) (hg2 : g < 2 ^ 24) (hq : q ≤ (g : ℚ) / 2) (b : FP)
    (hb : FP.le b (FP.num 0) = true) :
    FP.le (FP.add F (FP.num q) b) (FP.num ((g : ℚ) / 2)) = true := by
  cases b with
  | nan => simp [FP.le] at hb
  | inf s =>
    cases s
    · simp [FP.le] at hb
    · simp [FP.add, FP.le]
  | num r =>
    have hr : r ≤ (0 : ℚ) := by simpa [FP.le] using hb
    exact round_upper_half F hF (q + r) g hg hg2 (by linarith)

theorem mul_half_nonneg (d : ℚ) (hd : 0 ≤ d) :
    FP.le (FP.num 0) (FP.mul binary64 (FP.num d) (FP.num 0.5)) = true := by
  have h := round_lower_half binary64 (Or.inr rfl) (d * 0.5) 0 le_rfl (by norm_num)
    (by
      have : (0 : ℚ) ≤ d * 0.5 := by positivity
      simpa using this)
  simpa [FP.mul] using h

theorem mul_half_nonpos (d : ℚ) (hd : d ≤ 0) :
    FP.le (FP.mul binary64 (FP.num d) (FP.num 0.5)) (FP.num 0) = true := by
  have h := round_upper_half binary64 (Or.inr rfl) (d * 0.5) 0 le_rfl (by norm_num)
    (by
      have : d * 0.5 ≤ (0 : ℚ) := mul_nonpos_of_nonpos_of_nonneg hd (by norm_num)
      simpa using this)
  simpa [FP.mul] using h

theorem mul_one_half :
    FP.mul binary64 (FP.num 1) (FP.num 0.5) = FP.num (1 / 2) := by
  have hk : max (-1 : Int) binary64.emin - ((binary64.precision : Int) - 1) = -53 := by decide
  have h := FloatFormat_round_eq binary64 (1 / 2) (-1) (2 ^ 52) (by norm_num [abs_of_pos])
    (by norm_num [abs_of_pos]) (by rw [hk]; norm_num) (by rw [hk]; norm_num)
    (by rw [hk]; norm_num [binary64, abs_of_pos])
  rw [hk] at h
  have h1 : ((1 : ℚ) * 0.5) = 1 / 2 := by norm_num
  simp only [FP.mul, h1, h]
  congr 1
  norm_num

theorem mul_neg_one_half :
    FP.mul binary64 (FP.num (-1)) (FP.num 0.5) = FP.num (-(1 / 2)) := by
  have hk : max (-1 : Int) binary64.emin - ((binary64.precision : Int) - 1) = -53 := by decide
  have h := FloatFormat_round_eq binary64 (-(1 / 2)) (-1) (-(2 ^ 52)) (by norm_num [abs_of_pos])
    (by norm_num [abs_of_pos]) (by rw [hk]; norm_num) (by rw [hk]; norm_num)
    (by rw [hk]; norm_num [binary64, abs_of_pos])
  rw [hk] at h
  have h1 : ((-1 : ℚ) * 0.5) = -(1 / 2) := by norm_num
  simp only [FP.mul, h1, h]
  congr 1
  norm_num

/-! ## Theorems: view manager -/

theorem ProcessKeyboardEvents_move_speed (M : CameraMethods) (hM : KeepsSpeed M) (keys : Keys)
    (dt : ℚ) (c : Camera) :
    (ProcessKeyboardEvents.move M keys dt c).MovementSpeed = c.MovementSpeed := by
  have hk := hM.1
  unfold ProcessKeyboardEvents.move
  simp only []
  split_ifs <;> simp only [hk]

theorem ProcessKeyboardEvents_keyP_speed (b : Bool) (v : ViewManager) :
    cameraSpeed (ProcessKeyboardEvents.keyP b v) = cameraSpeed v := by
  unfold ProcessKeyboardEvents.keyP cameraSpeed
  cases hc : v.g_pCamera <;> cases b <;> cases hk : v.pKeyPressed <;> simp [hc]

theorem ProcessKeyboardEvents_keyO_speed (b : Bool) (v : ViewManager) :
    cameraSpeed (ProcessKeyboardEvents.keyO b v) = cameraSpeed v := by
  unfold ProcessKeyboardEvents.keyO cameraSpeed
  cases hc : v.g_pCamera <;> cases b <;> cases hk : v.oKeyPressed <;> simp [hc]

theorem ProcessKeyboardEvents_key1_speed (b : Bool) (v : ViewManager) :
    cameraSpeed (ProcessKeyboardEvents.key1 b v) = cameraSpeed v := by
  unfold ProcessKeyboardEvents.key1 cameraSpeed
  cases hc : v.g_pCamera <;> cases b <;> cases hk : v.key1Pressed <;> simp [hc]

theorem ProcessKeyboardEvents_key2_speed (b : Bool) (v : ViewManager) :
    cameraSpeed (ProcessKeyboardEvents.key2 b v) = cameraSpeed v := by
  unfold ProcessKeyboardEvents.key2 cameraSpeed
  cases hc : v.g_pCamera <;> cases b <;> cases hk : v.key2Pressed <;> simp [hc]

theorem ProcessKeyboardEvents_key3_speed (b : Bool) (v : ViewManager) :
    cameraSpeed (ProcessKeyboardEvents.key3 b v) = cameraSpeed v := by
  unfold ProcessKeyboardEvents.key3 cameraSpeed
  cases hc : v.g_pCamera <;> cases b <;> cases hk : v.key3Pressed <;> simp [hc]

theorem ProcessKeyboardEvents_key4_speed (b : Bool) (v : ViewManager) :
    cameraSpeed (ProcessKeyboardEvents.key4 b v) = cameraSpeed v := by
  unfold ProcessKeyboardEvents.key4 cameraSpeed
  cases hc : v.g_pCamera <;> cases b <;> cases hk : v.key4Pressed <;> simp [hc]

theorem ProcessKeyboardEvents_camera_speed (M : CameraMethods) (hM : KeepsSpeed M)
    (keys : Keys) (v : ViewManager) :
    cameraSpeed (ProcessKeyboardEvents.camera M keys v) = cameraSpeed v := by
  unfold ProcessKeyboardEvents.camera
  cases hc : v.g_pCamera with
  | none => simp [cameraSpeed, hc]
  | some c =>
    simp only [ProcessKeyboardEvents_key4_speed, ProcessKeyboardEvents_key3_speed,
      ProcessKeyboardEvents_key2_speed, ProcessKeyboardEvents_key1_speed,
      ProcessKeyboardEvents_keyO_speed, ProcessKeyboardEvents_keyP_speed]
    simp [cameraSpeed, hc, ProcessKeyboardEvents_move_speed M hM]

theorem ProcessKeyboardEvents_speed (M : CameraMethods) (hM : KeepsSpeed M) (keys : Keys)
    (v : ViewManager) : cameraSpeed (ProcessKeyboardEvents M keys v) = cameraSpeed v := by
  unfold ProcessKeyboardEvents
  simp only [ProcessKeyboardEvents_camera_speed M hM]
  by_cases he : keys.ESCAPE = true <;> simp [he, cameraSpeed]

theorem Mouse_Position_Callback_speed (M : CameraMethods) (hM : KeepsSpeed M) (x y a : FP)
    (v : ViewManager) (hq : cameraSpeed v = some a) :
    ∃ v', Mouse_Position_Callback M x y v = some v' ∧ cameraSpeed v' = some a := by
  unfold cameraSpeed at hq
  cases hc : v.g_pCamera with
  | none => simp [hc] at hq
  | some c =>
    simp only [hc, Option.map_some', Option.some.injEq] at hq
    unfold Mouse_Position_Callback
    by_cases hf : v.gFirstMouse = true <;>
      simp [hf, hc, cameraSpeed, hM.2, hq]

theorem PrepareSceneView_speed (M : CameraMethods) (hM : KeepsSpeed M) (t : ℚ) (a : FP)
    (keys : Keys) (v : ViewManager) (hq : cameraSpeed v = some a) :
    ∃ v', PrepareSceneView M t keys v = some v' ∧ cameraSpeed v' = some a := by
  have hk : cameraSpeed (ProcessKeyboardEvents M keys
      { v with gDeltaTime := t - v.gLastFrame, gLastFrame := t }) = some a := by
    rw [ProcessKeyboardEvents_speed M hM]
    exact hq
  unfold PrepareSceneView
  simp only []
  generalize ProcessKeyboardEvents M keys
    { v with gDeltaTime := t - v.gLastFrame, gLastFrame := t } = w at hk
  unfold cameraSpeed at hk
  cases hc : w.g_pCamera with
  | none => simp [hc] at hk
  | some c =>
    simp only [hc, Option.map_some', Option.some.injEq] at hk
    by_cases hs : w.m_pShaderManager = true <;> simp [hs, hc, cameraSpeed, hk]

theorem FP_add_num (F : FloatFormat) (x y : ℚ) :
    FP.add F (FP.num x) (FP.num y) = F.round (x + y) := rfl

theorem FP_mul_num (F : FloatFormat) (x y : ℚ) :
    FP.mul F (FP.num x) (FP.num y) = F.round (x * y) := rfl

theorem FP_sub_num (F : FloatFormat) (x y : ℚ) :
    FP.sub F (FP.num x) (FP.num y) = F.round (x + -y) := rfl

theorem clampSpeed_nan : clampSpeed FP.nan = FP.nan := rfl

theorem clampSpeed_num (r : ℚ) :
    clampSpeed (FP.num r) = FP.num (if r < 0.5 then 0.5 else if 20.0 < r then 20.0 else r) := by
  unfold clampSpeed
  by_cases h1 : r < 0.5
  · have h2 : ¬ ((20.0 : ℚ) < 0.5) := by norm_num
    simp [FP.lt, h1, h2]
  · by_cases h2 : (20.0 : ℚ) < r
    · simp [FP.lt, h1, h2]
    · simp [FP.lt, h1, h2]

theorem clampSpeed_range (a : FP) (h : a ≠ FP.nan) :
    ∃ q, clampSpeed a = FP.num q ∧ (0.5 : ℚ) ≤ q ∧ q ≤ 20.0 ∧
      (clampSpeed a = a ↔ ∃ r, a = FP.num r ∧ (0.5 : ℚ) ≤ r ∧ r ≤ 20.0) := by
  cases a with
  | nan => exact absurd rfl h
  | inf s =>
    cases s
    · refine ⟨20.0, by simp [clampSpeed, FP.lt], by norm_num, le_rfl, ?_⟩
      constructor
      · intro h1
        simp [clampSpeed, FP.lt] at h1
      · rintro ⟨r, hr, _⟩
        simp at hr
    · refine ⟨0.5, ?_, le_rfl, by norm_num, ?_⟩
      · have h2 : ¬ ((20.0 : ℚ) < 0.5) := by norm_num
        simp [clampSpeed, FP.lt, h2]
      constructor
      · intro h1
        have h2 : ¬ ((20.0 : ℚ) < 0.5) := by norm_num
        simp [clampSpeed, FP.lt, h2] at h1
      · rintro ⟨r, hr, _⟩
        simp at hr
  | num r =>
    rw [clampSpeed_num]
    by_cases h1 : r < 0.5
    · refine ⟨0.5, by simp [h1], le_rfl, by norm_num, ?_⟩
      simp only [h1, if_true, FP.num.injEq]
      constructor
      · intro h2
        rw [← h2] at h1
        exact absurd h1 (lt_irrefl _)
      · rintro ⟨r', hr', h3, _⟩
        rw [← hr'] at h3
        exact absurd h1 (not_lt.mpr h3)
    · by_cases h2 : (20.0 : ℚ) < r
      · refine ⟨20.0, by simp [h1, h2], by norm_num, le_rfl, ?_⟩
        simp only [h1, h2, if_false, if_true, FP.num.injEq]
        constructor
        · intro h3
          rw [← h3] at h2
          exact absurd h2 (lt_irrefl _)
        · rintro ⟨r', hr', _, h3⟩
          rw [← hr'] at h3
          exact absurd h2 (not_lt.mpr h3)
      · refine ⟨r, by simp [h1, h2], not_lt.mp h1, not_lt.mp h2, ?_⟩
        simp only [h1, h2, if_false, true_iff]
        exact ⟨r, rfl, not_lt.mp h1, not_lt.mp h2⟩

theorem Mouse_Scroll_Wheel_Callback_camera (x y : FP) (v : ViewManager) (c : Camera)
    (hc : v.g_pCamera = some c) :
    (Mouse_Scroll_Wheel_Callback x y v).g_pCamera = some
      { c with MovementSpeed := clampSpeed (Mouse_Scroll_Wheel_Callback.sum c.MovementSpeed y) } := by
  unfold Mouse_Scroll_Wheel_Callback clampSpeed
  simp only [hc]
  split_ifs <;> rfl

theorem Mouse_Scroll_Wheel_Callback_exact (x y : FP) (v : ViewManager) :
    cameraSpeed (Mouse_Scroll_Wheel_Callback x y v) =
      (cameraSpeed v).map fun a => clampSpeed (Mouse_Scroll_Wheel_Callback.sum a y) := by
  cases hc : v.g_pCamera with
  | none => simp [Mouse_Scroll_Wheel_Callback, cameraSpeed, hc]
  | some c =>
    simp only [cameraSpeed, Mouse_Scroll_Wheel_Callback_camera x y v c hc, hc,
      Option.map_some']

theorem FP_cast_ne_nan (F : FloatFormat) (a : FP) (h : a ≠ FP.nan) : FP.cast F a ≠ FP.nan := by
  cases a with
  | nan => exact absurd rfl h
  | inf s => simp [FP.cast]
  | num r => exact FloatFormat_round_ne_nan F r

theorem Mouse_Scroll_Wheel_Callback_sum_ne_nan (q : ℚ) (y : FP) (hy : y ≠ FP.nan) :
    Mouse_Scroll_Wheel_Callback.sum (FP.num q) y ≠ FP.nan := by
  unfold Mouse_Scroll_Wheel_Callback.sum
  apply FP_cast_ne_nan
  cases y with
  | nan => exact absurd rfl hy
  | inf s =>
    have h5 : ¬ ((0.5 : ℚ) = 0) := by norm_num
    simp [FP.mul, FP.add, h5]
  | num d =>
    have h := FloatFormat_round_ne_nan binary64 (d * 0.5)
    cases hr : binary64.round (d * 0.5) with
    | nan => exact absurd hr h
    | inf s => simp [FP.mul, FP.add, hr]
    | num r =>
      simp only [FP.mul, FP.add, hr]
      exact FloatFormat_round_ne_nan binary64 _

theorem Mouse_Scroll_Wheel_Callback_speed (x y : FP) (v : ViewManager) (c : Camera)
    (hc : v.g_pCamera = some c) :
    ∃ c', (Mouse_Scroll_Wheel_Callback x y v).g_pCamera = some c' ∧
      (Mouse_Scroll_Wheel_Callback.sum c.MovementSpeed y = FP.nan →
        c'.MovementSpeed = FP.nan) ∧
      (Mouse_Scroll_Wheel_Callback.sum c.MovementSpeed y ≠ FP.nan →
        ∃ q, c'.MovementSpeed = FP.num q ∧ (0.5 : ℚ) ≤ q ∧ q ≤ 20.0 ∧
          (c'.MovementSpeed = Mouse_Scroll_Wheel_Callback.sum c.MovementSpeed y ↔
            ∃ r, Mouse_Scroll_Wheel_Callback.sum c.MovementSpeed y = FP.num r ∧
              (0.5 : ℚ) ≤ r ∧ r ≤ 20.0)) := by
  refine ⟨_, Mouse_Scroll_Wheel_Callback_camera x y v c hc, ?_, ?_⟩
  · intro h
    show clampSpeed _ = _
    rw [h]
    rfl
  · intro h
    exact clampSpeed_range _ h

theorem step_speed (M : CameraMethods) (hM : KeepsSpeed M) (e : Event) (v : ViewManager)
    (q : ℚ) (hq : cameraSpeed v = some (FP.num q)) (hlo : (0.5 : ℚ) ≤ q) (hhi : q ≤ 20.0)
    (he : ∀ x y, e = Event.scrollWheel x y → y ≠ FP.nan) :
    ∃ v' q', step M v e = some v' ∧ cameraSpeed v' = some (FP.num q') ∧
      (0.5 : ℚ) ≤ q' ∧ q' ≤ 20.0 := by
  cases e with
  | mousePosition x y =>
    obtain ⟨v', h1, h2⟩ := Mouse_Position_Callback_speed M hM x y _ v hq
    exact ⟨v', q, h1, h2, hlo, hhi⟩
  | scrollWheel x y =>
    have hy : y ≠ FP.nan := he x y rfl
    obtain ⟨q', h1, h2, h3, _⟩ := clampSpeed_range _
      (Mouse_Scroll_Wheel_Callback_sum_ne_nan q y hy)
    refine ⟨_, q', rfl, ?_, h2, h3⟩
    rw [Mouse_Scroll_Wheel_Callback_exact, hq]
    simp only [Option.map_some', h1]
  | keyboard keys =>
    exact ⟨_, q, rfl, by rw [ProcessKeyboardEvents_speed M hM]; exact hq, hlo, hhi⟩
  | frame t keys =>
    obtain ⟨v', h1, h2⟩ := PrepareSceneView_speed M hM t _ keys v hq
    exact ⟨v', q, h1, h2, hlo, hhi⟩

theorem run_speed (M : CameraMethods) (hM : KeepsSpeed M) :
    ∀ (events : List Event) (v : ViewManager) (q : ℚ), cameraSpeed v = some (FP.num q) →
      (0.5 : ℚ) ≤ q → q ≤ 20.0 →
      (∀ x y, Event.scrollWheel x y ∈ events → y ≠ FP.nan) →
      ∃ v' q', run M v events = some v' ∧ cameraSpeed v' = some (FP.num q') ∧
        (0.5 : ℚ) ≤ q' ∧ q' ≤ 20.0
  | [], v, q, hq, hlo, hhi, _ => ⟨v, q, rfl, hq, hlo, hhi⟩
  | e :: rest, v, q, hq, hlo, hhi, hev => by
    obtain ⟨v1, q1, h1, hq1, hlo1, hhi1⟩ := step_speed M hM e v q hq hlo hhi
      (fun x y hxy => hev x y (by rw [hxy]; exact List.mem_cons_self _ _))
    obtain ⟨v2, q2, h2, hq2, hlo2, hhi2⟩ := run_speed M hM rest v1 q1 hq1 hlo1 hhi1
      (fun x y hxy => hev x y (List.mem_cons_of_mem _ hxy))
    refine ⟨v2, q2, ?_, hq2, hlo2, hhi2⟩
    unfold run at h2 ⊢
    rw [List.foldlM_cons, h1]
    exact h2

theorem new_speed (M : CameraMethods) (pShaderManager uninitOrtho : Bool) :
    cameraSpeed (ViewManager.new M pShaderManager uninitOrtho) = some (FP.num 10) := by
  show some (FP.num ((10 : Nat) : ℚ)) = _
  norm_num

theorem round64_exampleScroll : binary64.round exampleScroll = FP.num exampleScroll := by
  have hk : max (-4 : Int) binary64.emin - ((binary64.precision : Int) - 1) = -56 := by decide
  have h := FloatFormat_round_eq binary64 exampleScroll (-4) 7205759403792794
    (by norm_num [exampleScroll, abs_of_pos]) (by norm_num [exampleScroll, abs_of_pos])
    (by rw [hk]; norm_num [exampleScroll]) (by rw [hk]; norm_num [exampleScroll])
    (by rw [hk]; norm_num [binary64, abs_of_pos])
  rw [hk] at h
  rw [h]
  congr 1
  norm_num [exampleScroll]

theorem sum_exampleScroll :
    Mouse_Scroll_Wheel_Callback.sum (FP.num 10) (FP.num exampleScroll) =
      FP.num (10538189 / 2 ^ 20) := by
  have hmul : binary64.round (exampleScroll * 0.5) = FP.num (3602879701896397 / 2 ^ 56) := by
    have hk : max (-5 : Int) binary64.emin - ((binary64.precision : Int) - 1) = -57 := by
      decide
    have hv : exampleScroll * 0.5 = 3602879701896397 / 2 ^ 56 := by
      norm_num [exampleScroll]
    have h := FloatFormat_round_eq binary64 (3602879701896397 / 2 ^ 56) (-5) 7205759403792794
      (by norm_num [abs_of_pos]) (by norm_num [abs_of_pos])
      (by rw [hk]; norm_num) (by rw [hk]; norm_num)
      (by rw [hk]; norm_num [binary64, abs_of_pos])
    rw [hk] at h
    rw [hv, h]
    congr 1
    norm_num
  have hadd : binary64.round (10 + 3602879701896397 / 2 ^ 56) =
      FP.num (2828823515942093 / 2 ^ 48) := by
    have hk : max (3 : Int) binary64.emin - ((binary64.precision : Int) - 1) = -49 := by
      decide
    have h := FloatFormat_round_eq binary64 (10 + 3602879701896397 / 2 ^ 56) 3
      5657647031884186
      (by norm_num [abs_of_pos]) (by norm_num [abs_of_pos])
      (by rw [hk]; norm_num) (by rw [hk]; norm_num)
      (by rw [hk]; norm_num [binary64, abs_of_pos])
    rw [hk] at h
    rw [h]
    congr 1
    norm_num
  have hcast : binary32.round (2828823515942093 / 2 ^ 48) = FP.num (10538189 / 2 ^ 20) := by
    have hk : max (3 : Int) binary32.emin - ((binary32.precision : Int) - 1) = -20 := by
      decide
    have h := FloatFormat_round_eq binary32 (2828823515942093 / 2 ^ 48) 3 10538189
      (by norm_num [abs_of_pos]) (by norm_num [abs_of_pos])
      (by rw [hk]; norm_num) (by rw [hk]; norm_num)
      (by rw [hk]; norm_num [binary32, abs_of_pos])
    rw [hk] at h
    rw [h]
    congr 1
    norm_num
  unfold Mouse_Scroll_Wheel_Callback.sum
  rw [FP_mul_num, hmul, FP_add_num, hadd]
  exact hcast

/-- C10 (what the code does): on the constructed view manager, whose `MovementSpeed` is 10,
a scroll callback with the distance NaN leaves `MovementSpeed` NaN: neither of the two
clamp tests holds of it, and it is neither at least 0.5 nor at most 20. And a scroll
callback with the distance d, the `double` nearest to 0.1, leaves `MovementSpeed` at
10538189 / 2^20 = 10.05000019..., the `float` nearest to the sum, which is not 10 + d * 0.5
although that number lies between 0.5 and 20. -/
theorem MovementSpeed_not_clamped_nor_exact :
    cameraSpeed (ViewManager.new exampleCamera true false) = some (FP.num 10) ∧
    cameraSpeed (Mouse_Scroll_Wheel_Callback (FP.num 0) FP.nan
      (ViewManager.new exampleCamera true false)) = some FP.nan ∧
    FP.lt FP.nan (FP.num 0.5) = false ∧ FP.lt (FP.num 20.0) FP.nan = false ∧
    FP.le (FP.num 0.5) FP.nan = false ∧ FP.le FP.nan (FP.num 20.0) = false ∧
    binary64.round exampleScroll = FP.num exampleScroll ∧
    cameraSpeed (Mouse_Scroll_Wheel_Callback (FP.num 0) (FP.num exampleScroll)
      (ViewManager.new exampleCamera true false)) = some (FP.num (10538189 / 2 ^ 20)) ∧
    (0.5 : ℚ) ≤ 10 + exampleScroll * 0.5 ∧ 10 + exampleScroll * 0.5 ≤ (20.0 : ℚ) ∧
    (10538189 / 2 ^ 20 : ℚ) ≠ 10 + exampleScroll * 0.5 := by
  refine ⟨new_speed _ _ _, ?_, rfl, rfl, rfl, rfl, round64_exampleScroll, ?_,
    by norm_num [exampleScroll], by norm_num [exampleScroll], by norm_num [exampleScroll]⟩
  · rw [Mouse_Scroll_Wheel_Callback_exact, new_speed]
    rfl
  · rw [Mouse_Scroll_Wheel_Callback_exact, new_speed]
    simp only [Option.map_some', sum_exampleScroll, clampSpeed_num]
    norm_num

/-- C10 (amended): `Mouse_Scroll_Wheel_Callback` leaves `MovementSpeed` NaN when the sum it
assigns, the `float` of previous + distance * 0.5 computed in `double`, is NaN; otherwise
it leaves `MovementSpeed` a number between 0.5 and 20.0, equal to that sum exactly when the
sum is a number between 0.5 and 20.0. The sum of a finite speed and a distance that is not
NaN is not NaN; so, the methods of `Camera` leaving `MovementSpeed` alone, after every
sequence of mouse, scroll, keyboard and frame events whose scroll distances are not NaN, on
a newly constructed view manager, the camera exists and its `MovementSpeed` is a number
between 0.5 and 20.0. -/
theorem MovementSpeed_clamped :
    (∀ (v : ViewManager) (c : Camera) (x yScrollDistance : FP), v.g_pCamera = some c →
      ∃ c', (Mouse_Scroll_Wheel_Callback x yScrollDistance v).g_pCamera = some c' ∧
        (Mouse_Scroll_Wheel_Callback.sum c.MovementSpeed yScrollDistance = FP.nan →
          c'.MovementSpeed = FP.nan) ∧
        (Mouse_Scroll_Wheel_Callback.sum c.MovementSpeed yScrollDistance ≠ FP.nan →
          ∃ q, c'.MovementSpeed = FP.num q ∧ (0.5 : ℚ) ≤ q ∧ q ≤ 20.0 ∧
            (c'.MovementSpeed =
                Mouse_Scroll_Wheel_Callback.sum c.MovementSpeed yScrollDistance ↔
              ∃ r, Mouse_Scroll_Wheel_Callback.sum c.MovementSpeed yScrollDistance =
                  FP.num r ∧ (0.5 : ℚ) ≤ r ∧ r ≤ 20.0))) ∧
    (∀ (q : ℚ) (yScrollDistance : FP), yScrollDistance ≠ FP.nan →
      Mouse_Scroll_Wheel_Callback.sum (FP.num q) yScrollDistance ≠ FP.nan) ∧
    (∀ (M : CameraMethods) (pShaderManager uninitOrtho : Bool) (events : List Event),
      KeepsSpeed M →
      (∀ x y, Event.scrollWheel x y ∈ events → y ≠ FP.nan) →
      ∃ v c q, run M (ViewManager.new M pShaderManager uninitOrtho) events = some v ∧
        v.g_pCamera = some c ∧ c.MovementSpeed = FP.num q ∧ (0.5 : ℚ) ≤ q ∧ q ≤ 20.0) := by
  refine ⟨?_, Mouse_Scroll_Wheel_Callback_sum_ne_nan, ?_⟩
  · intro v c x y hc
    exact Mouse_Scroll_Wheel_Callback_speed x y v c hc
  · intro M sm ortho events hM hev
    obtain ⟨v, q, hrun, hq, hlo, hhi⟩ :=
      run_speed M hM events (ViewManager.new M sm ortho) 10 (new_speed M sm ortho)
        (by norm_num) (by norm_num) hev
    unfold cameraSpeed at hq
    cases hc : v.g_pCamera with
    | none => simp [hc] at hq
    | some c =>
      simp only [hc, Option.map_some', Option.some.injEq] at hq
      exact ⟨v, c, q, hrun, hc, hq, hlo, hhi⟩

theorem KeepsSpeed_exampleCamera : KeepsSpeed exampleCamera :=
  ⟨fun d t c => by cases d <;> cases t <;> rfl, fun x y c => by cases x <;> cases y <;> rfl⟩

/-- Witness of C10: a scroll of +30 from the constructed speed 10, and the invariant after a
frame with W and 1 pressed, a mouse move and a scroll of -100. -/
theorem MovementSpeed_clamped_witness :
    (∃ c', (Mouse_Scroll_Wheel_Callback (FP.num 0) (FP.num 30)
        (ViewManager.new exampleCamera true false)).g_pCamera = some c' ∧
      (Mouse_Scroll_Wheel_Callback.sum 10 (FP.num 30) = FP.nan → c'.MovementSpeed = FP.nan) ∧
      (Mouse_Scroll_Wheel_Callback.sum 10 (FP.num 30) ≠ FP.nan →
        ∃ q, c'.MovementSpeed = FP.num q ∧ (0.5 : ℚ) ≤ q ∧ q ≤ 20.0 ∧
          (c'.MovementSpeed = Mouse_Scroll_Wheel_Callback.sum 10 (FP.num 30) ↔
            ∃ r, Mouse_Scroll_Wheel_Callback.sum 10 (FP.num 30) = FP.num r ∧
              (0.5 : ℚ) ≤ r ∧ r ≤ 20.0))) ∧
    KeepsSpeed exampleCamera ∧
    (∀ x y, Event.scrollWheel x y ∈ exampleEvents → y ≠ FP.nan) ∧
    (∃ v c q, run exampleCamera (ViewManager.new exampleCamera true false) exampleEvents =
        some v ∧
      v.g_pCamera = some c ∧ c.MovementSpeed = FP.num q ∧ (0.5 : ℚ) ≤ q ∧ q ≤ 20.0) :=
  have hev : ∀ x y, Event.scrollWheel x y ∈ exampleEvents → y ≠ FP.nan := by
    intro x y h
    simp [exampleEvents] at h
    rw [h.2]
    simp
  ⟨MovementSpeed_clamped.1 (ViewManager.new exampleCamera true false)
      { exampleCamera.default with
          Position := ⟨0.5, 5.5, 10.0⟩
          Front := ⟨0.0, -0.5, -2.0⟩
          Up := ⟨0.0, 1.0, 0.0⟩
          Zoom := 80
          MovementSpeed := 10 } (FP.num 0) (FP.num 30) rfl,
    KeepsSpeed_exampleCamera, hev,
    MovementSpeed_clamped.2.2 exampleCamera true false exampleEvents
      KeepsSpeed_exampleCamera hev⟩

theorem scroll_up_step (q : ℚ) (g : Int) (hg1 : 1 ≤ g) (hg2 : g ≤ 40)
    (hlo : (g : ℚ) / 2 ≤ q) (hhi : q ≤ 20) :
    ∃ q', clampSpeed (Mouse_Scroll_Wheel_Callback.sum (FP.num q) (FP.num 1)) = FP.num q' ∧
      ((min (g + 1) 40 : Int) : ℚ) / 2 ≤ q' ∧ q' ≤ 20 := by
  unfold Mouse_Scroll_Wheel_Callback.sum
  rw [mul_one_half, FP_add_num]
  have hA1 := round_lower_half binary64 (Or.inr rfl) (q + 1 / 2) (g + 1) (by omega)
    (by norm_num; omega) (by push_cast; linarith)
  have hA2 := round_upper_half binary64 (Or.inr rfl) (q + 1 / 2) 41 (by norm_num)
    (by norm_num) (by push_cast; linarith)
  have hS1 := cast_lower_half binary32 (Or.inl rfl) (g + 1) (by omega) (by norm_num; omega)
    (FP.cast binary32 (binary64.round (q + 1 / 2)) |> fun _ => binary64.round (q + 1 / 2)) hA1
  have hS2 := cast_upper_half binary32 (Or.inl rfl) 41 (by norm_num) (by norm_num) _ hA2
  obtain ⟨r, hr, h1, h2⟩ := FP_num_of_between _ _ _ hS1 hS2
  rw [hr, clampSpeed_num]
  have hg1q : (1 : ℚ) ≤ g := by exact_mod_cast hg1
  have hg2q : (g : ℚ) ≤ 40 := by exact_mod_cast hg2
  push_cast at h1 h2
  have hr1 : ¬ r < 0.5 := by
    have : (0.5 : ℚ) ≤ r := by
      have h0 : (0.5 : ℚ) = 1 / 2 := by norm_num
      linarith
    exact not_lt.mpr this
  have hmin : ((min (g + 1) 40 : Int) : ℚ) ≤ g + 1 ∧ ((min (g + 1) 40 : Int) : ℚ) ≤ 40 := by
    constructor
    · have : min (g + 1) 40 ≤ g + 1 := min_le_left _ _
      exact_mod_cast this
    · have : min (g + 1) 40 ≤ 40 := min_le_right _ _
      exact_mod_cast this
  by_cases h20 : (20.0 : ℚ) < r
  · refine ⟨20.0, by simp [hr1, h20], ?_, by norm_num⟩
    have h0 : (20.0 : ℚ) = 40 / 2 := by norm_num
    linarith [hmin.2]
  · refine ⟨r, by simp [hr1, h20], ?_, ?_⟩
    · linarith [hmin.1]
    · have := not_lt.mp h20
      have h0 : (20.0 : ℚ) = 20 := by norm_num
      linarith

theorem scroll_down_step (q : ℚ) (h : Int) (hh1 : 1 ≤ h) (hh2 : h ≤ 40)
    (hlo : (0.5 : ℚ) ≤ q) (hhi : q ≤ (h : ℚ) / 2) :
    ∃ q', clampSpeed (Mouse_Scroll_Wheel_Callback.sum (FP.num q) (FP.num (-1))) = FP.num q' ∧
      (0.5 : ℚ) ≤ q' ∧ q' ≤ ((max (h - 1) 1 : Int) : ℚ) / 2 := by
  unfold Mouse_Scroll_Wheel_Callback.sum
  rw [mul_neg_one_half, FP_add_num]
  have h05 : (0.5 : ℚ) = 1 / 2 := by norm_num
  have hA1 := round_lower_half binary64 (Or.inr rfl) (q + -(1 / 2)) 0 le_rfl (by norm_num)
    (by push_cast; linarith)
  have hA2 := round_upper_half binary64 (Or.inr rfl) (q + -(1 / 2)) (h - 1) (by omega)
    (by norm_num; omega) (by push_cast; linarith)
  have hS1 := cast_lower_half binary32 (Or.inl rfl) 0 le_rfl (by norm_num) _ hA1
  have hS2 := cast_upper_half binary32 (Or.inl rfl) (h - 1) (by omega) (by norm_num; omega)
    _ hA2
  obtain ⟨r, hr, h1, h2⟩ := FP_num_of_between _ _ _ hS1 hS2
  rw [hr, clampSpeed_num]
  have hh1q : (1 : ℚ) ≤ h := by exact_mod_cast hh1
  have hh2q : (h : ℚ) ≤ 40 := by exact_mod_cast hh2
  push_cast at h1 h2
  have hmax : (h : ℚ) - 1 ≤ ((max (h - 1) 1 : Int) : ℚ) ∧
      (1 : ℚ) ≤ ((max (h - 1) 1 : Int) : ℚ) := by
    constructor
    · have : h - 1 ≤ max (h - 1) 1 := le_max_left _ _
      exact_mod_cast this
    · have : 1 ≤ max (h - 1) 1 := le_max_right _ _
      exact_mod_cast this
  by_cases hr1 : r < 0.5
  · refine ⟨0.5, by simp [hr1], le_rfl, ?_⟩
    linarith [hmax.2]
  · have h20 : ¬ ((20.0 : ℚ) < r) := by
      have h0 : (20.0 : ℚ) = 20 := by norm_num
      exact not_lt.mpr (by linarith)
    refine ⟨r, by simp [hr1, h20], not_lt.mp hr1, ?_⟩
    linarith [hmax.1]

theorem scrollTimes_up (x : FP) :
    ∀ (n : Nat) (g : Int) (v : ViewManager) (q : ℚ), cameraSpeed v = some (FP.num q) →
      1 ≤ g → g ≤ 40 → (g : ℚ) / 2 ≤ q → q ≤ 20 →
      ∃ q', cameraSpeed (scrollTimes n x (FP.num 1) v) = some (FP.num q') ∧
        ((min (g + n) 40 : Int) : ℚ) / 2 ≤ q' ∧ q' ≤ 20
  | 0, g, v, q, hq, _, hg2, hlo, hhi => by
    refine ⟨q, hq, ?_, hhi⟩
    have : min (g + (0 : Nat)) 40 = g := by omega
    rw [this]
    exact hlo
  | n + 1, g, v, q, hq, hg1, hg2, hlo, hhi => by
    obtain ⟨q1, h1, h2, h3⟩ := scroll_up_step q g hg1 hg2 hlo hhi
    have hstep : cameraSpeed (Mouse_Scroll_Wheel_Callback x (FP.num 1) v) =
        some (FP.num q1) := by
      rw [Mouse_Scroll_Wheel_Callback_exact, hq]
      simp only [Option.map_some', h1]
    obtain ⟨q', h4, h5, h6⟩ := scrollTimes_up x n (min (g + 1) 40)
      (Mouse_Scroll_Wheel_Callback x (FP.num 1) v) q1 hstep (by omega) (by omega) h2 h3
    refine ⟨q', h4, ?_, h6⟩
    have : min (min (g + 1) 40 + (n : Int)) 40 = min (g + ((n + 1 : Nat) : Int)) 40 := by
      push_cast
      omega
    rw [← this]
    exact h5

theorem scrollTimes_down (x : FP) :
    ∀ (n : Nat) (h : Int) (v : ViewManager) (q : ℚ), cameraSpeed v = some (FP.num q) →
      1 ≤ h → h ≤ 40 → (0.5 : ℚ) ≤ q → q ≤ (h : ℚ) / 2 →
      ∃ q', cameraSpeed (scrollTimes n x (FP.num (-1)) v) = some (FP.num q') ∧
        (0.5 : ℚ) ≤ q' ∧ q' ≤ ((max (h - n) 1 : Int) : ℚ) / 2
  | 0, h, v, q, hq, hh1, _, hlo, hhi => by
    refine ⟨q, hq, hlo, ?_⟩
    have : max (h - (0 : Nat)) 1 = h := by omega
    rw [this]
    exact hhi
  | n + 1, h, v, q, hq, hh1, hh2, hlo, hhi => by
    obtain ⟨q1, h1, h2, h3⟩ := scroll_down_step q h hh1 hh2 hlo hhi
    have hstep : cameraSpeed (Mouse_Scroll_Wheel_Callback x (FP.num (-1)) v) =
        some (FP.num q1) := by
      rw [Mouse_Scroll_Wheel_Callback_exact, hq]
      simp only [Option.map_some', h1]
    obtain ⟨q', h4, h5, h6⟩ := scrollTimes_down x n (max (h - 1) 1)
      (Mouse_Scroll_Wheel_Callback x (FP.num (-1)) v) q1 hstep (by omega) (by omega) h2 h3
    refine ⟨q', h4, h5, ?_⟩
    have : max (max (h - 1) 1 - (n : Int)) 1 = max (h - ((n + 1 : Nat) : Int)) 1 := by
      push_cast
      omega
    rw [← this]
    exact h6

theorem scroll_at_max (d : ℚ) (hd : 0 ≤ d) :
    clampSpeed (Mouse_Scroll_Wheel_Callback.sum (FP.num 20.0) (FP.num d)) = FP.num 20.0 := by
  unfold Mouse_Scroll_Wheel_Callback.sum
  have hA := add_lower_half binary64 (Or.inr rfl) 20.0 40 (by norm_num) (by norm_num)
    (by norm_num) _ (mul_half_nonneg d hd)
  have hS := cast_lower_half binary32 (Or.inl rfl) 40 (by norm_num) (by norm_num) _ hA
  generalize FP.cast binary32
    (FP.add binary64 (FP.num 20.0) (FP.mul binary64 (FP.num d) (FP.num 0.5))) = S at hS
  cases S with
  | nan => simp [FP.le] at hS
  | inf s =>
    cases s
    · simp [clampSpeed, FP.lt]
    · simp [FP.le] at hS
  | num r =>
    have hr : (20 : ℚ) ≤ r := by
      have : ((40 : Int) : ℚ) / 2 ≤ r := by simpa [FP.le] using hS
      norm_num at this
      exact this
    rw [clampSpeed_num]
    have h1 : ¬ r < 0.5 := by
      have h0 : (0.5 : ℚ) ≤ 20 := by norm_num
      exact not_lt.mpr (by linarith)
    by_cases h2 : (20.0 : ℚ) < r
    · simp [h1, h2]
    · simp only [h1, h2, if_false]
      congr 1
      have := not_lt.mp h2
      have h0 : (20.0 : ℚ) = 20 := by norm_num
      linarith

theorem scroll_at_min (d : ℚ) (hd : d ≤ 0) :
    clampSpeed (Mouse_Scroll_Wheel_Callback.sum (FP.num 0.5) (FP.num d)) = FP.num 0.5 := by
  unfold Mouse_Scroll_Wheel_Callback.sum
  have hA := add_upper_half binary64 (Or.inr rfl) 0.5 1 (by norm_num) (by norm_num)
    (by norm_num) _ (mul_half_nonpos d hd)
  have hS := cast_upper_half binary32 (Or.inl rfl) 1 (by norm_num) (by norm_num) _ hA
  generalize FP.cast binary32
    (FP.add binary64 (FP.num 0.5) (FP.mul binary64 (FP.num d) (FP.num 0.5))) = S at hS
  have h3 : ¬ ((20.0 : ℚ) < 0.5) := by norm_num
  cases S with
  | nan => simp [FP.le] at hS
  | inf s =>
    cases s
    · simp [FP.le] at hS
    · simp [clampSpeed, FP.lt, h3]
  | num r =>
    have hr : r ≤ (0.5 : ℚ) := by
      have : r ≤ ((1 : Int) : ℚ) / 2 := by simpa [FP.le] using hS
      norm_num at this ⊢
      exact this
    rw [clampSpeed_num]
    by_cases h1 : r < 0.5
    · simp [h1]
    · have h2 : ¬ ((20.0 : ℚ) < r) := by
        have h0 : (0.5 : ℚ) ≤ 20.0 := by norm_num
        exact not_lt.mpr (by linarith)
      simp only [h1, h2, if_false]
      congr 1
      linarith [not_lt.mp h1]

/-- C11: from every `MovementSpeed` between 0.5 and 20.0, and so from the 10 the constructor
sets, 100 consecutive scroll callbacks with distance +1 leave `MovementSpeed` at exactly
20.0 and 100 with distance -1 leave it at exactly 0.5; at 20.0 a callback with a distance
that is not negative, and at 0.5 one with a distance that is not positive, leaves the speed
as it is. -/
theorem scroll_saturates (x : FP) :
    (∀ (v : ViewManager) (q : ℚ), cameraSpeed v = some (FP.num q) → (0.5 : ℚ) ≤ q →
      q ≤ 20.0 →
      cameraSpeed (scrollTimes 100 x (FP.num 1) v) = some (FP.num 20.0) ∧
      cameraSpeed (scrollTimes 100 x (FP.num (-1)) v) = some (FP.num 0.5)) ∧
    (∀ (M : CameraMethods) (pShaderManager uninitOrtho : Bool),
      cameraSpeed (scrollTimes 100 x (FP.num 1)
          (ViewManager.new M pShaderManager uninitOrtho)) = some (FP.num 20.0) ∧
      cameraSpeed (scrollTimes 100 x (FP.num (-1))
          (ViewManager.new M pShaderManager uninitOrtho)) = some (FP.num 0.5)) ∧
    (∀ (v : ViewManager) (y : ℚ), cameraSpeed v = some (FP.num 20.0) → 0 ≤ y →
      cameraSpeed (Mouse_Scroll_Wheel_Callback x (FP.num y) v) = some (FP.num 20.0)) ∧
    (∀ (v : ViewManager) (y : ℚ), cameraSpeed v = some (FP.num 0.5) → y ≤ 0 →
      cameraSpeed (Mouse_Scroll_Wheel_Callback x (FP.num y) v) = some (FP.num 0.5)) := by
  have hmain : ∀ (v : ViewManager) (q : ℚ), cameraSpeed v = some (FP.num q) →
      (0.5 : ℚ) ≤ q → q ≤ 20.0 →
      cameraSpeed (scrollTimes 100 x (FP.num 1) v) = some (FP.num 20.0) ∧
      cameraSpeed (scrollTimes 100 x (FP.num (-1)) v) = some (FP.num 0.5) := by
    intro v q hq hlo hhi
    have hlo' : ((1 : Int) : ℚ) / 2 ≤ q := by
      norm_num at hlo ⊢
      exact hlo
    have hhi' : q ≤ 20 := by
      norm_num at hhi
      exact hhi
    constructor
    · obtain ⟨q', h1, h2, h3⟩ := scrollTimes_up x 100 1 v q hq le_rfl (by norm_num) hlo' hhi'
      have h4 : ((min ((1 : Int) + (100 : Nat)) 40 : Int) : ℚ) / 2 = 20 := by norm_num
      rw [h4] at h2
      have h5 : q' = 20.0 := by
        norm_num
        linarith
      rw [h5] at h1
      exact h1
    · obtain ⟨q', h1, h2, h3⟩ := scrollTimes_down x 100 40 v q hq (by norm_num) le_rfl hlo
        (by norm_num; exact hhi')
      have h4 : ((max ((40 : Int) - (100 : Nat)) 1 : Int) : ℚ) / 2 = 0.5 := by norm_num
      rw [h4] at h3
      have h5 : q' = 0.5 := by linarith
      rw [h5] at h1
      exact h1
  refine ⟨hmain, ?_, ?_, ?_⟩
  · intro M sm ortho
    exact hmain (ViewManager.new M sm ortho) 10 (new_speed M sm ortho) (by norm_num)
      (by norm_num)
  · intro v y hv hy
    rw [Mouse_Scroll_Wheel_Callback_exact, hv]
    simp only [Option.map_some', scroll_at_max y hy]
  · intro v y hv hy
    rw [Mouse_Scroll_Wheel_Callback_exact, hv]
    simp only [Option.map_some', scroll_at_min y hy]

/-- Witness of C11: the constructed view manager, whose speed is 10, and the state reached
from it by 100 scrolls up. -/
theorem scroll_saturates_witness :
    (cameraSpeed (scrollTimes 100 (FP.num 0) (FP.num 1)
        (ViewManager.new exampleCamera true false)) = some (FP.num 20.0) ∧
      cameraSpeed (scrollTimes 100 (FP.num 0) (FP.num (-1))
        (ViewManager.new exampleCamera true false)) = some (FP.num 0.5)) ∧
    cameraSpeed (Mouse_Scroll_Wheel_Callback (FP.num 0) (FP.num 3)
      (scrollTimes 100 (FP.num 0) (FP.num 1) (ViewManager.new exampleCamera true false))) =
      some (FP.num 20.0) :=
  ⟨(scroll_saturates (FP.num 0)).1 (ViewManager.new exampleCamera true false) 10
      (new_speed exampleCamera true false) (by norm_num) (by norm_num),
    (scroll_saturates (FP.num 0)).2.2.1 _ 3
      ((scroll_saturates (FP.num 0)).2.1 exampleCamera true false).1 (by norm_num)⟩

/-! ## Theorems: hotkeys -/

theorem keyP_idle (b : Bool) (v : ViewManager) (h : (b && !v.pKeyPressed) = false) :
    ProcessKeyboardEvents.keyP b v = { v with pKeyPressed := b } := by
  unfold ProcessKeyboardEvents.keyP
  cases v
  cases b <;> simp_all

theorem keyP_fired (v : ViewManager) (h : v.pKeyPressed = false) :
    ProcessKeyboardEvents.keyP true v =
      { v with
          bOrthographicProjection := false
          g_pCamera := v.g_pCamera.map fun c =>
            { c with
                Position := ⟨0.0, 5.0, 8.0⟩
                Front := ⟨0.0, -0.3, -1.0⟩
                Up := ⟨0.0, 1.0, 0.0⟩
                Zoom := 80 }
          pKeyPressed := true } := by
  unfold ProcessKeyboardEvents.keyP
  simp [h]

theorem keyO_idle (b : Bool) (v : ViewManager) (h : (b && !v.oKeyPressed) = false) :
    ProcessKeyboardEvents.keyO b v = { v with oKeyPressed := b } := by
  unfold ProcessKeyboardEvents.keyO
  cases v
  cases b <;> simp_all

theorem keyO_fired (v : ViewManager) (h : v.oKeyPressed = false) :
    ProcessKeyboardEvents.keyO true v =
      { v with
          bOrthographicProjection := true
          g_pCamera := v.g_pCamera.map fun c =>
            { c with
                Position := ⟨0.0, 10.0, 0.0⟩
                Front := ⟨0.0, -1.0, 0.0⟩
                Up := ⟨0.0, 0.0, -1.0⟩
                Zoom := 50 }
          oKeyPressed := true } := by
  unfold ProcessKeyboardEvents.keyO
  simp [h]

theorem key1_idle (b : Bool) (v : ViewManager) (h : (b && !v.key1Pressed) = false) :
    ProcessKeyboardEvents.key1 b v = { v with key1Pressed := b } := by
  unfold ProcessKeyboardEvents.key1
  cases v
  cases b <;> simp_all

theorem key1_fired (v : ViewManager) (h : v.key1Pressed = false) :
    ProcessKeyboardEvents.key1 true v =
      { v with
          bOrthographicProjection := true
          g_pCamera := v.g_pCamera.map fun c =>
            { c with
                Position := mix c.Position ⟨0.0, 4.0, 10.0⟩ 0.5
                Front := ⟨0.0, 0.0, -1.0⟩
                Up := ⟨0.0, 1.0, 0.0⟩ }
          key1Pressed := true } := by
  unfold ProcessKeyboardEvents.key1
  simp [h]

theorem key2_idle (b : Bool) (v : ViewManager) (h : (b && !v.key2Pressed) = false) :
    ProcessKeyboardEvents.key2 b v = { v with key2Pressed := b } := by
  unfold ProcessKeyboardEvents.key2
  cases v
  cases b <;> simp_all

theorem key2_fired (v : ViewManager) (h : v.key2Pressed = false) :
    ProcessKeyboardEvents.key2 true v =
      { v with
          bOrthographicProjection := true
          g_pCamera := v.g_pCamera.map fun c =>
            { c with
                Position := mix c.Position ⟨10.0, 4.0, 0.0⟩ 0.5
                Front := ⟨-1.0, 0.0, 0.0⟩
                Up := ⟨0.0, 1.0, 0.0⟩ }
          key2Pressed := true } := by
  unfold ProcessKeyboardEvents.key2
  simp [h]

theorem key3_idle (b : Bool) (v : ViewManager) (h : (b && !v.key3Pressed) = false) :
    ProcessKeyboardEvents.key3 b v = { v with key3Pressed := b } := by
  unfold ProcessKeyboardEvents.key3
  cases v
  cases b <;> simp_all

theorem key3_fired (v : ViewManager) (h : v.key3Pressed = false) :
    ProcessKeyboardEvents.key3 true v =
      { v with
          bOrthographicProjection := true
          g_pCamera := v.g_pCamera.map fun c =>
            { c with
                Position := mix c.Position ⟨0.0, 10.0, 0.0⟩ 0.5
                Front := ⟨0.0, -1.0, 0.0⟩
                Up := ⟨0.0, 0.0, -1.0⟩ }
          key3Pressed := true } := by
  unfold ProcessKeyboardEvents.key3
  simp [h]

theorem key4_idle (b : Bool) (v : ViewManager) (h : (b && !v.key4Pressed) = false) :
    ProcessKeyboardEvents.key4 b v = { v with key4Pressed := b } := by
  unfold ProcessKeyboardEvents.key4
  cases v
  cases b <;> simp_all

theorem key4_fired (v : ViewManager) (h : v.key4Pressed = false) :
    ProcessKeyboardEvents.key4 true v =
      { v with
          bOrthographicProjection := false
          g_pCamera := v.g_pCamera.map fun c =>
            { c with
                Position := mix c.Position ⟨0.0, 5.0, 8.0⟩ 0.5
                Front := ⟨0.0, -0.3, -1.0⟩
                Up := ⟨0.0, 1.0, 0.0⟩
                Zoom := 80 }
          key4Pressed := true } := by
  unfold ProcessKeyboardEvents.key4
  simp [h]

theorem ProcessKeyboardEvents_blocks (M : CameraMethods) (keys : Keys) (v : ViewManager)
    (c : Camera) (hc : v.g_pCamera = some c) :
    ProcessKeyboardEvents M keys v =
      ProcessKeyboardEvents.key4 keys.K4 (ProcessKeyboardEvents.key3 keys.K3
        (ProcessKeyboardEvents.key2 keys.K2 (ProcessKeyboardEvents.key1 keys.K1
          (ProcessKeyboardEvents.keyO keys.O (ProcessKeyboardEvents.keyP keys.P
            { v with
                g_pCamera := some (ProcessKeyboardEvents.move M keys v.gDeltaTime c)
                calls := if keys.ESCAPE then v.calls ++ [ViewCall.glfwSetWindowShouldClose]
                  else v.calls }))))) := by
  unfold ProcessKeyboardEvents ProcessKeyboardEvents.camera
  by_cases he : keys.ESCAPE = true <;> simp [he, hc]

theorem PrepareSceneView_result (M : CameraMethods) (t : ℚ) (keys : Keys)
    (v w : ViewManager) (c : Camera)
    (hw : ProcessKeyboardEvents M keys
      { v with gDeltaTime := t - v.gLastFrame, gLastFrame := t } = w)
    (hc : w.g_pCamera = some c) :
    PrepareSceneView M t keys v =
      if w.m_pShaderManager then
        some { w with calls := w.calls ++
          [ViewCall.setView c,
           ViewCall.setProjection (PrepareSceneView.projection w.bOrthographicProjection c),
           ViewCall.setViewPosition c.Position] }
      else some w := by
  unfold PrepareSceneView
  simp only [hw, hc]

theorem frame_with_O (M : CameraMethods) (t : ℚ) (keys : Keys) (v : ViewManager) (c : Camera)
    (hc : v.g_pCamera = some c) (hnew : v.oKeyPressed = false)
    (hO : keys.O = true) (hP : keys.P = false) (h1 : keys.K1 = false) (h2 : keys.K2 = false)
    (h3 : keys.K3 = false) (h4 : keys.K4 = false) :
    ∃ v1 c1, PrepareSceneView M t keys v = some v1 ∧ v1.g_pCamera = some c1 ∧
      v1.bOrthographicProjection = true ∧ v1.pKeyPressed = false ∧ c1.Zoom = 50 := by
  have hcA : ({ v with gDeltaTime := t - v.gLastFrame, gLastFrame := t } :
      ViewManager).g_pCamera = some c := hc
  have hw := ProcessKeyboardEvents_blocks M keys _ c hcA
  generalize hwdef : ProcessKeyboardEvents M keys
    { v with gDeltaTime := t - v.gLastFrame, gLastFrame := t } = w at hw
  simp only [hO, hP, h1, h2, h3, h4, keyP_idle, keyO_fired, key1_idle, key2_idle, key3_idle,
    key4_idle, Bool.false_and, hnew, Option.map_some'] at hw
  obtain ⟨c1, hc1, hz⟩ : ∃ c1, w.g_pCamera = some c1 ∧ c1.Zoom = 50 := by
    rw [hw]
    exact ⟨_, rfl, rfl⟩
  have hmode : w.bOrthographicProjection = true := by rw [hw]
  have hlatch : w.pKeyPressed = false := by rw [hw]
  rw [PrepareSceneView_result M t keys v w c1 hwdef hc1]
  cases w.m_pShaderManager
  · exact ⟨_, c1, rfl, hc1, hmode, hlatch, hz⟩
  · exact ⟨_, c1, rfl, hc1, hmode, hlatch, hz⟩

theorem frame_with_P (M : CameraMethods) (t : ℚ) (keys : Keys) (v : ViewManager) (c : Camera)
    (hc : v.g_pCamera = some c) (hnew : v.pKeyPressed = false)
    (hP : keys.P = true) (hO : keys.O = false) (h1 : keys.K1 = false) (h2 : keys.K2 = false)
    (h3 : keys.K3 = false) (h4 : keys.K4 = false) :
    ∃ v2 c2, PrepareSceneView M t keys v = some v2 ∧ v2.g_pCamera = some c2 ∧
      v2.bOrthographicProjection = false ∧ c2.Zoom = 80 ∧
      (v2.m_pShaderManager = true → ∃ pre, v2.calls = pre ++
        [ViewCall.setView c2,
         ViewCall.setProjection (PrepareSceneView.projection false c2),
         ViewCall.setViewPosition c2.Position]) := by
  have hcA : ({ v with gDeltaTime := t - v.gLastFrame, gLastFrame := t } :
      ViewManager).g_pCamera = some c := hc
  have hw := ProcessKeyboardEvents_blocks M keys _ c hcA
  generalize hwdef : ProcessKeyboardEvents M keys
    { v with gDeltaTime := t - v.gLastFrame, gLastFrame := t } = w at hw
  simp only [hO, hP, h1, h2, h3, h4, keyP_fired, keyO_idle, key1_idle, key2_idle, key3_idle,
    key4_idle, Bool.false_and, hnew, Option.map_some'] at hw
  obtain ⟨c2, hc2, hz⟩ : ∃ c2, w.g_pCamera = some c2 ∧ c2.Zoom = 80 := by
    rw [hw]
    exact ⟨_, rfl, rfl⟩
  have hmode : w.bOrthographicProjection = false := by rw [hw]
  rw [PrepareSceneView_result M t keys v w c2 hwdef hc2]
  cases hs : w.m_pShaderManager
  · refine ⟨_, c2, rfl, hc2, hmode, hz, ?_⟩
    intro h
    rw [hs] at h
    exact absurd h (by decide)
  · refine ⟨_, c2, rfl, hc2, hmode, hz, ?_⟩
    intro _
    exact ⟨w.calls, by simp only [hmode]⟩

/-- C12: from every state with a camera, a frame in which O is newly pressed (P and the
keys 1-4 released) followed by a frame in which P is pressed (O and the keys 1-4 released)
ends with the orthographic flag false and `Zoom` 80; the projection `PrepareSceneView`
defines, and pushes when the shader manager is not null, is
perspective(radians(80), 1000/800, 0.1, 100), the projection defined for a newly constructed
view manager whose flag is false. -/
theorem O_then_P_restores_perspective (M : CameraMethods) (v : ViewManager) (c : Camera)
    (tA tB : ℚ) (keysA keysB : Keys) (hc : v.g_pCamera = some c)
    (hnew : v.oKeyPressed = false)
    (hA : keysA.O = true ∧ keysA.P = false ∧ keysA.K1 = false ∧ keysA.K2 = false ∧
      keysA.K3 = false ∧ keysA.K4 = false)
    (hB : keysB.P = true ∧ keysB.O = false ∧ keysB.K1 = false ∧ keysB.K2 = false ∧
      keysB.K3 = false ∧ keysB.K4 = false) :
    ∃ v1 v2 c2, PrepareSceneView M tA keysA v = some v1 ∧
      v1.bOrthographicProjection = true ∧
      PrepareSceneView M tB keysB v1 = some v2 ∧
      v2.bOrthographicProjection = false ∧ v2.g_pCamera = some c2 ∧ c2.Zoom = 80 ∧
      PrepareSceneView.projection v2.bOrthographicProjection c2 =
        Projection.perspective ⟨80⟩ (1000 / 800) 0.1 100.0 ∧
      (v2.m_pShaderManager = true → ∃ pre, v2.calls = pre ++
        [ViewCall.setView c2,
         ViewCall.setProjection (Projection.perspective ⟨80⟩ (1000 / 800) 0.1 100.0),
         ViewCall.setViewPosition c2.Position]) ∧
      (∀ pShaderManager : Bool, ∃ c0,
        (ViewManager.new M pShaderManager false).g_pCamera = some c0 ∧
        PrepareSceneView.projection
          (ViewManager.new M pShaderManager false).bOrthographicProjection c0 =
          Projection.perspective ⟨80⟩ (1000 / 800) 0.1 100.0) := by
  obtain ⟨hAO, hAP, hA1, hA2, hA3, hA4⟩ := hA
  obtain ⟨hBP, hBO, hB1, hB2, hB3, hB4⟩ := hB
  obtain ⟨v1, c1, hv1, hc1, hmode1, hlatch1, _⟩ :=
    frame_with_O M tA keysA v c hc hnew hAO hAP hA1 hA2 hA3 hA4
  obtain ⟨v2, c2, hv2, hc2, hmode2, hz2, hcalls⟩ :=
    frame_with_P M tB keysB v1 c1 hc1 hlatch1 hBP hBO hB1 hB2 hB3 hB4
  have hproj : PrepareSceneView.projection false c2 =
      Projection.perspective ⟨80⟩ (1000 / 800) 0.1 100.0 := by
    simp [PrepareSceneView.projection, hz2, WINDOW_WIDTH, WINDOW_HEIGHT]
  refine ⟨v1, v2, c2, hv1, hmode1, hv2, hmode2, hc2, hz2, ?_, ?_, ?_⟩
  · rw [hmode2]
    exact hproj
  · intro h
    obtain ⟨pre, hpre⟩ := hcalls h
    exact ⟨pre, by rw [hpre, hproj]⟩
  · intro sm
    exact ⟨_, rfl, by simp [PrepareSceneView.projection, ViewManager.new, WINDOW_WIDTH,
      WINDOW_HEIGHT]⟩

theorem Hotkey_latch_block (k k' : Hotkey) (b : Bool) (v : ViewManager) :
    k'.latch (k.block b v) = if k' = k then b else k'.latch v := by
  cases k <;> cases k' <;> cases b <;>
    simp [Hotkey.latch, Hotkey.block, ProcessKeyboardEvents.keyP, ProcessKeyboardEvents.keyO,
      ProcessKeyboardEvents.key1, ProcessKeyboardEvents.key2, ProcessKeyboardEvents.key3,
      ProcessKeyboardEvents.key4] <;>
    split <;> simp_all

theorem Hotkey_camera_block (k : Hotkey) (b : Bool) (v : ViewManager) :
    (k.block b v).g_pCamera.isSome = v.g_pCamera.isSome := by
  cases k <;> cases b <;>
    simp [Hotkey.block, ProcessKeyboardEvents.keyP, ProcessKeyboardEvents.keyO,
      ProcessKeyboardEvents.key1, ProcessKeyboardEvents.key2, ProcessKeyboardEvents.key3,
      ProcessKeyboardEvents.key4] <;>
    split <;> simp_all

theorem ProcessKeyboardEvents_latch (M : CameraMethods) (keys : Keys) (v : ViewManager)
    (hcam : v.g_pCamera.isSome = true) (k : Hotkey) :
    k.latch (ProcessKeyboardEvents M keys v) = k.pressed keys ∧
      (ProcessKeyboardEvents M keys v).g_pCamera.isSome = true := by
  obtain ⟨c, hc⟩ := Option.isSome_iff_exists.mp hcam
  rw [ProcessKeyboardEvents_blocks M keys v c hc]
  have h4 := Hotkey_latch_block Hotkey.K4
  have h3 := Hotkey_latch_block Hotkey.K3
  have h2 := Hotkey_latch_block Hotkey.K2
  have h1 := Hotkey_latch_block Hotkey.K1
  have hO := Hotkey_latch_block Hotkey.O
  have hP := Hotkey_latch_block Hotkey.P
  have c4 := Hotkey_camera_block Hotkey.K4
  have c3 := Hotkey_camera_block Hotkey.K3
  have c2 := Hotkey_camera_block Hotkey.K2
  have c1 := Hotkey_camera_block Hotkey.K1
  have cO := Hotkey_camera_block Hotkey.O
  have cP := Hotkey_camera_block Hotkey.P
  simp only [Hotkey.block] at h4 h3 h2 h1 hO hP c4 c3 c2 c1 cO cP
  constructor
  · rw [h4, h3, h2, h1, hO, hP]
    cases k <;> simp [Hotkey.pressed]
  · rw [c4, c3, c2, c1, cO, cP]
    rfl

theorem keyboardCalls_camera (M : CameraMethods) :
    ∀ (calls : List Keys) (v : ViewManager), v.g_pCamera.isSome = true →
      (keyboardCalls M calls v).g_pCamera.isSome = true
  | [], _, h => h
  | keys :: rest, v, h =>
    keyboardCalls_camera M rest (ProcessKeyboardEvents M keys v)
      (ProcessKeyboardEvents_latch M keys v h Hotkey.P).2

theorem keyboardCalls_append (M : CameraMethods) (a b : List Keys) (v : ViewManager) :
    keyboardCalls M (a ++ b) v = keyboardCalls M b (keyboardCalls M a v) := by
  simp [keyboardCalls, List.foldl_append]

theorem move_no_key (M : CameraMethods) (keys : Keys) (dt : ℚ) (c : Camera)
    (hW : keys.W = false) (hS : keys.S = false) (hA : keys.A = false) (hD : keys.D = false)
    (hQ : keys.Q = false) (hE : keys.E = false) :
    ProcessKeyboardEvents.move M keys dt c = c := by
  simp [ProcessKeyboardEvents.move, hW, hS, hA, hD, hQ, hE]

theorem press_alone (M : CameraMethods) (k : Hotkey) (v : ViewManager) (c : Camera)
    (hc : v.g_pCamera = some c) (hnew : k.latch v = false) :
    (ProcessKeyboardEvents M k.alone v).g_pCamera = (k.block true v).g_pCamera ∧
    (ProcessKeyboardEvents M k.alone v).bOrthographicProjection =
      (k.block true v).bOrthographicProjection := by
  rw [ProcessKeyboardEvents_blocks M k.alone v c hc,
    move_no_key M k.alone v.gDeltaTime c (by cases k <;> rfl) (by cases k <;> rfl)
      (by cases k <;> rfl) (by cases k <;> rfl) (by cases k <;> rfl) (by cases k <;> rfl)]
  cases k <;>
    simp only [Hotkey.latch] at hnew <;>
    simp only [Hotkey.alone, Keys.none, Hotkey.block, keyP_idle, keyO_idle, key1_idle,
      key2_idle, key3_idle, key4_idle, keyP_fired, keyO_fired, key1_fired, key2_fired,
      key3_fired, key4_fired, Bool.false_and, hnew, hc, Option.map_some'] <;>
    simp

theorem held_alone (M : CameraMethods) (k : Hotkey) (v : ViewManager) (c : Camera)
    (hc : v.g_pCamera = some c) (hheld : k.latch v = true) :
    (ProcessKeyboardEvents M k.alone v).g_pCamera = some c ∧
    (ProcessKeyboardEvents M k.alone v).bOrthographicProjection =
      v.bOrthographicProjection := by
  rw [ProcessKeyboardEvents_blocks M k.alone v c hc,
    move_no_key M k.alone v.gDeltaTime c (by cases k <;> rfl) (by cases k <;> rfl)
      (by cases k <;> rfl) (by cases k <;> rfl) (by cases k <;> rfl) (by cases k <;> rfl)]
  cases k <;>
    simp only [Hotkey.latch] at hheld <;>
    simp only [Hotkey.alone, Keys.none, keyP_idle, keyO_idle, key1_idle,
      key2_idle, key3_idle, key4_idle, Bool.false_and, Bool.true_and, Bool.not_true, hheld]
      <;>
    simp

theorem Hotkey_pressed_alone (k : Hotkey) : k.pressed k.alone = true := by
  cases k <;> rfl

theorem Hotkey_block_idle (k : Hotkey) (b : Bool) (v : ViewManager)
    (h : (b && !k.latch v) = false) :
    (k.block b v).g_pCamera = v.g_pCamera ∧
      (k.block b v).bOrthographicProjection = v.bOrthographicProjection := by
  cases k <;> simp only [Hotkey.latch] at h <;>
    simp only [Hotkey.block, keyP_idle, keyO_idle, key1_idle, key2_idle, key3_idle,
      key4_idle, h] <;>
    simp

theorem Hotkey_block_fired (k : Hotkey) (v : ViewManager) (c : Camera)
    (hc : v.g_pCamera = some c) (h : k.latch v = false) :
    (k.block true v).bOrthographicProjection = k.mode ∧
      ∃ c', (k.block true v).g_pCamera = some c' ∧ c'.Front = k.front ∧
        c'.MovementSpeed = c.MovementSpeed := by
  cases k <;> simp only [Hotkey.latch] at h <;>
    simp only [Hotkey.block, keyP_fired, keyO_fired, key1_fired, key2_fired, key3_fired,
      key4_fired, h, hc, Option.map_some'] <;>
    exact ⟨rfl, _, rfl, rfl, rfl⟩

theorem held_calls (M : CameraMethods) (k : Hotkey) :
    ∀ (n : Nat) (v : ViewManager) (c : Camera), v.g_pCamera = some c → k.latch v = true →
      (keyboardCalls M (List.replicate n k.alone) v).g_pCamera = some c ∧
      (keyboardCalls M (List.replicate n k.alone) v).bOrthographicProjection =
        v.bOrthographicProjection
  | 0, _, _, hc, _ => ⟨hc, rfl⟩
  | n + 1, v, c, hc, hheld => by
    obtain ⟨h1, h2⟩ := held_alone M k v c hc hheld
    have hl : k.latch (ProcessKeyboardEvents M k.alone v) = true := by
      rw [(ProcessKeyboardEvents_latch M k.alone v (by rw [hc]; rfl) k).1]
      exact Hotkey_pressed_alone k
    obtain ⟨h3, h4⟩ := held_calls M k n (ProcessKeyboardEvents M k.alone v) c h1 hl
    simp only [List.replicate_succ, keyboardCalls, List.foldl_cons] at h3 h4 ⊢
    exact ⟨h3, h4.trans h2⟩

/-- Witness of C12: the constructed view manager, a frame with O pressed, then a frame with
P pressed. -/
theorem O_then_P_restores_perspective_witness :
    ∃ v1 v2 c2,
      PrepareSceneView exampleCamera 1 Hotkey.O.alone
        (ViewManager.new exampleCamera true false) = some v1 ∧
      v1.bOrthographicProjection = true ∧
      PrepareSceneView exampleCamera 2 Hotkey.P.alone v1 = some v2 ∧
      v2.bOrthographicProjection = false ∧ v2.g_pCamera = some c2 ∧ c2.Zoom = 80 ∧
      PrepareSceneView.projection v2.bOrthographicProjection c2 =
        Projection.perspective ⟨80⟩ (1000 / 800) 0.1 100.0 ∧
      (v2.m_pShaderManager = true → ∃ pre, v2.calls = pre ++
        [ViewCall.setView c2,
         ViewCall.setProjection (Projection.perspective ⟨80⟩ (1000 / 800) 0.1 100.0),
         ViewCall.setViewPosition c2.Position]) ∧
      (∀ pShaderManager : Bool, ∃ c0,
        (ViewManager.new exampleCamera pShaderManager false).g_pCamera = some c0 ∧
        PrepareSceneView.projection
          (ViewManager.new exampleCamera pShaderManager false).bOrthographicProjection c0 =
          Projection.perspective ⟨80⟩ (1000 / 800) 0.1 100.0) :=
  O_then_P_restores_perspective exampleCamera (ViewManager.new exampleCamera true false) _
    1 2 Hotkey.O.alone Hotkey.P.alone rfl rfl ⟨rfl, rfl, rfl, rfl, rfl, rfl⟩
    ⟨rfl, rfl, rfl, rfl, rfl, rfl⟩

theorem keyP_edge (b l : Bool) (v : ViewManager) (h : v.pKeyPressed = l) :
    ProcessKeyboardEvents.keyP b v =
      { (if b && !l then Hotkey.P.transition v else v) with pKeyPressed := b } := by
  subst h
  cases b
  · rw [keyP_idle false v rfl]
    rfl
  · cases hl : v.pKeyPressed
    · rw [keyP_fired v hl]
      rfl
    · rw [keyP_idle true v (by rw [hl]; rfl)]
      rfl

theorem keyO_edge (b l : Bool) (v : ViewManager) (h : v.oKeyPressed = l) :
    ProcessKeyboardEvents.keyO b v =
      { (if b && !l then Hotkey.O.transition v else v) with oKeyPressed := b } := by
  subst h
  cases b
  · rw [keyO_idle false v rfl]
    rfl
  · cases hl : v.oKeyPressed
    · rw [keyO_fired v hl]
      rfl
    · rw [keyO_idle true v (by rw [hl]; rfl)]
      rfl

theorem key1_edge (b l : Bool) (v : ViewManager) (h : v.key1Pressed = l) :
    ProcessKeyboardEvents.key1 b v =
      { (if b && !l then Hotkey.K1.transition v else v) with key1Pressed := b } := by
  subst h
  cases b
  · rw [key1_idle false v rfl]
    rfl
  · cases hl : v.key1Pressed
    · rw [key1_fired v hl]
      rfl
    · rw [key1_idle true v (by rw [hl]; rfl)]
      rfl

theorem key2_edge (b l : Bool) (v : ViewManager) (h : v.key2Pressed = l) :
    ProcessKeyboardEvents.key2 b v =
      { (if b && !l then Hotkey.K2.transition v else v) with key2Pressed := b } := by
  subst h
  cases b
  · rw [key2_idle false v rfl]
    rfl
  · cases hl : v.key2Pressed
    · rw [key2_fired v hl]
      rfl
    · rw [key2_idle true v (by rw [hl]; rfl)]
      rfl

theorem key3_edge (b l : Bool) (v : ViewManager) (h : v.key3Pressed = l) :
    ProcessKeyboardEvents.key3 b v =
      { (if b && !l then Hotkey.K3.transition v else v) with key3Pressed := b } := by
  subst h
  cases b
  · rw [key3_idle false v rfl]
    rfl
  · cases hl : v.key3Pressed
    · rw [key3_fired v hl]
      rfl
    · rw [key3_idle true v (by rw [hl]; rfl)]
      rfl

theorem key4_edge (b l : Bool) (v : ViewManager) (h : v.key4Pressed = l) :
    ProcessKeyboardEvents.key4 b v =
      { (if b && !l then Hotkey.K4.transition v else v) with key4Pressed := b } := by
  subst h
  cases b
  · rw [key4_idle false v rfl]
    rfl
  · cases hl : v.key4Pressed
    · rw [key4_fired v hl]
      rfl
    · rw [key4_idle true v (by rw [hl]; rfl)]
      rfl

theorem Hotkey_block_edge (k : Hotkey) (b l : Bool) (v : ViewManager) (h : k.latch v = l) :
    k.block b v = k.setLatch b (k.onEdge (b && !l) v) := by
  cases k
  · exact keyP_edge b l v h
  · exact keyO_edge b l v h
  · exact key1_edge b l v h
  · exact key2_edge b l v h
  · exact key3_edge b l v h
  · exact key4_edge b l v h

theorem Hotkey_latch_setLatch (k j : Hotkey) (b : Bool) (v : ViewManager) :
    k.latch (j.setLatch b v) = if k = j then b else k.latch v := by
  cases k <;> cases j <;> rfl

theorem Hotkey_latch_onEdge (k j : Hotkey) (f : Bool) (v : ViewManager) :
    k.latch (j.onEdge f v) = k.latch v := by
  cases f <;> cases k <;> cases j <;> rfl

theorem Hotkey_onEdge_setLatch (k j : Hotkey) (f b : Bool) (v : ViewManager) :
    k.onEdge f (j.setLatch b v) = j.setLatch b (k.onEdge f v) := by
  cases f <;> cases k <;> cases j <;> rfl

theorem ProcessKeyboardEvents_hotkeys (M : CameraMethods) (keys : Keys) (v : ViewManager)
    (c : Camera) (hc : v.g_pCamera = some c) :
    ProcessKeyboardEvents M keys v =
      Hotkey.K4.block keys.K4 (Hotkey.K3.block keys.K3 (Hotkey.K2.block keys.K2
        (Hotkey.K1.block keys.K1 (Hotkey.O.block keys.O (Hotkey.P.block keys.P
          { v with
              g_pCamera := some (ProcessKeyboardEvents.move M keys v.gDeltaTime c)
              calls := if keys.ESCAPE then v.calls ++ [ViewCall.glfwSetWindowShouldClose]
                else v.calls }))))) :=
  ProcessKeyboardEvents_blocks M keys v c hc

theorem setLatches_eq (x : ViewManager) (a b c1 c2 c3 c4 : Bool) :
    ({ x with
        pKeyPressed := a
        oKeyPressed := b
        key1Pressed := c1
        key2Pressed := c2
        key3Pressed := c3
        key4Pressed := c4 } : ViewManager) =
    Hotkey.K4.setLatch c4 (Hotkey.K3.setLatch c3 (Hotkey.K2.setLatch c2
      (Hotkey.K1.setLatch c1 (Hotkey.O.setLatch b (Hotkey.P.setLatch a x))))) := rfl

theorem foldl_onEdge (executes : Hotkey → Bool) (w : ViewManager) :
    [Hotkey.P, Hotkey.O, Hotkey.K1, Hotkey.K2, Hotkey.K3, Hotkey.K4].foldl
      (fun v k => if executes k then k.transition v else v) w =
    Hotkey.K4.onEdge (executes Hotkey.K4) (Hotkey.K3.onEdge (executes Hotkey.K3)
      (Hotkey.K2.onEdge (executes Hotkey.K2) (Hotkey.K1.onEdge (executes Hotkey.K1)
        (Hotkey.O.onEdge (executes Hotkey.O) (Hotkey.P.onEdge (executes Hotkey.P) w))))) := rfl

theorem transitionsCall_eq (M : CameraMethods) (executes : Hotkey → Bool) (now : Keys)
    (v : ViewManager) (c : Camera) (hc : v.g_pCamera = some c) :
    transitionsCall M executes now v =
      Hotkey.K4.setLatch now.K4 (Hotkey.K3.setLatch now.K3 (Hotkey.K2.setLatch now.K2
        (Hotkey.K1.setLatch now.K1 (Hotkey.O.setLatch now.O (Hotkey.P.setLatch now.P
          (Hotkey.K4.onEdge (executes Hotkey.K4) (Hotkey.K3.onEdge (executes Hotkey.K3)
            (Hotkey.K2.onEdge (executes Hotkey.K2) (Hotkey.K1.onEdge (executes Hotkey.K1)
              (Hotkey.O.onEdge (executes Hotkey.O) (Hotkey.P.onEdge (executes Hotkey.P)
                { v with
                    g_pCamera := some (ProcessKeyboardEvents.move M now v.gDeltaTime c)
                    calls := if now.ESCAPE then
                        v.calls ++ [ViewCall.glfwSetWindowShouldClose]
                      else v.calls }))))))))))) := by
  unfold transitionsCall
  cases hE : now.ESCAPE
  · simp only [Bool.false_eq_true, if_false, hc, setLatches_eq, foldl_onEdge]
  · simp only [if_true, hc, setLatches_eq, foldl_onEdge]

theorem ProcessKeyboardEvents_edge (M : CameraMethods) (last now : Keys) (v : ViewManager)
    (hcam : v.g_pCamera.isSome = true) (hlatch : ∀ k : Hotkey, k.latch v = k.pressed last) :
    ProcessKeyboardEvents M now v = transitionsCall M (Hotkey.edge last now) now v := by
  obtain ⟨c, hc⟩ := Option.isSome_iff_exists.mp hcam
  rw [ProcessKeyboardEvents_hotkeys M now v c hc, transitionsCall_eq M _ now v c hc]
  rw [Hotkey_block_edge Hotkey.P now.P last.P _ (by exact hlatch Hotkey.P)]
  rw [Hotkey_block_edge Hotkey.O now.O last.O _ (by
    simp only [Hotkey_latch_setLatch, Hotkey_latch_onEdge, reduceCtorEq, if_false]
    exact hlatch Hotkey.O)]
  rw [Hotkey_block_edge Hotkey.K1 now.K1 last.K1 _ (by
    simp only [Hotkey_latch_setLatch, Hotkey_latch_onEdge, reduceCtorEq, if_false]
    exact hlatch Hotkey.K1)]
  rw [Hotkey_block_edge Hotkey.K2 now.K2 last.K2 _ (by
    simp only [Hotkey_latch_setLatch, Hotkey_latch_onEdge, reduceCtorEq, if_false]
    exact hlatch Hotkey.K2)]
  rw [Hotkey_block_edge Hotkey.K3 now.K3 last.K3 _ (by
    simp only [Hotkey_latch_setLatch, Hotkey_latch_onEdge, reduceCtorEq, if_false]
    exact hlatch Hotkey.K3)]
  rw [Hotkey_block_edge Hotkey.K4 now.K4 last.K4 _ (by
    simp only [Hotkey_latch_setLatch, Hotkey_latch_onEdge, reduceCtorEq, if_false]
    exact hlatch Hotkey.K4)]
  simp only [Hotkey_onEdge_setLatch]
  rfl

theorem Hotkey_camera_setLatch (k : Hotkey) (b : Bool) (v : ViewManager) :
    (k.setLatch b v).g_pCamera = v.g_pCamera := by
  cases k <;> rfl

theorem Hotkey_camera_onEdge (k : Hotkey) (f : Bool) (v : ViewManager) :
    (k.onEdge f v).g_pCamera.isSome = v.g_pCamera.isSome := by
  cases f
  · rfl
  · cases k <;> simp [Hotkey.onEdge, Hotkey.transition]

theorem transitionsCall_camera (M : CameraMethods) (executes : Hotkey → Bool) (now : Keys)
    (v : ViewManager) (hcam : v.g_pCamera.isSome = true) :
    (transitionsCall M executes now v).g_pCamera.isSome = true ∧
      ∀ k : Hotkey, k.latch (transitionsCall M executes now v) = k.pressed now := by
  obtain ⟨c, hc⟩ := Option.isSome_iff_exists.mp hcam
  rw [transitionsCall_eq M executes now v c hc]
  constructor
  · simp only [Hotkey_camera_setLatch, Hotkey_camera_onEdge]
    rfl
  · intro k
    simp only [Hotkey_latch_setLatch, Hotkey_latch_onEdge]
    cases k <;> simp [Hotkey.pressed, Hotkey.latch]

theorem keyboardCalls_edge (M : CameraMethods) :
    ∀ (calls : List Keys) (last : Keys) (v : ViewManager), v.g_pCamera.isSome = true →
      (∀ k : Hotkey, k.latch v = k.pressed last) →
      keyboardCalls M calls v = edgeTriggeredCalls M last calls v
  | [], _, _, _, _ => rfl
  | now :: rest, last, v, hcam, hlatch => by
    have hstep := ProcessKeyboardEvents_edge M last now v hcam hlatch
    have hnext := transitionsCall_camera M (Hotkey.edge last now) now v hcam
    show keyboardCalls M rest (ProcessKeyboardEvents M now v) = _
    rw [hstep]
    exact keyboardCalls_edge M rest now _ hnext.1 hnext.2

theorem Hotkey_edges_held (k : Hotkey) :
    ∀ (rest : List Keys) (last : Keys), k.pressed last = true →
      (∀ keys ∈ rest, k.pressed keys = true) →
      k.edges last rest = List.replicate rest.length false
  | [], _, _, _ => rfl
  | now :: rest, last, hlast, hall => by
    have hnow : k.pressed now = true := hall now (List.mem_cons_self _ _)
    have ih := Hotkey_edges_held k rest now hnow
      (fun keys hk => hall keys (List.mem_cons_of_mem _ hk))
    simp [Hotkey.edges, Hotkey.edge, hlast, hnow, ih, List.replicate_succ]

/-- C13: consecutive calls of `ProcessKeyboardEvents`, made with a camera present from a
state in which every static local of a hotkey equals the key state of the most recent
earlier call (all false at construction), are the calls in which the transition of each
hotkey P, O, 1, 2, 3, 4 is executed exactly when the key is pressed in the call and was
released in the most recent earlier call, or there was no earlier call; a key pressed in
every call of a sequence has an edge in the first call only, if it was released before;
when the test of a key's block fails the block leaves camera and mode alone, when it holds
the block sets the mode and `Front` of the key; a key held alone over n+1 calls leaves the
camera and mode of the first call, and holding key 1 leaves the position at the midpoint
with (0,4,10). -/
theorem hotkeys_edge_triggered (M : CameraMethods) :
    (∀ (v : ViewManager) (last now : Keys), v.g_pCamera.isSome = true →
      (∀ k : Hotkey, k.latch v = k.pressed last) →
      ProcessKeyboardEvents M now v = transitionsCall M (Hotkey.edge last now) now v ∧
      ∀ k : Hotkey, k.latch (ProcessKeyboardEvents M now v) = k.pressed now) ∧
    (∀ (v : ViewManager) (last : Keys) (calls : List Keys), v.g_pCamera.isSome = true →
      (∀ k : Hotkey, k.latch v = k.pressed last) →
      keyboardCalls M calls v = edgeTriggeredCalls M last calls v) ∧
    (∀ (pShaderManager uninitOrtho : Bool) (calls : List Keys),
      keyboardCalls M calls (ViewManager.new M pShaderManager uninitOrtho) =
        edgeTriggeredCalls M Keys.none calls (ViewManager.new M pShaderManager uninitOrtho)) ∧
    (∀ (k : Hotkey) (last first : Keys) (rest : List Keys), k.pressed first = true →
      (∀ keys ∈ rest, k.pressed keys = true) →
      k.edges last (first :: rest) = (!k.pressed last) :: List.replicate rest.length false) ∧
    (∀ (k : Hotkey) (v : ViewManager) (earlier : List Keys) (last now : Keys),
      v.g_pCamera.isSome = true →
      k.fires now (keyboardCalls M (earlier ++ [last]) v) =
        (k.pressed now && !k.pressed last)) ∧
    (∀ (k : Hotkey) (pShaderManager uninitOrtho : Bool) (now : Keys),
      k.fires now (ViewManager.new M pShaderManager uninitOrtho) = k.pressed now) ∧
    (∀ (k : Hotkey) (b : Bool) (v : ViewManager), (b && !k.latch v) = false →
      (k.block b v).g_pCamera = v.g_pCamera ∧
      (k.block b v).bOrthographicProjection = v.bOrthographicProjection) ∧
    (∀ (k : Hotkey) (v : ViewManager) (c : Camera), v.g_pCamera = some c →
      k.latch v = false →
      (k.block true v).bOrthographicProjection = k.mode ∧
      ∃ c', (k.block true v).g_pCamera = some c' ∧ c'.Front = k.front) ∧
    (∀ (k : Hotkey) (v : ViewManager) (c : Camera) (n : Nat), v.g_pCamera = some c →
      k.latch v = false →
      (keyboardCalls M (List.replicate (n + 1) k.alone) v).g_pCamera =
        (ProcessKeyboardEvents M k.alone v).g_pCamera ∧
      (keyboardCalls M (List.replicate (n + 1) k.alone) v).bOrthographicProjection =
        (ProcessKeyboardEvents M k.alone v).bOrthographicProjection) ∧
    (∀ (v : ViewManager) (c : Camera) (n : Nat), v.g_pCamera = some c →
      v.key1Pressed = false →
      ∃ c', (keyboardCalls M (List.replicate (n + 1) Hotkey.K1.alone) v).g_pCamera =
          some c' ∧
        c'.Position = mix c.Position ⟨0.0, 4.0, 10.0⟩ 0.5) := by
  have hold : ∀ (k : Hotkey) (v : ViewManager) (c : Camera) (n : Nat),
      v.g_pCamera = some c → k.latch v = false →
      (keyboardCalls M (List.replicate (n + 1) k.alone) v).g_pCamera =
        (ProcessKeyboardEvents M k.alone v).g_pCamera ∧
      (keyboardCalls M (List.replicate (n + 1) k.alone) v).bOrthographicProjection =
        (ProcessKeyboardEvents M k.alone v).bOrthographicProjection := by
    intro k v c n hc hnew
    obtain ⟨hcam, _⟩ := press_alone M k v c hc hnew
    obtain ⟨_, c', hc', _, _⟩ := Hotkey_block_fired k v c hc hnew
    rw [hc'] at hcam
    have hl : k.latch (ProcessKeyboardEvents M k.alone v) = true := by
      rw [(ProcessKeyboardEvents_latch M k.alone v (by rw [hc]; rfl) k).1]
      exact Hotkey_pressed_alone k
    obtain ⟨h1, h2⟩ := held_calls M k n (ProcessKeyboardEvents M k.alone v) c' hcam hl
    simp only [List.replicate_succ, keyboardCalls, List.foldl_cons] at h1 h2 ⊢
    exact ⟨h1.trans hcam.symm, h2⟩
  refine ⟨?_, ?_, ?_, ?_, ?_, ?_, Hotkey_block_idle, ?_, hold, ?_⟩
  · intro v last now hcam hlatch
    exact ⟨ProcessKeyboardEvents_edge M last now v hcam hlatch,
      fun k => (ProcessKeyboardEvents_latch M now v hcam k).1⟩
  · intro v last calls hcam hlatch
    exact keyboardCalls_edge M calls last v hcam hlatch
  · intro sm ortho calls
    exact keyboardCalls_edge M calls Keys.none _ rfl (fun k => by cases k <;> rfl)
  · intro k last first rest hfirst hall
    show Hotkey.edge last first k :: k.edges first rest = _
    rw [Hotkey_edges_held k rest first hfirst hall]
    simp [Hotkey.edge, hfirst]
  · intro k v earlier last now hcam
    rw [keyboardCalls_append]
    have hcam' := keyboardCalls_camera M earlier v hcam
    have hl := (ProcessKeyboardEvents_latch M last _ hcam' k).1
    have hone : keyboardCalls M [last] (keyboardCalls M earlier v) =
        ProcessKeyboardEvents M last (keyboardCalls M earlier v) := rfl
    rw [hone, Hotkey.fires, hl]
  · intro k sm ortho now
    cases k <;> simp [Hotkey.fires, Hotkey.latch, ViewManager.new]
  · intro k v c hc hnew
    obtain ⟨h1, c', h2, h3, _⟩ := Hotkey_block_fired k v c hc hnew
    exact ⟨h1, c', h2, h3⟩
  · intro v c n hc hnew
    obtain ⟨h1, _⟩ := hold Hotkey.K1 v c n hc hnew
    obtain ⟨h2, _⟩ := press_alone M Hotkey.K1 v c hc hnew
    rw [h1, h2]
    simp only [Hotkey.block, key1_fired _ hnew, hc, Option.map_some']
    exact ⟨_, rfl, rfl⟩

/-- Witness of C13: on the constructed view manager P is held over three calls and key 1
over the last two. The calls are the edge-triggered ones; P has an edge in the first call
only and key 1 in the second only; so the camera ends half way between the position (0,5,8)
of P and the target (0,4,10) of key 1, in orthographic mode: the transition of P is not
executed again after that of key 1. -/
theorem hotkeys_edge_triggered_witness :
    keyboardCalls exampleCamera exampleHold (ViewManager.new exampleCamera true false) =
      edgeTriggeredCalls exampleCamera Keys.none exampleHold
        (ViewManager.new exampleCamera true false) ∧
    Hotkey.P.edges Keys.none exampleHold = [true, false, false] ∧
    Hotkey.K1.edges Keys.none exampleHold = [false, true, false] ∧
    (keyboardCalls exampleCamera exampleHold
      (ViewManager.new exampleCamera true false)).bOrthographicProjection = true ∧
    ∃ c', (keyboardCalls exampleCamera exampleHold
        (ViewManager.new exampleCamera true false)).g_pCamera = some c' ∧
      c'.Position = mix ⟨0.0, 5.0, 8.0⟩ ⟨0.0, 4.0, 10.0⟩ 0.5 :=
  have h := (hotkeys_edge_triggered exampleCamera).2.2.1 true false exampleHold
  ⟨h, rfl, rfl, by rw [h]; rfl, by rw [h]; exact ⟨_, rfl, rfl⟩⟩

theorem mix_half (p t : Vec3) :
    mix p t 0.5 = ⟨(p.x + t.x) / 2, (p.y + t.y) / 2, (p.z + t.z) / 2⟩ := by
  show Vec3.add (Vec3.smul (1 - 0.5) p) (Vec3.smul 0.5 t) = _
  simp only [Vec3.add, Vec3.smul, Vec3.mk.injEq]
  refine ⟨?_, ?_, ?_⟩ <;> ring

/-- C14: on a new press of key 1, 2 or 3 alone, from every state with a camera, the new
`Position` is the componentwise midpoint of the previous `Position` and the target of the
key ((0,4,10), (10,4,0), (0,10,0)), `Front` and `Up` are the fixed vectors of the key, the
orthographic flag is set, and `Zoom` and `MovementSpeed` are as before. -/
theorem preset_blend (M : CameraMethods) (v : ViewManager) (c : Camera)
    (hc : v.g_pCamera = some c) :
    (v.key1Pressed = false →
      (ProcessKeyboardEvents M Hotkey.K1.alone v).bOrthographicProjection = true ∧
      (ProcessKeyboardEvents M Hotkey.K1.alone v).g_pCamera = some
        { c with
            Position := ⟨(c.Position.x + 0) / 2, (c.Position.y + 4) / 2,
              (c.Position.z + 10) / 2⟩
            Front := ⟨0, 0, -1⟩
            Up := ⟨0, 1, 0⟩ }) ∧
    (v.key2Pressed = false →
      (ProcessKeyboardEvents M Hotkey.K2.alone v).bOrthographicProjection = true ∧
      (ProcessKeyboardEvents M Hotkey.K2.alone v).g_pCamera = some
        { c with
            Position := ⟨(c.Position.x + 10) / 2, (c.Position.y + 4) / 2,
              (c.Position.z + 0) / 2⟩
            Front := ⟨-1, 0, 0⟩
            Up := ⟨0, 1, 0⟩ }) ∧
    (v.key3Pressed = false →
      (ProcessKeyboardEvents M Hotkey.K3.alone v).bOrthographicProjection = true ∧
      (ProcessKeyboardEvents M Hotkey.K3.alone v).g_pCamera = some
        { c with
            Position := ⟨(c.Position.x + 0) / 2, (c.Position.y + 10) / 2,
              (c.Position.z + 0) / 2⟩
            Front := ⟨0, -1, 0⟩
            Up := ⟨0, 0, -1⟩ }) := by
  refine ⟨?_, ?_, ?_⟩
  · intro hnew
    obtain ⟨h1, h2⟩ := press_alone M Hotkey.K1 v c hc hnew
    rw [h1, h2]
    simp only [Hotkey.block, key1_fired _ hnew, hc, Option.map_some', mix_half]
    norm_num
  · intro hnew
    obtain ⟨h1, h2⟩ := press_alone M Hotkey.K2 v c hc hnew
    rw [h1, h2]
    simp only [Hotkey.block, key2_fired _ hnew, hc, Option.map_some', mix_half]
    norm_num
  · intro hnew
    obtain ⟨h1, h2⟩ := press_alone M Hotkey.K3 v c hc hnew
    rw [h1, h2]
    simp only [Hotkey.block, key3_fired _ hnew, hc, Option.map_some', mix_half]
    norm_num

/-- Witness of C14: key 1, key 2 and key 3 on the constructed view manager, whose camera is
at (0.5, 5.5, 10). -/
theorem preset_blend_witness :
    ((ProcessKeyboardEvents exampleCamera Hotkey.K1.alone
        (ViewManager.new exampleCamera true false)).bOrthographicProjection = true ∧
      (ProcessKeyboardEvents exampleCamera Hotkey.K1.alone
        (ViewManager.new exampleCamera true false)).g_pCamera = some
        { Position := ⟨((0.5 : ℚ) + 0) / 2, ((5.5 : ℚ) + 4) / 2, ((10.0 : ℚ) + 10) / 2⟩
          Front := ⟨0, 0, -1⟩
          Up := ⟨0, 1, 0⟩
          Zoom := 80
          MovementSpeed := 10
          Yaw := -90
          Pitch := 0 }) ∧
    ((ProcessKeyboardEvents exampleCamera Hotkey.K2.alone
        (ViewManager.new exampleCamera true false)).bOrthographicProjection = true ∧
      (ProcessKeyboardEvents exampleCamera Hotkey.K2.alone
        (ViewManager.new exampleCamera true false)).g_pCamera = some
        { Position := ⟨((0.5 : ℚ) + 10) / 2, ((5.5 : ℚ) + 4) / 2, ((10.0 : ℚ) + 0) / 2⟩
          Front := ⟨-1, 0, 0⟩
          Up := ⟨0, 1, 0⟩
          Zoom := 80
          MovementSpeed := 10
          Yaw := -90
          Pitch := 0 }) ∧
    ((ProcessKeyboardEvents exampleCamera Hotkey.K3.alone
        (ViewManager.new exampleCamera true false)).bOrthographicProjection = true ∧
      (ProcessKeyboardEvents exampleCamera Hotkey.K3.alone
        (ViewManager.new exampleCamera true false)).g_pCamera = some
        { Position := ⟨((0.5 : ℚ) + 0) / 2, ((5.5 : ℚ) + 10) / 2, ((10.0 : ℚ) + 0) / 2⟩
          Front := ⟨0, -1, 0⟩
          Up := ⟨0, 0, -1⟩
          Zoom := 80
          MovementSpeed := 10
          Yaw := -90
          Pitch := 0 }) :=
  ⟨(preset_blend exampleCamera (ViewManager.new exampleCamera true false) _ rfl).1 rfl,
    (preset_blend exampleCamera (ViewManager.new exampleCamera true false) _ rfl).2.1 rfl,
    (preset_blend exampleCamera (ViewManager.new exampleCamera true false) _ rfl).2.2 rfl⟩

/-- C20 (what the code does): on the constructed view manager, whose camera is at
(0.5, 5.5, 10), a new press of P alone puts the position at (0, 5, 8) while a new press of
key 4 alone puts it at (0.25, 5.25, 9), half way; mode, `Front`, `Up` and `Zoom` are the
same after both. -/
theorem key4_position_differs_from_P :
    (ProcessKeyboardEvents exampleCamera Hotkey.P.alone
        (ViewManager.new exampleCamera true false)).g_pCamera = some
      { Position := ⟨0, 5, 8⟩
        Front := ⟨0, -0.3, -1⟩
        Up := ⟨0, 1, 0⟩
        Zoom := 80
        MovementSpeed := 10
        Yaw := -90
        Pitch := 0 } ∧
    (ProcessKeyboardEvents exampleCamera Hotkey.K4.alone
        (ViewManager.new exampleCamera true false)).g_pCamera = some
      { Position := ⟨0.25, 5.25, 9⟩
        Front := ⟨0, -0.3, -1⟩
        Up := ⟨0, 1, 0⟩
        Zoom := 80
        MovementSpeed := 10
        Yaw := -90
        Pitch := 0 } ∧
    (ProcessKeyboardEvents exampleCamera Hotkey.P.alone
        (ViewManager.new exampleCamera true false)).bOrthographicProjection = false ∧
    (ProcessKeyboardEvents exampleCamera Hotkey.K4.alone
        (ViewManager.new exampleCamera true false)).bOrthographicProjection = false ∧
    (⟨0.25, 5.25, 9⟩ : Vec3) ≠ ⟨0, 5, 8⟩ := by
  have hP := press_alone exampleCamera Hotkey.P (ViewManager.new exampleCamera true false) _
    rfl rfl
  have h4 := press_alone exampleCamera Hotkey.K4 (ViewManager.new exampleCamera true false) _
    rfl rfl
  refine ⟨?_, ?_, ?_, ?_, ?_⟩
  · rw [hP.1]
    show (ProcessKeyboardEvents.keyP true _).g_pCamera = _
    rw [keyP_fired _ rfl]
    simp only [ViewManager.new, exampleCamera, Option.map_some']
    norm_num
  · rw [h4.1]
    show (ProcessKeyboardEvents.key4 true _).g_pCamera = _
    rw [key4_fired _ rfl]
    simp only [ViewManager.new, exampleCamera, Option.map_some', mix_half]
    norm_num
  · rw [hP.2]
    rfl
  · rw [h4.2]
    rfl
  · intro h
    have hx := congrArg Vec3.x h
    norm_num at hx

theorem frame_no_hotkey (M : CameraMethods) (t : ℚ) (keys : Keys) (v : ViewManager)
    (c : Camera) (hc : v.g_pCamera = some c)
    (hP : keys.P = false) (hO : keys.O = false) (h1 : keys.K1 = false)
    (h2 : keys.K2 = false) (h3 : keys.K3 = false) (h4 : keys.K4 = false) :
    ∃ v', PrepareSceneView M t keys v = some v' ∧
      v'.bOrthographicProjection = v.bOrthographicProjection ∧
      v'.g_pCamera = some (ProcessKeyboardEvents.move M keys (t - v.gLastFrame) c) ∧
      (v.m_pShaderManager = true → ∃ pre, v'.calls = pre ++
        [ViewCall.setView (ProcessKeyboardEvents.move M keys (t - v.gLastFrame) c),
         ViewCall.setProjection (PrepareSceneView.projection v.bOrthographicProjection
           (ProcessKeyboardEvents.move M keys (t - v.gLastFrame) c)),
         ViewCall.setViewPosition
           (ProcessKeyboardEvents.move M keys (t - v.gLastFrame) c).Position]) := by
  have hcA : ({ v with gDeltaTime := t - v.gLastFrame, gLastFrame := t } :
      ViewManager).g_pCamera = some c := hc
  have hw := ProcessKeyboardEvents_blocks M keys _ c hcA
  generalize hwdef : ProcessKeyboardEvents M keys
    { v with gDeltaTime := t - v.gLastFrame, gLastFrame := t } = w at hw
  simp only [hO, hP, h1, h2, h3, h4, keyP_idle, keyO_idle, key1_idle, key2_idle, key3_idle,
    key4_idle, Bool.false_and] at hw
  have hc' : w.g_pCamera = some (ProcessKeyboardEvents.move M keys (t - v.gLastFrame) c) := by
    rw [hw]
  have hmode : w.bOrthographicProjection = v.bOrthographicProjection := by rw [hw]
  have hsm : w.m_pShaderManager = v.m_pShaderManager := by rw [hw]
  rw [PrepareSceneView_result M t keys v w _ hwdef hc']
  cases hs : w.m_pShaderManager
  · refine ⟨_, rfl, hmode, hc', ?_⟩
    intro h
    rw [← hsm, hs] at h
    exact absurd h (by decide)
  · refine ⟨_, rfl, hmode, hc', ?_⟩
    intro _
    exact ⟨w.calls, by simp only [hmode]⟩

/-- C15 (what the code does): the constructor leaves the member `bOrthographicProjection`
as it finds it; when the member holds true, the first frame, with no key pressed, pushes
the orthographic projection, although the namespace variable of the same name is false. -/
theorem orthographic_flag_not_initialised :
    (ViewManager.new exampleCamera true true).bOrthographicProjection = true ∧
    (ViewManager.new exampleCamera true true).g_bOrthographicProjection = false ∧
    ∃ v' pre, PrepareSceneView exampleCamera 1 Keys.none
        (ViewManager.new exampleCamera true true) = some v' ∧
      v'.calls = pre ++
        [ViewCall.setView
           ⟨⟨0.5, 5.5, 10.0⟩, ⟨0.0, -0.5, -2.0⟩, ⟨0.0, 1.0, 0.0⟩, 80, 10, -90, 0⟩,
         ViewCall.setProjection (Projection.ortho (-10.0) 10.0 (-10.0) 10.0 0.1 100.0),
         ViewCall.setViewPosition ⟨0.5, 5.5, 10.0⟩] := by
  refine ⟨rfl, rfl, ?_⟩
  obtain ⟨v', hv', _, _, hcalls⟩ := frame_no_hotkey exampleCamera 1 Keys.none
    (ViewManager.new exampleCamera true true) _ rfl rfl rfl rfl rfl rfl rfl
  obtain ⟨pre, hpre⟩ := hcalls rfl
  refine ⟨v', pre, hv', ?_⟩
  rw [hpre]
  rfl

theorem sensitivity_value :
    Mouse_Position_Callback.sensitivity = FP.num (13421773 / 134217728) := by
  have hk : max (-4 : Int) binary32.emin - ((binary32.precision : Int) - 1) = -27 := by decide
  have h := FloatFormat_round_eq binary32 (1 / 10) (-4) 13421773 (by norm_num [abs_of_pos])
    (by norm_num [abs_of_pos]) (by rw [hk]; norm_num) (by rw [hk]; norm_num)
    (by rw [hk]; norm_num [binary32, abs_of_pos])
  rw [hk] at h
  have h1 : (0.1 : ℚ) = 1 / 10 := by norm_num
  unfold Mouse_Position_Callback.sensitivity
  rw [h1, h]
  congr 1
  norm_num

theorem offset_num (a b : ℚ) :
    Mouse_Position_Callback.offset (FP.num a) (FP.num b) =
      FP.cast binary32
        (FP.mul binary64 (binary64.round (a + -b)) (FP.num (13421773 / 134217728))) := by
  unfold Mouse_Position_Callback.offset
  rw [sensitivity_value, FP_sub_num]

theorem offset_self (q : ℚ) :
    Mouse_Position_Callback.offset (FP.num q) (FP.num q) = FP.num 0 := by
  rw [offset_num]
  have h0 : q + -q = 0 := by ring
  rw [h0, FloatFormat_round_zero binary64, FP_mul_num, zero_mul, FloatFormat_round_zero binary64]
  exact FloatFormat_round_zero binary32

theorem Mouse_Position_Callback_first (M : CameraMethods) (x y : FP) (v : ViewManager)
    (c : Camera) (hc : v.g_pCamera = some c) (hf : v.gFirstMouse = true) :
    Mouse_Position_Callback M x y v = some
      { v with
          gLastX := FP.cast binary32 x
          gLastY := FP.cast binary32 y
          gFirstMouse := false
          g_pCamera := some (M.ProcessMouseMovement
            (Mouse_Position_Callback.offset x (FP.cast binary32 x))
            (Mouse_Position_Callback.offset (FP.cast binary32 y) y) c) } := by
  simp [Mouse_Position_Callback, hf, hc]

theorem Mouse_Position_Callback_later (M : CameraMethods) (x y : FP) (v : ViewManager)
    (c : Camera) (hc : v.g_pCamera = some c) (hf : v.gFirstMouse = false) :
    Mouse_Position_Callback M x y v = some
      { v with
          gLastX := FP.cast binary32 x
          gLastY := FP.cast binary32 y
          g_pCamera := some (M.ProcessMouseMovement
            (Mouse_Position_Callback.offset x v.gLastX)
            (Mouse_Position_Callback.offset v.gLastY y) c) } := by
  simp only [Mouse_Position_Callback, hf, hc]
  cases v
  simp_all

theorem round32_exampleMouseX :
    binary32.round exampleMouseX = FP.num (6573261 / 65536) := by
  have hk : max (6 : Int) binary32.emin - ((binary32.precision : Int) - 1) = -17 := by decide
  have h := FloatFormat_round_eq binary32 exampleMouseX 6 13146522
    (by norm_num [exampleMouseX, abs_of_pos]) (by norm_num [exampleMouseX, abs_of_pos])
    (by rw [hk]; norm_num [exampleMouseX]) (by rw [hk]; norm_num [exampleMouseX])
    (by rw [hk]; norm_num [binary32, abs_of_pos])
  rw [hk] at h
  rw [h]
  congr 1
  norm_num

theorem round64_exampleMouseX : binary64.round exampleMouseX = FP.num exampleMouseX := by
  have hk : max (6 : Int) binary64.emin - ((binary64.precision : Int) - 1) = -46 := by decide
  have h := FloatFormat_round_eq binary64 exampleMouseX 6 7057985041019699
    (by norm_num [exampleMouseX, abs_of_pos]) (by norm_num [exampleMouseX, abs_of_pos])
    (by rw [hk]; norm_num [exampleMouseX]) (by rw [hk]; norm_num [exampleMouseX])
    (by rw [hk]; norm_num [binary64, abs_of_pos])
  rw [hk] at h
  rw [h]
  congr 1
  norm_num [exampleMouseX]

theorem round32_390 : binary32.round 390 = FP.num 390 := by
  have hk : max (8 : Int) binary32.emin - ((binary32.precision : Int) - 1) = -15 := by decide
  have h := FloatFormat_round_eq binary32 390 8 12779520 (by norm_num [abs_of_pos])
    (by norm_num [abs_of_pos]) (by rw [hk]; norm_num) (by rw [hk]; norm_num)
    (by rw [hk]; norm_num [binary32, abs_of_pos])
  rw [hk] at h
  rw [h]
  congr 1
  norm_num

theorem round64_390 : binary64.round 390 = FP.num 390 := by
  have hk : max (8 : Int) binary64.emin - ((binary64.precision : Int) - 1) = -44 := by decide
  have h := FloatFormat_round_eq binary64 390 8 6860952557322240 (by norm_num [abs_of_pos])
    (by norm_num [abs_of_pos]) (by rw [hk]; norm_num) (by rw [hk]; norm_num)
    (by rw [hk]; norm_num [binary64, abs_of_pos])
  rw [hk] at h
  rw [h]
  congr 1
  norm_num

theorem round32_510 : binary32.round 510 = FP.num 510 := by
  have hk : max (8 : Int) binary32.emin - ((binary32.precision : Int) - 1) = -15 := by decide
  have h := FloatFormat_round_eq binary32 510 8 16711680 (by norm_num [abs_of_pos])
    (by norm_num [abs_of_pos]) (by rw [hk]; norm_num) (by rw [hk]; norm_num)
    (by rw [hk]; norm_num [binary32, abs_of_pos])
  rw [hk] at h
  rw [h]
  congr 1
  norm_num

theorem round32_520 : binary32.round 520 = FP.num 520 := by
  have hk : max (9 : Int) binary32.emin - ((binary32.precision : Int) - 1) = -14 := by decide
  have h := FloatFormat_round_eq binary32 520 9 8519680 (by norm_num [abs_of_pos])
    (by norm_num [abs_of_pos]) (by rw [hk]; norm_num) (by rw [hk]; norm_num)
    (by rw [hk]; norm_num [binary32, abs_of_pos])
  rw [hk] at h
  rw [h]
  congr 1
  norm_num

theorem round32_380 : binary32.round 380 = FP.num 380 := by
  have hk : max (8 : Int) binary32.emin - ((binary32.precision : Int) - 1) = -15 := by decide
  have h := FloatFormat_round_eq binary32 380 8 12451840 (by norm_num [abs_of_pos])
    (by norm_num [abs_of_pos]) (by rw [hk]; norm_num) (by rw [hk]; norm_num)
    (by rw [hk]; norm_num [binary32, abs_of_pos])
  rw [hk] at h
  rw [h]
  congr 1
  norm_num

theorem round64_10 : binary64.round 10 = FP.num 10 := by
  have hk : max (3 : Int) binary64.emin - ((binary64.precision : Int) - 1) = -49 := by decide
  have h := FloatFormat_round_eq binary64 10 3 5629499534213120 (by norm_num [abs_of_pos])
    (by norm_num [abs_of_pos]) (by rw [hk]; norm_num) (by rw [hk]; norm_num)
    (by rw [hk]; norm_num [binary64, abs_of_pos])
  rw [hk] at h
  rw [h]
  congr 1
  norm_num

theorem round64_tenth_of_10 : binary64.round (10 * (13421773 / 134217728)) = FP.num (67108865 / 2 ^ 26) := by
  have hk : max (0 : Int) binary64.emin - ((binary64.precision : Int) - 1) = -52 := by decide
  have h := FloatFormat_round_eq binary64 (10 * (13421773 / 134217728)) 0 4503599694479360 (by norm_num [abs_of_pos])
    (by norm_num [abs_of_pos]) (by rw [hk]; norm_num) (by rw [hk]; norm_num)
    (by rw [hk]; norm_num [binary64, abs_of_pos])
  rw [hk] at h
  rw [h]
  congr 1
  norm_num

theorem round32_tenth_of_10 : binary32.round (67108865 / 2 ^ 26) = FP.num 1 := by
  have hk : max (0 : Int) binary32.emin - ((binary32.precision : Int) - 1) = -23 := by decide
  have h := FloatFormat_round_eq binary32 (67108865 / 2 ^ 26) 0 8388608 (by norm_num [abs_of_pos])
    (by norm_num [abs_of_pos]) (by rw [hk]; norm_num) (by rw [hk]; norm_num)
    (by rw [hk]; norm_num [binary32, abs_of_pos])
  rw [hk] at h
  rw [h]
  congr 1
  norm_num

theorem offset_ten (a b : ℚ) (h : a + -b = 10) :
    Mouse_Position_Callback.offset (FP.num a) (FP.num b) = FP.num 1 := by
  rw [offset_num, h, round64_10, FP_mul_num, round64_tenth_of_10]
  exact round32_tenth_of_10

theorem offset_exampleMouseX :
    Mouse_Position_Callback.offset (FP.num exampleMouseX)
      (FP.cast binary32 (FP.num exampleMouseX)) = FP.num (-5368709 / 2 ^ 44) := by
  have hsub : binary64.round (exampleMouseX + -(6573261 / 65536)) =
      FP.num (-214748365 / 2 ^ 46) := by
    have hk : max (-19 : Int) binary64.emin - ((binary64.precision : Int) - 1) = -71 := by
      decide
    have hv : exampleMouseX + -(6573261 / 65536) = -214748365 / 2 ^ 46 := by
      norm_num [exampleMouseX]
    have h := FloatFormat_round_eq binary64 (-214748365 / 2 ^ 46) (-19) (-7205759410503680)
      (by norm_num [abs_of_pos]) (by norm_num [abs_of_pos])
      (by rw [hk]; norm_num) (by rw [hk]; norm_num)
      (by rw [hk]; norm_num [binary64, abs_of_pos])
    rw [hk] at h
    rw [hv, h]
    congr 1
    norm_num
  have hmul : binary64.round (-214748365 / 2 ^ 46 * (13421773 / 134217728)) =
      FP.num (-2882303807151145 / 2 ^ 73) := by
    have hk : max (-22 : Int) binary64.emin - ((binary64.precision : Int) - 1) = -74 := by
      decide
    have hv : (-214748365 / 2 ^ 46 * (13421773 / 134217728) : ℚ) =
        -2882303807151145 / 2 ^ 73 := by norm_num
    have h := FloatFormat_round_eq binary64 (-2882303807151145 / 2 ^ 73) (-22) (-5764607614302290)
      (by norm_num [abs_of_pos]) (by norm_num [abs_of_pos])
      (by rw [hk]; norm_num) (by rw [hk]; norm_num)
      (by rw [hk]; norm_num [binary64, abs_of_pos])
    rw [hk] at h
    rw [hv, h]
    congr 1
    norm_num
  have hcast : binary32.round (-2882303807151145 / 2 ^ 73) = FP.num (-5368709 / 2 ^ 44) := by
    have hk : max (-22 : Int) binary32.emin - ((binary32.precision : Int) - 1) = -45 := by
      decide
    have h := FloatFormat_round_eq binary32 (-2882303807151145 / 2 ^ 73) (-22) (-10737418)
      (by norm_num [abs_of_pos]) (by norm_num [abs_of_pos])
      (by rw [hk]; norm_num) (by rw [hk]; norm_num)
      (by rw [hk]; norm_num [binary32, abs_of_pos])
    rw [hk] at h
    rw [h]
    congr 1
    norm_num
  show Mouse_Position_Callback.offset (FP.num exampleMouseX) (binary32.round exampleMouseX) = _
  rw [round32_exampleMouseX, offset_num, hsub, FP_mul_num, hmul]
  exact hcast

/-- C19 (what the code does): the first callback on the constructed view manager, at the
position (x, 390) with x the `double` nearest to 100.3, records as last position the `float`
nearest to x, which is 100.30000305..., and passes to the camera the horizontal offset
-5368709 / 2^44, about -3.05e-07, which is not 0. -/
theorem first_mouse_sample_offset_not_zero :
    binary64.round exampleMouseX = FP.num exampleMouseX ∧
    binary64.round 390 = FP.num 390 ∧
    (ViewManager.new exampleCamera true false).gFirstMouse = true ∧
    Mouse_Position_Callback exampleCamera (FP.num exampleMouseX) (FP.num 390)
        (ViewManager.new exampleCamera true false) =
      some
        { ViewManager.new exampleCamera true false with
            gLastX := FP.num (6573261 / 65536)
            gLastY := FP.num 390
            gFirstMouse := false
            g_pCamera := some (exampleCamera.ProcessMouseMovement
              (FP.num (-5368709 / 2 ^ 44)) (FP.num 0)
              ⟨⟨0.5, 5.5, 10.0⟩, ⟨0.0, -0.5, -2.0⟩, ⟨0.0, 1.0, 0.0⟩, 80, 10, -90, 0⟩) } ∧
    (-5368709 / 2 ^ 44 : ℚ) ≠ 0 := by
  refine ⟨round64_exampleMouseX, round64_390, rfl, ?_, by norm_num⟩
  rw [Mouse_Position_Callback_first exampleCamera _ _ _ _ rfl rfl, offset_exampleMouseX]
  have hy : FP.cast binary32 (FP.num 390) = FP.num 390 := round32_390
  have hx : FP.cast binary32 (FP.num exampleMouseX) = FP.num (6573261 / 65536) :=
    round32_exampleMouseX
  rw [hy, hx, offset_self]
  rfl

/-- C19 (amended): with a camera present, a `Mouse_Position_Callback` made while
`gFirstMouse` is set, as it is after construction, records as last position the position
reported narrowed to `float`, clears `gFirstMouse`, and passes to the camera the offsets
computed from the position and its narrowed copy, which are (0, 0) when both coordinates are
numbers of the format `float`; a callback made with `gFirstMouse` cleared passes the offsets
computed from (x, gLastX) and (gLastY, y), the vertical one reversed, and records the
narrowed position. The offset computed from (a, b) is the `float` of (a - b) * 0.1f, with
the difference and the product computed in `double` and 0.1f = 13421773 / 2^27. -/
theorem mouse_look_offsets (M : CameraMethods) (x y : FP) (v : ViewManager) (c : Camera)
    (hc : v.g_pCamera = some c) :
    (v.gFirstMouse = true →
      Mouse_Position_Callback M x y v = some
        { v with
            gLastX := FP.cast binary32 x
            gLastY := FP.cast binary32 y
            gFirstMouse := false
            g_pCamera := some (M.ProcessMouseMovement
              (Mouse_Position_Callback.offset x (FP.cast binary32 x))
              (Mouse_Position_Callback.offset (FP.cast binary32 y) y) c) }) ∧
    (∀ p q : ℚ, x = FP.num p → y = FP.num q → binary32.round p = FP.num p →
      binary32.round q = FP.num q →
      FP.cast binary32 x = x ∧ FP.cast binary32 y = y ∧
      Mouse_Position_Callback.offset x (FP.cast binary32 x) = FP.num 0 ∧
      Mouse_Position_Callback.offset (FP.cast binary32 y) y = FP.num 0) ∧
    (v.gFirstMouse = false →
      Mouse_Position_Callback M x y v = some
        { v with
            gLastX := FP.cast binary32 x
            gLastY := FP.cast binary32 y
            g_pCamera := some (M.ProcessMouseMovement
              (Mouse_Position_Callback.offset x v.gLastX)
              (Mouse_Position_Callback.offset v.gLastY y) c) }) ∧
    (∀ a b : FP, Mouse_Position_Callback.offset a b =
      FP.cast binary32
        (FP.mul binary64 (FP.sub binary64 a b) (FP.num (13421773 / 134217728)))) ∧
    (∀ pShaderManager uninitOrtho : Bool,
      (ViewManager.new M pShaderManager uninitOrtho).gFirstMouse = true) := by
  refine ⟨Mouse_Position_Callback_first M x y v c hc, ?_,
    Mouse_Position_Callback_later M x y v c hc, ?_, fun _ _ => rfl⟩
  · intro p q hx hy hp hq
    subst hx
    subst hy
    have h1 : FP.cast binary32 (FP.num p) = FP.num p := hp
    have h2 : FP.cast binary32 (FP.num q) = FP.num q := hq
    rw [h1, h2]
    exact ⟨rfl, rfl, offset_self p, offset_self q⟩
  · intro a b
    unfold Mouse_Position_Callback.offset
    rw [sensitivity_value]

/-- Witness of C19: the first callback on the constructed view manager, at (510, 390), two
numbers of the format `float`, passes (0, 0); a second one at (520, 380) passes (1, 1), the
`float` nearest to 10 * 0.1f. -/
theorem mouse_look_offsets_witness :
    Mouse_Position_Callback exampleCamera (FP.num 510) (FP.num 390)
        (ViewManager.new exampleCamera true false) =
      some
        { ViewManager.new exampleCamera true false with
            gLastX := FP.num 510
            gLastY := FP.num 390
            gFirstMouse := false
            g_pCamera := some (exampleCamera.ProcessMouseMovement (FP.num 0) (FP.num 0)
              ⟨⟨0.5, 5.5, 10.0⟩, ⟨0.0, -0.5, -2.0⟩, ⟨0.0, 1.0, 0.0⟩, 80, 10, -90, 0⟩) } ∧
    Mouse_Position_Callback exampleCamera (FP.num 520) (FP.num 380)
        { ViewManager.new exampleCamera true false with
            gLastX := FP.num 510, gLastY := FP.num 390, gFirstMouse := false } =
      some
        { ViewManager.new exampleCamera true false with
            gLastX := FP.num 520
            gLastY := FP.num 380
            gFirstMouse := false
            g_pCamera := some (exampleCamera.ProcessMouseMovement (FP.num 1) (FP.num 1)
              ⟨⟨0.5, 5.5, 10.0⟩, ⟨0.0, -0.5, -2.0⟩, ⟨0.0, 1.0, 0.0⟩, 80, 10, -90, 0⟩) } := by
  have h := mouse_look_offsets exampleCamera (FP.num 510) (FP.num 390)
    (ViewManager.new exampleCamera true false) _ rfl
  have h2 := mouse_look_offsets exampleCamera (FP.num 520) (FP.num 380)
    { ViewManager.new exampleCamera true false with
        gLastX := FP.num 510, gLastY := FP.num 390, gFirstMouse := false } _ rfl
  obtain ⟨e1, e2, e3, e4⟩ := h.2.1 510 390 rfl rfl round32_510 round32_390
  have e5 : FP.cast binary32 (FP.num 520) = FP.num 520 := round32_520
  have e6 : FP.cast binary32 (FP.num 380) = FP.num 380 := round32_380
  refine ⟨?_, ?_⟩
  · rw [h.1 rfl, e3, e4, e1, e2]
    rfl
  · rw [h2.2.2.1 rfl, e5, e6]
    have e7 : Mouse_Position_Callback.offset (FP.num 520) (FP.num 510) = FP.num 1 :=
      offset_ten 520 510 (by norm_num)
    have e8 : Mouse_Position_Callback.offset (FP.num 390) (FP.num 380) = FP.num 1 :=
      offset_ten 390 380 (by norm_num)
    show some _ = some _
    congr 1
    simp only [e7, e8]
    rfl

/-! ## Theorems: lights, materials, texture binding -/

theorem pointLight_names :
    "pointLights[" ++ toString (1 : Nat) ++ "].bActive" = "pointLights[1].bActive" ∧
    "pointLights[" ++ toString (2 : Nat) ++ "].bActive" = "pointLights[2].bActive" ∧
    "pointLights[" ++ toString (3 : Nat) ++ "].bActive" = "pointLights[3].bActive" ∧
    "pointLights[" ++ toString (4 : Nat) ++ "].bActive" = "pointLights[4].bActive" := by
  decide

/-- C16: through a shader manager that is not null, `SetupSceneLights` appends a trace in
which every light activity flag is written and whose last write leaves
directionalLight.bActive true, pointLights[0].bActive and pointLights[1].bActive true,
pointLights[2..4].bActive false and spotLight.bActive true; these are the values the
uniforms hold afterwards, whatever they held before. -/
theorem SetupSceneLights_flags (s : SceneManager) (h : s.m_pShaderManager = true) :
    ∃ l, SetupSceneLights s = s.emit l ∧
      (∀ (name : String) (b : Bool),
        (name, b) ∈ [("directionalLight.bActive", true), ("pointLights[0].bActive", true),
          ("pointLights[1].bActive", true), ("pointLights[2].bActive", false),
          ("pointLights[3].bActive", false), ("pointLights[4].bActive", false),
          ("spotLight.bActive", true)] →
        uniformValue name l = some (UniformValue.bool b) ∧
        uniformValue name (SetupSceneLights s).gl = some (UniformValue.bool b)) := by
  obtain ⟨n1, n2, n3, n4⟩ := pointLight_names
  have hrange : List.range' 1 4 = [1, 2, 3, 4] := rfl
  have hrun : ∃ l, SetupSceneLights s = s.emit l ∧
      (∀ (name : String) (b : Bool),
        (name, b) ∈ [("directionalLight.bActive", true), ("pointLights[0].bActive", true),
          ("pointLights[1].bActive", true), ("pointLights[2].bActive", false),
          ("pointLights[3].bActive", false), ("pointLights[4].bActive", false),
          ("spotLight.bActive", true)] →
        uniformValue name l = some (UniformValue.bool b)) := by
    apply Exists.intro
    apply And.intro
    · simp only [SetupSceneLights, h, if_true, hrange, List.foldl_cons, List.foldl_nil,
        SceneManager_emit_emit, n1, n2, n3, n4]
      rfl
    · intro name b hmem
      simp only [List.mem_cons, Prod.mk.injEq, List.mem_singleton, List.not_mem_nil,
        or_false] at hmem
      rcases hmem with ⟨rfl, rfl⟩ | ⟨rfl, rfl⟩ | ⟨rfl, rfl⟩ | ⟨rfl, rfl⟩ | ⟨rfl, rfl⟩ |
        ⟨rfl, rfl⟩ | ⟨rfl, rfl⟩ <;> simp [uniformValue]
  obtain ⟨l, hl, hflags⟩ := hrun
  refine ⟨l, hl, fun name b hmem => ⟨hflags name b hmem, ?_⟩⟩
  rw [hl]
  show uniformValue name (s.gl ++ l) = _
  rw [uniformValue_append, hflags name b hmem]

/-- Witness of C16: the example scene manager, whose shader manager is not null. -/
theorem SetupSceneLights_flags_witness :
    ∃ l, SetupSceneLights exampleScene = exampleScene.emit l ∧
      (∀ (name : String) (b : Bool),
        (name, b) ∈ [("directionalLight.bActive", true), ("pointLights[0].bActive", true),
          ("pointLights[1].bActive", true), ("pointLights[2].bActive", false),
          ("pointLights[3].bActive", false), ("pointLights[4].bActive", false),
          ("spotLight.bActive", true)] →
        uniformValue name l = some (UniformValue.bool b) ∧
        uniformValue name (SetupSceneLights exampleScene).gl = some (UniformValue.bool b)) :=
  SetupSceneLights_flags exampleScene rfl

/-- C17 (what the code does): on a material list that is not empty and has no entry tagged
"steel", `SetShaderMaterial` pushes the three material uniforms, with the content its
uninitialised local happens to hold. -/
theorem SetShaderMaterial_pushes_on_miss :
    exampleScene.m_objectMaterials ≠ [] ∧
    (∀ m ∈ exampleScene.m_objectMaterials, m.tag ≠ "steel") ∧
    SetShaderMaterial "steel" exampleMaterial exampleScene = some (exampleScene.emit
      [GLCall.setUniform "material.diffuseColor" (UniformValue.vec3 ⟨1, 2, 3⟩),
       GLCall.setUniform "material.specularColor" (UniformValue.vec3 ⟨4, 5, 6⟩),
       GLCall.setUniform "material.shininess" (UniformValue.float 7)]) := by
  refine ⟨by decide, ?_, rfl⟩
  intro m hm
  simp [exampleScene, exampleMaterials] at hm
  rcases hm with h | h | h <;> subst h <;> decide

theorem bindCalls_emit (s : SceneManager) (l : List GLCall) (i k : Nat) :
    bindCalls (s.emit l) i k = bindCalls s i k := rfl

theorem BindGLTextures_loop_calls :
    ∀ (k i : Nat) (s : SceneManager), i + k ≤ s.m_textureIDs.length →
      BindGLTextures.loop k i s = some (s.emit (bindCalls s i k))
  | 0, i, s, _ => by simp [BindGLTextures.loop, bindCalls, SceneManager.emit]
  | k + 1, i, s, hlen => by
    have hidx : i < s.m_textureIDs.length := by omega
    have ht : s.m_textureIDs[i]? = some s.m_textureIDs[i] := List.getElem?_eq_getElem hidx
    have hd : s.m_textureIDs.getD i ⟨"/0", GLuint.ofInt (-1)⟩ = s.m_textureIDs[i] := by
      rw [List.getD_eq_getElem?_getD, ht]
      rfl
    simp only [BindGLTextures.loop, ht]
    rw [BindGLTextures_loop_calls k (i + 1) _ (by
      show i + 1 + k ≤ s.m_textureIDs.length
      omega)]
    simp only [SceneManager_emit_emit, bindCalls_emit]
    congr 2
    simp only [bindCalls, List.range'_succ, List.flatMap_cons, hd]

theorem boundTexture_bindCalls (s : SceneManager) (unit : Nat) :
    ∀ (k i active : Nat) (cur : Option Nat),
      boundTexture unit (bindCalls s i k) active cur =
        if i ≤ unit ∧ unit < i + k then some (s.m_textureIDs.getD unit ⟨"/0", GLuint.ofInt (-1)⟩).ID
        else cur
  | 0, i, active, cur => by
    have hno : ¬ (i ≤ unit ∧ unit < i + 0) := by omega
    simp only [bindCalls, List.range'_zero, List.flatMap_nil, boundTexture, hno, if_false]
  | k + 1, i, active, cur => by
    have hcons : bindCalls s i (k + 1) =
        GLCall.glActiveTexture i ::
          GLCall.glBindTexture (s.m_textureIDs.getD i ⟨"/0", GLuint.ofInt (-1)⟩).ID ::
            bindCalls s (i + 1) k := by
      simp only [bindCalls, List.range'_succ, List.flatMap_cons]
      rfl
    rw [hcons]
    simp only [boundTexture]
    rw [boundTexture_bindCalls s unit k (i + 1)]
    by_cases h1 : i = unit
    · subst h1
      have ha : ¬ (i + 1 ≤ i ∧ i < i + 1 + k) := by omega
      have hb : i ≤ i ∧ i < i + (k + 1) := by omega
      simp only [ha, hb, if_false, if_true, and_self]
    · by_cases h2 : i + 1 ≤ unit ∧ unit < i + 1 + k
      · have hb : i ≤ unit ∧ unit < i + (k + 1) := by omega
        simp only [h2, hb, if_true, and_self]
      · have hb : ¬ (i ≤ unit ∧ unit < i + (k + 1)) := by omega
        simp only [h1, h2, hb, if_false]

theorem FindTexture_same_slot (s : SceneManager) (tag : String) :
    ∀ (k index i : Nat), FindTextureSlot.loop s tag k index = some (i : Int) →
      index ≤ i ∧ i < index + k ∧
      FindTextureID.loop s tag k index =
        some (GLuint.toInt (s.m_textureIDs.getD i ⟨"/0", GLuint.ofInt (-1)⟩).ID)
  | 0, index, i, h => by
    simp only [FindTextureSlot.loop, Option.some.injEq] at h
    omega
  | k + 1, index, i, h => by
    simp only [FindTextureSlot.loop] at h
    cases ht : s.m_textureIDs[index]? with
    | none => simp [ht] at h
    | some t =>
      simp only [ht] at h
      by_cases htag : t.tag = tag
      · simp only [htag, if_true, Option.some.injEq, Nat.cast_inj] at h
        subst h
        have hd : s.m_textureIDs.getD index ⟨"/0", GLuint.ofInt (-1)⟩ = t := by
          rw [List.getD_eq_getElem?_getD, ht]
          rfl
        refine ⟨le_refl _, by omega, ?_⟩
        simp only [FindTextureID.loop, ht, htag, if_true, hd]
      · simp only [htag, if_false] at h
        obtain ⟨h1, h2, h3⟩ := FindTexture_same_slot s tag k (index + 1) i h
        refine ⟨by omega, by omega, ?_⟩
        simp only [FindTextureID.loop, ht, htag, if_false]
        exact h3

/-- C18 (what the code does): in the registry whose slot 0 holds "T" with the handle
4294967295, `FindTextureSlot` answers 0 for "T" and `BindGLTextures` binds unit 0 to
4294967295, while `FindTextureID` answers -1 for "T". -/
theorem BindGLTextures_handle_not_FindTextureID :
    FindTextureSlot "T" topHandleRegistry = some 0 ∧
    (∃ l, BindGLTextures topHandleRegistry = some (topHandleRegistry.emit l) ∧
      ∀ (active : Nat) (cur : Option Nat), boundTexture 0 l active cur = some 4294967295) ∧
    FindTextureID "T" topHandleRegistry = some (-1) ∧
    (-1 : Int) ≠ ((4294967295 : Nat) : Int) := by
  refine ⟨?_, ⟨bindCalls topHandleRegistry 0 topHandleRegistry.m_loadedTextures,
    BindGLTextures_loop_calls _ 0 topHandleRegistry (by decide), ?_⟩, ?_, by decide⟩
  · simp [FindTextureSlot, FindTextureSlot.loop, topHandleRegistry]
  · intro active cur
    rw [boundTexture_bindCalls]
    rfl
  · simp [FindTextureID, FindTextureID.loop, topHandleRegistry, GLuint.toInt]

/-- C18 (amended): in a registry whose populated count does not exceed the array,
`BindGLTextures` issues, for i from 0 to `m_loadedTextures - 1` in increasing order, the
selection of texture unit i followed by the binding of the handle of slot i, and changes
nothing but the trace; afterwards every unit below `m_loadedTextures` is bound to the handle
of its slot and every other unit is as before; so when `FindTextureSlot` answers index i for
a tag, unit i is bound to a handle of which `FindTextureID` answers, for that tag, the
conversion to `int`: the handle itself when it is below 2^31, and in every case a value
that converts back to the handle as a `GLuint`. -/
theorem BindGLTextures_units (s : SceneManager)
    (hcap : s.m_loadedTextures ≤ s.m_textureIDs.length) :
    ∃ l, BindGLTextures s = some (s.emit l) ∧
      l = (List.range s.m_loadedTextures).flatMap (fun i =>
        [GLCall.glActiveTexture i,
         GLCall.glBindTexture (s.m_textureIDs.getD i ⟨"/0", GLuint.ofInt (-1)⟩).ID]) ∧
      (∀ (i active : Nat) (cur : Option Nat), i < s.m_loadedTextures →
        boundTexture i l active cur =
          some (s.m_textureIDs.getD i ⟨"/0", GLuint.ofInt (-1)⟩).ID) ∧
      (∀ (i active : Nat) (cur : Option Nat), s.m_loadedTextures ≤ i →
        boundTexture i l active cur = cur) ∧
      (∀ (tag : String) (i : Nat), FindTextureSlot tag s = some (i : Int) →
        ∃ handle : Nat,
          (∀ (active : Nat) (cur : Option Nat), boundTexture i l active cur = some handle) ∧
          FindTextureID tag s = some (GLuint.toInt handle) ∧
          (handle < 2 ^ 31 → FindTextureID tag s = some (handle : Int)) ∧
          GLuint.ofInt (GLuint.toInt handle) = handle % 2 ^ 32) := by
  have hbound := boundTexture_bindCalls s
  refine ⟨bindCalls s 0 s.m_loadedTextures,
    BindGLTextures_loop_calls s.m_loadedTextures 0 s (by omega), ?_, ?_, ?_, ?_⟩
  · simp only [bindCalls, List.range_eq_range']
  · intro i active cur hi
    rw [hbound i]
    have hin : 0 ≤ i ∧ i < 0 + s.m_loadedTextures := by omega
    simp only [hin, and_self, if_true]
  · intro i active cur hi
    rw [hbound i]
    have hout : ¬ (0 ≤ i ∧ i < 0 + s.m_loadedTextures) := by omega
    simp only [hout, if_false]
  · intro tag i hslot
    obtain ⟨_, hi, hid⟩ := FindTexture_same_slot s tag s.m_loadedTextures 0 i hslot
    refine ⟨_, ?_, hid, ?_, GLuint_ofInt_toInt _⟩
    · intro active cur
      rw [hbound i]
      have hin : 0 ≤ i ∧ i < 0 + s.m_loadedTextures := by omega
      simp only [hin, and_self, if_true]
    · intro hsmall
      rw [← GLuint_toInt_small _ hsmall]
      exact hid

/-- Witness of C18: the registry with the slots T/7, M/8, M/9 populated. -/
theorem BindGLTextures_units_witness :
    exampleRegistry.m_loadedTextures ≤ exampleRegistry.m_textureIDs.length ∧
    ∃ l, BindGLTextures exampleRegistry = some (exampleRegistry.emit l) ∧
      l = (List.range exampleRegistry.m_loadedTextures).flatMap (fun i =>
        [GLCall.glActiveTexture i,
         GLCall.glBindTexture
           (exampleRegistry.m_textureIDs.getD i ⟨"/0", GLuint.ofInt (-1)⟩).ID]) ∧
      (∀ (i active : Nat) (cur : Option Nat), i < exampleRegistry.m_loadedTextures →
        boundTexture i l active cur =
          some (exampleRegistry.m_textureIDs.getD i ⟨"/0", GLuint.ofInt (-1)⟩).ID) ∧
      (∀ (i active : Nat) (cur : Option Nat), exampleRegistry.m_loadedTextures ≤ i →
        boundTexture i l active cur = cur) ∧
      (∀ (tag : String) (i : Nat), FindTextureSlot tag exampleRegistry = some (i : Int) →
        ∃ handle : Nat,
          (∀ (active : Nat) (cur : Option Nat), boundTexture i l active cur = some handle) ∧
          FindTextureID tag exampleRegistry = some (GLuint.toInt handle) ∧
          (handle < 2 ^ 31 → FindTextureID tag exampleRegistry = some (handle : Int)) ∧
          GLuint.ofInt (GLuint.toInt handle) = handle % 2 ^ 32) :=
  ⟨by decide, BindGLTextures_units exampleRegistry (by decide)⟩

/-! ## Theorems: the prepared scene -/

theorem SceneManager_emit_nil (s : SceneManager) : s.emit [] = s := by
  simp [SceneManager.emit]

theorem SetupSceneLights_emits (s : SceneManager) : ∃ l, SetupSceneLights s = s.emit l := by
  have hrange : List.range' 1 4 = [1, 2, 3, 4] := rfl
  cases h : s.m_pShaderManager with
  | false =>
    refine ⟨[], ?_⟩
    simp [SetupSceneLights, h, SceneManager_emit_nil]
  | true =>
    apply Exists.intro
    simp only [SetupSceneLights, h, if_true, hrange, List.foldl_cons, List.foldl_nil,
      SceneManager_emit_emit]
    rfl

theorem CreateGLTexture_frame (s : SceneManager) (image : Option Int) (textureID : Nat)
    (tag : String) (r : Bool × SceneManager)
    (h : CreateGLTexture image textureID tag s = some r) :
    r.2.m_objectMaterials = s.m_objectMaterials ∧
    r.2.m_pShaderManager = s.m_pShaderManager := by
  cases image with
  | none =>
    simp [CreateGLTexture] at h
    subst h
    exact ⟨rfl, rfl⟩
  | some n =>
    by_cases hn : n = 3 ∨ n = 4
    · by_cases hcap : s.m_loadedTextures < s.m_textureIDs.length
      · rw [CreateGLTexture_registers s n textureID tag hn hcap] at h
        simp at h
        subst h
        exact ⟨rfl, rfl⟩
      · simp [CreateGLTexture, SceneManager.emit, hn, hcap] at h
    · simp [CreateGLTexture, SceneManager.emit, hn] at h
      subst h
      exact ⟨rfl, rfl⟩

theorem CreateGLTextures_frame :
    ∀ (calls : List (Option Int × Nat × String)) (s : SceneManager)
      (r : List Bool × SceneManager), CreateGLTextures calls s = some r →
      r.2.m_objectMaterials = s.m_objectMaterials ∧
      r.2.m_pShaderManager = s.m_pShaderManager
  | [], s, r, h => by
    simp [CreateGLTextures] at h
    subst h
    exact ⟨rfl, rfl⟩
  | (image, textureID, tag) :: rest, s, r, h => by
    simp only [CreateGLTextures] at h
    cases h1 : CreateGLTexture image textureID tag s with
    | none => simp [h1] at h
    | some r1 =>
      obtain ⟨b, s1⟩ := r1
      simp only [h1] at h
      cases h2 : CreateGLTextures rest s1 with
      | none => simp [h2] at h
      | some r2 =>
        obtain ⟨bs, s2⟩ := r2
        simp only [h2, Option.some.injEq] at h
        subst h
        have hstep := CreateGLTexture_frame s image textureID tag (b, s1) h1
        have hrest := CreateGLTextures_frame rest s1 (bs, s2) h2
        exact ⟨hrest.1.trans hstep.1, hrest.2.trans hstep.2⟩

theorem FindTextureSlot_of_tags (s : SceneManager) (tags : List String) (hn : tags.Nodup)
    (hcount : tags.length ≤ s.m_loadedTextures)
    (hslots : ∀ (j : Nat) (tag : String), tags[j]? = some tag →
      ∃ t, s.m_textureIDs[j]? = some t ∧ t.tag = tag) :
    ∀ (k : Nat) (tag : String), tags[k]? = some tag →
      FindTextureSlot tag s = some (k : Int) := by
  intro k tag hk
  obtain ⟨t, ht, htag⟩ := hslots k tag hk
  obtain ⟨hklt, hkv⟩ := List.getElem?_eq_some_iff.mp hk
  unfold FindTextureSlot
  refine FindTextureSlot_loop_hit s tag _ 0 k t (Nat.zero_le _) (by omega) ht htag ?_
  intro j t' _ hjk hj heq
  have hjlt : j < tags.length := by omega
  obtain ⟨t2, ht2, htag2⟩ := hslots j tags[j] (List.getElem?_eq_getElem hjlt)
  rw [ht2] at hj
  simp at hj
  subst hj
  have : j = k := (List.Nodup.getElem_inj_iff hn).mp ((htag2.symm.trans heq).trans hkv.symm)
  omega

theorem PrepareScene_state (io : Nat → Option Int × Nat) (pShaderManager : Bool)
    (hio : ∀ k, k < 11 → (io k).1 = some 3 ∨ (io k).1 = some 4) :
    ∃ s', PrepareScene io (SceneManager.new pShaderManager) = some s' ∧
      s'.m_pShaderManager = pShaderManager ∧
      s'.m_loadedTextures = 11 ∧
      s'.m_textureIDs.length = 16 ∧
      s'.m_objectMaterials =
        [DefineObjectMaterials.goldMaterial, DefineObjectMaterials.woodMaterial,
         DefineObjectMaterials.glassMaterial, DefineObjectMaterials.plateMaterial,
         DefineObjectMaterials.fabricMaterial] ∧
      ∀ (k : Nat) (tag : String),
        ["T", "M", "S", "B", "F", "br", "FLO", "N", "H", "I", "u"][k]? = some tag →
        s'.m_textureIDs[k]? = some ⟨tag, (io k).2⟩ := by
  have hcalls : (LoadSceneTextures.files.enum.map fun f => ((io f.1).1, (io f.1).2, f.2.2)) =
      [((io 0).1, (io 0).2, "T"), ((io 1).1, (io 1).2, "M"), ((io 2).1, (io 2).2, "S"),
       ((io 3).1, (io 3).2, "B"), ((io 4).1, (io 4).2, "F"), ((io 5).1, (io 5).2, "br"),
       ((io 6).1, (io 6).2, "FLO"), ((io 7).1, (io 7).2, "N"), ((io 8).1, (io 8).2, "H"),
       ((io 9).1, (io 9).2, "I"), ((io 10).1, (io 10).2, "u")] := rfl
  obtain ⟨s1, hrun, hcount, hlen, _, hnew⟩ :=
    CreateGLTextures_registers _ (SceneManager.new pShaderManager)
      (show ∀ c ∈ [((io 0).1, (io 0).2, "T"), ((io 1).1, (io 1).2, "M"),
          ((io 2).1, (io 2).2, "S"), ((io 3).1, (io 3).2, "B"), ((io 4).1, (io 4).2, "F"),
          ((io 5).1, (io 5).2, "br"), ((io 6).1, (io 6).2, "FLO"), ((io 7).1, (io 7).2, "N"),
          ((io 8).1, (io 8).2, "H"), ((io 9).1, (io 9).2, "I"), ((io 10).1, (io 10).2, "u")],
          c.1 = some 3 ∨ c.1 = some 4 by
        intro c hc
        simp only [List.mem_cons, List.mem_singleton, List.not_mem_nil, or_false] at hc
        rcases hc with rfl | rfl | rfl | rfl | rfl | rfl | rfl | rfl | rfl | rfl | rfl
        · exact hio 0 (by decide)
        · exact hio 1 (by decide)
        · exact hio 2 (by decide)
        · exact hio 3 (by decide)
        · exact hio 4 (by decide)
        · exact hio 5 (by decide)
        · exact hio 6 (by decide)
        · exact hio 7 (by decide)
        · exact hio 8 (by decide)
        · exact hio 9 (by decide)
        · exact hio 10 (by decide))
      (by simp [SceneManager.new, textureCapacity])
  obtain ⟨hmat, hsm⟩ := CreateGLTextures_frame _ _ _ hrun
  have hcount1 : s1.m_loadedTextures = 11 := by simpa [SceneManager.new] using hcount
  have hlen1 : s1.m_textureIDs.length = 16 := by
    simpa [SceneManager.new, textureCapacity] using hlen
  have hbind : BindGLTextures s1 = some (s1.emit (bindCalls s1 0 s1.m_loadedTextures)) :=
    BindGLTextures_loop_calls s1.m_loadedTextures 0 s1 (by omega)
  obtain ⟨l, hl⟩ := SetupSceneLights_emits
    (DefineObjectMaterials (s1.emit (bindCalls s1 0 s1.m_loadedTextures)))
  refine ⟨(DefineObjectMaterials (s1.emit (bindCalls s1 0 s1.m_loadedTextures))).emit l,
    ?_, ?_, ?_, ?_, ?_, ?_⟩
  · simp only [PrepareScene, LoadSceneTextures, hcalls, hrun, hbind, hl]
  · exact hsm
  · exact hcount1
  · exact hlen1
  · show s1.m_objectMaterials ++ _ = _
    rw [hmat]
    rfl
  · intro k tag hk
    have := hnew k ((io k).1, (io k).2, tag) (by
      have hklt : k < 11 := (List.getElem?_eq_some_iff.mp hk).1
      interval_cases k <;> simp at hk <;> subst hk <;> rfl)
    simpa [SceneManager.new] using this

theorem lookup_materialCalls (tag : String) (u : OBJECT_MATERIAL) (s : SceneManager) :
    List.filter lookup (materialCalls tag u s) = materialCalls tag u s := by
  unfold materialCalls
  split <;> simp [lookup]

theorem lookups_append (a b : List GLCall) : lookups (a ++ b) = lookups a ++ lookups b := by
  simp [lookups]

theorem lookups_flatMap {α : Type} (f : α → List GLCall) :
    ∀ xs : List α, lookups (xs.flatMap f) = xs.flatMap fun x => lookups (f x)
  | [] => rfl
  | x :: xs => by
    simp only [List.flatMap_cons, lookups_append, lookups_flatMap f xs]

theorem lookups_keys (s : SceneManager) :
    lookups ((List.range 4).flatMap fun r => (List.range 10).flatMap (keyCalls s r)) =
      List.replicate 40 (samplerPush (slotOf "u" s)) := by
  rw [lookups_flatMap]
  have hkey : ∀ r c, lookups (keyCalls s r c) = [samplerPush (slotOf "u" s)] := by
    intro r c
    simp [lookups, keyCalls, lookup, samplerPush]
  simp only [lookups_flatMap, hkey]
  rfl

theorem RenderTable_lookups (u : OBJECT_MATERIAL) (s : SceneManager) (h : Ready s) :
    ∃ l, RenderTable u s = some (s.emit l) ∧
      lookups l = materialCalls "wood" u s ++ [samplerPush (slotOf "T" s)] := by
  apply Exists.intro
  apply And.intro
  · simp only [RenderTable, DrawMesh, h, SetTransformations_ready, SetShaderMaterial_ready,
      SetShaderTexture_ready, SetTextureUVScale_ready, Ready_emit, SceneManager_emit_emit,
      slotOf_emit, materialCalls_emit, bind, Option.bind, pure]
    rfl
  · simp [lookups, List.filter_append, lookup, lookup_materialCalls, samplerPush]

theorem RenderMonitor_lookups (u : OBJECT_MATERIAL) (s : SceneManager) (h : Ready s) :
    ∃ l, RenderMonitor u s = some (s.emit l) ∧
      lookups l = materialCalls "metal" u s ++ [samplerPush (slotOf "H" s)] ++
        materialCalls "metal" u s ++ [samplerPush (slotOf "N" s)] ++
        materialCalls "glass" u s := by
  apply Exists.intro
  apply And.intro
  · simp only [RenderMonitor, DrawMesh, h, SetTransformations_ready, SetShaderMaterial_ready,
      SetShaderTexture_ready, SetShaderColor_ready, Ready_emit, SceneManager_emit_emit,
      slotOf_emit, materialCalls_emit, bind, Option.bind, pure]
    rfl
  · simp [lookups, List.filter_append, lookup, lookup_materialCalls, samplerPush]

theorem RenderKeyboard_lookups (u : OBJECT_MATERIAL) (s : SceneManager) (h : Ready s) :
    ∃ l, RenderKeyboard u s = some (s.emit l) ∧
      lookups l = materialCalls "metal" u s ++ [samplerPush (slotOf "N" s)] ++
        List.replicate 40 (samplerPush (slotOf "u" s)) := by
  apply Exists.intro
  apply And.intro
  · simp only [RenderKeyboard, DrawMesh, h, SetTransformations_ready, SetShaderMaterial_ready,
      SetShaderTexture_ready, SetTextureUVScale_ready, Ready_emit, SceneManager_emit_emit,
      slotOf_emit, materialCalls_emit, bind, Option.bind, pure, RenderKeyboard_keys_calls,
      keyCalls_emit]
    rfl
  · have hk := lookups_keys s
    simp only [lookups] at hk
    simp only [lookups, List.filter_append, hk, lookup_materialCalls]
    simp [lookup, samplerPush]

theorem RenderMouse_lookups (u : OBJECT_MATERIAL) (s : SceneManager) (h : Ready s) :
    ∃ l, RenderMouse u s = some (s.emit l) ∧
      lookups l = materialCalls "metal" u s ++ [samplerPush (slotOf "H" s)] := by
  apply Exists.intro
  apply And.intro
  · simp only [RenderMouse, DrawMesh, h, SetTransformations_ready, SetShaderMaterial_ready,
      SetShaderTexture_ready, Ready_emit, SceneManager_emit_emit,
      slotOf_emit, materialCalls_emit, bind, Option.bind, pure]
    rfl
  · simp [lookups, List.filter_append, lookup, lookup_materialCalls, samplerPush]

theorem RenderPencilHolder_lookups (u : OBJECT_MATERIAL) (s : SceneManager) (h : Ready s) :
    ∃ l, RenderPencilHolder u s = some (s.emit l) ∧
      lookups l = materialCalls "metal" u s ++ [samplerPush (slotOf "B" s)] := by
  apply Exists.intro
  apply And.intro
  · simp only [RenderPencilHolder, DrawMesh, h, SetTransformations_ready,
      SetShaderMaterial_ready, SetShaderTexture_ready, Ready_emit, SceneManager_emit_emit,
      slotOf_emit, materialCalls_emit, bind, Option.bind, pure]
    rfl
  · simp [lookups, List.filter_append, lookup, lookup_materialCalls, samplerPush]

theorem RenderBooks_lookups (u : OBJECT_MATERIAL) (s : SceneManager) (h : Ready s) :
    ∃ l, RenderBooks u s = some (s.emit l) ∧
      lookups l = materialCalls "fabric" u s ++ [samplerPush (slotOf "F" s)] ++
        materialCalls "wood" u s ++ [samplerPush (slotOf "br" s)] ++
        materialCalls "plate" u s ++ [samplerPush (slotOf "FLO" s)] := by
  have h3 : List.range RenderBooks.bookMaterials.length = [0, 1, 2] := rfl
  apply Exists.intro
  apply And.intro
  · simp only [RenderBooks, h3, List.foldlM_cons, List.foldlM_nil, RenderBooks.book,
      DrawMesh, h, SetTransformations_ready, SetShaderMaterial_ready,
      SetShaderTexture_ready, Ready_emit, SceneManager_emit_emit,
      slotOf_emit, materialCalls_emit, bind, Option.bind, pure]
    rfl
  · simp [lookups, List.filter_append, lookup, lookup_materialCalls, samplerPush,
      RenderBooks.bookMaterials]

theorem RenderPencils_lookups (u : OBJECT_MATERIAL) (s : SceneManager) (h : Ready s) :
    ∃ l, RenderPencils u s = some (s.emit l) ∧ lookups l = [] := by
  have h5 : List.range 5 = [0, 1, 2, 3, 4] := rfl
  apply Exists.intro
  apply And.intro
  · simp only [RenderPencils, h5, List.foldl_cons, List.foldl_nil, RenderPencils.pencil,
      DrawMesh, h, SetTransformations_ready, SetShaderColor_ready, Ready_emit,
      SceneManager_emit_emit]
    rfl
  · simp [lookups, List.filter_append, lookup]

theorem RenderScene_lookups (u : OBJECT_MATERIAL) (s : SceneManager) (h : Ready s) :
    ∃ l, RenderScene u s = some (s.emit l) ∧
      lookups l = lookupsWith (fun tag => materialCalls tag u s) (fun tag => slotOf tag s) := by
  obtain ⟨l1, h1, v1⟩ := RenderTable_lookups u s h
  obtain ⟨l2, h2, v2⟩ := RenderMonitor_lookups u (s.emit l1) h
  rw [SceneManager_emit_emit] at h2
  obtain ⟨l3, h3, v3⟩ := RenderKeyboard_lookups u (s.emit (l1 ++ l2)) h
  rw [SceneManager_emit_emit] at h3
  obtain ⟨l4, h4, v4⟩ := RenderMouse_lookups u (s.emit (l1 ++ l2 ++ l3)) h
  rw [SceneManager_emit_emit] at h4
  obtain ⟨l5, h5, v5⟩ := RenderBooks_lookups u (s.emit (l1 ++ l2 ++ l3 ++ l4)) h
  rw [SceneManager_emit_emit] at h5
  obtain ⟨l6, h6, v6⟩ := RenderPencilHolder_lookups u (s.emit (l1 ++ l2 ++ l3 ++ l4 ++ l5)) h
  rw [SceneManager_emit_emit] at h6
  obtain ⟨l7, h7, v7⟩ := RenderPencils_lookups u (s.emit (l1 ++ l2 ++ l3 ++ l4 ++ l5 ++ l6)) h
  rw [SceneManager_emit_emit] at h7
  refine ⟨l1 ++ l2 ++ l3 ++ l4 ++ l5 ++ l6 ++ l7, ?_, ?_⟩
  · simp only [RenderScene, bind, Option.bind, h1, h2, h3, h4, h5, h6, h7]
  · simp only [lookups_append, v1, v2, v3, v4, v5, v6, v7, lookupsWith, slotOf_emit,
      materialCalls_emit, List.append_nil]

theorem materialCalls_defined (u : OBJECT_MATERIAL) (s : SceneManager)
    (hm : s.m_objectMaterials =
      [DefineObjectMaterials.goldMaterial, DefineObjectMaterials.woodMaterial,
       DefineObjectMaterials.glassMaterial, DefineObjectMaterials.plateMaterial,
       DefineObjectMaterials.fabricMaterial]) :
    materialCalls "metal" u s = materialPushes DefineObjectMaterials.goldMaterial ∧
    materialCalls "wood" u s = materialPushes DefineObjectMaterials.woodMaterial ∧
    materialCalls "glass" u s = materialPushes DefineObjectMaterials.glassMaterial ∧
    materialCalls "plate" u s = materialPushes DefineObjectMaterials.plateMaterial ∧
    materialCalls "fabric" u s = materialPushes DefineObjectMaterials.fabricMaterial := by
  refine ⟨?_, ?_, ?_, ?_, ?_⟩ <;>
    simp [materialCalls, FindMaterial, FindMaterial.loop, hm, materialPushes,
      DefineObjectMaterials.goldMaterial, DefineObjectMaterials.woodMaterial,
      DefineObjectMaterials.glassMaterial, DefineObjectMaterials.plateMaterial,
      DefineObjectMaterials.fabricMaterial]

/-- C21: `PrepareScene` on a freshly constructed scene manager, with all eleven image
loads of `LoadSceneTextures` decoding with three or four channels, is defined and leaves
`m_loadedTextures` at 11 in the 16-slot array; the tags of the populated slots are
T, M, S, B, F, br, FLO, N, H, I, u, pairwise distinct; each texture tag the renderers
pass (T, H, N, u, F, br, FLO, B) is found by `FindTextureSlot` at an index in 0..10;
the material list is the five materials of `DefineObjectMaterials`, and each material tag
the renderers pass (wood, metal, glass, fabric, plate) is carried by exactly one of them.
With a shader manager, `RenderScene` on that scene pushes as sampler indices and material
values exactly `sceneLookups`, whatever its uninitialised locals hold, and no sampler
index outside 0..10. -/
theorem PrepareScene_no_lookup_miss (io : Nat → Option Int × Nat) (pShaderManager : Bool)
    (hio : ∀ k, k < 11 → (io k).1 = some 3 ∨ (io k).1 = some 4) :
    ∃ s', PrepareScene io (SceneManager.new pShaderManager) = some s' ∧
      s'.m_loadedTextures = 11 ∧
      s'.m_loadedTextures ≤ textureCapacity ∧
      s'.m_textureIDs.length = textureCapacity ∧
      ((s'.m_textureIDs.take s'.m_loadedTextures).map fun t => t.tag) =
        ["T", "M", "S", "B", "F", "br", "FLO", "N", "H", "I", "u"] ∧
      ((s'.m_textureIDs.take s'.m_loadedTextures).map fun t => t.tag).Nodup ∧
      (∀ tag ∈ ["T", "H", "N", "u", "F", "br", "FLO", "B"],
        ∃ i : Nat, i ≤ 10 ∧ FindTextureSlot tag s' = some (i : Int) ∧
          slotOf tag s' = (i : Int)) ∧
      s'.m_objectMaterials =
        [DefineObjectMaterials.goldMaterial, DefineObjectMaterials.woodMaterial,
         DefineObjectMaterials.glassMaterial, DefineObjectMaterials.plateMaterial,
         DefineObjectMaterials.fabricMaterial] ∧
      (∀ tag ∈ ["wood", "metal", "glass", "fabric", "plate"],
        (s'.m_objectMaterials.filter fun m => decide (m.tag = tag)).length = 1) ∧
      (pShaderManager = true →
        ∀ uninit : OBJECT_MATERIAL, ∃ l, RenderScene uninit s' = some (s'.emit l) ∧
          lookups l = sceneLookups ∧
          ∀ i : Int, samplerPush i ∈ l → 0 ≤ i ∧ i ≤ 10) := by
  obtain ⟨s', hrun, hsm, hcount, hlen, hmat, hslot⟩ := PrepareScene_state io pShaderManager hio
  have hnodup : ["T", "M", "S", "B", "F", "br", "FLO", "N", "H", "I", "u"].Nodup := by decide
  have htags : ((s'.m_textureIDs.take s'.m_loadedTextures).map fun t => t.tag) =
      ["T", "M", "S", "B", "F", "br", "FLO", "N", "H", "I", "u"] := by
    apply List.ext_getElem?
    intro k
    rw [hcount, List.getElem?_map, List.getElem?_take]
    by_cases hk : k < 11
    · rw [if_pos hk]
      interval_cases k <;> rw [hslot _ _ rfl] <;> rfl
    · rw [if_neg hk]
      symm
      exact List.getElem?_eq_none (by simp only [List.length_cons, List.length_nil]; omega)
  have hfind : ∀ (k : Nat) (tag : String),
      ["T", "M", "S", "B", "F", "br", "FLO", "N", "H", "I", "u"][k]? = some tag →
      FindTextureSlot tag s' = some (k : Int) :=
    FindTextureSlot_of_tags s' _ hnodup (by simp only [List.length_cons, List.length_nil]; omega)
      (fun j tag hj => ⟨_, hslot j tag hj, rfl⟩)
  have hslotOf : ∀ (k : Nat) (tag : String),
      ["T", "M", "S", "B", "F", "br", "FLO", "N", "H", "I", "u"][k]? = some tag →
      slotOf tag s' = (k : Int) := by
    intro k tag hk
    unfold slotOf
    rw [hfind k tag hk]
    rfl
  refine ⟨s', hrun, hcount, ?_, ?_, htags, ?_, ?_, hmat, ?_, ?_⟩
  · rw [hcount]
    decide
  · rw [hlen]
    rfl
  · rw [htags]
    exact hnodup
  · intro tag htag
    simp only [List.mem_cons, List.mem_singleton, List.not_mem_nil, or_false] at htag
    rcases htag with rfl | rfl | rfl | rfl | rfl | rfl | rfl | rfl
    · exact ⟨0, by decide, hfind 0 _ rfl, hslotOf 0 _ rfl⟩
    · exact ⟨8, by decide, hfind 8 _ rfl, hslotOf 8 _ rfl⟩
    · exact ⟨7, by decide, hfind 7 _ rfl, hslotOf 7 _ rfl⟩
    · exact ⟨10, by decide, hfind 10 _ rfl, hslotOf 10 _ rfl⟩
    · exact ⟨4, by decide, hfind 4 _ rfl, hslotOf 4 _ rfl⟩
    · exact ⟨5, by decide, hfind 5 _ rfl, hslotOf 5 _ rfl⟩
    · exact ⟨6, by decide, hfind 6 _ rfl, hslotOf 6 _ rfl⟩
    · exact ⟨3, by decide, hfind 3 _ rfl, hslotOf 3 _ rfl⟩
  · intro tag htag
    rw [hmat]
    simp only [List.mem_cons, List.mem_singleton, List.not_mem_nil, or_false] at htag
    rcases htag with rfl | rfl | rfl | rfl | rfl <;> decide
  · intro hsm1 uninit
    have hready : Ready s' := by
      refine ⟨hsm.trans hsm1, ?_⟩
      rw [hcount, hlen]
      decide
    obtain ⟨l, hl, hlook⟩ := RenderScene_lookups uninit s' hready
    obtain ⟨m1, m2, m3, m4, m5⟩ := materialCalls_defined uninit s' hmat
    have hscene : lookups l = sceneLookups := by
      rw [hlook]
      simp only [lookupsWith, m1, m2, m3, m4, m5, hslotOf 0 "T" rfl, hslotOf 8 "H" rfl,
        hslotOf 7 "N" rfl, hslotOf 10 "u" rfl, hslotOf 4 "F" rfl, hslotOf 5 "br" rfl,
        hslotOf 6 "FLO" rfl, hslotOf 3 "B" rfl]
      rfl
    refine ⟨l, hl, hscene, ?_⟩
    intro i hi
    have hmem : samplerPush i ∈ lookups l := by
      unfold lookups
      rw [List.mem_filter]
      exact ⟨hi, by simp [samplerPush, lookup]⟩
    rw [hscene] at hmem
    simp [sceneLookups, materialPushes, samplerPush, List.mem_replicate] at hmem
    omega

/-- Witness of C21: a fresh scene manager with a shader manager; the images decode with
three and four channels in turn. -/
theorem PrepareScene_no_lookup_miss_witness :
    (∀ k, k < 11 → (exampleImages k).1 = some 3 ∨ (exampleImages k).1 = some 4) ∧
    ∃ s', PrepareScene exampleImages (SceneManager.new true) = some s' ∧
      s'.m_loadedTextures = 11 ∧
      s'.m_loadedTextures ≤ textureCapacity ∧
      s'.m_textureIDs.length = textureCapacity ∧
      ((s'.m_textureIDs.take s'.m_loadedTextures).map fun t => t.tag) =
        ["T", "M", "S", "B", "F", "br", "FLO", "N", "H", "I", "u"] ∧
      ((s'.m_textureIDs.take s'.m_loadedTextures).map fun t => t.tag).Nodup ∧
      (∀ tag ∈ ["T", "H", "N", "u", "F", "br", "FLO", "B"],
        ∃ i : Nat, i ≤ 10 ∧ FindTextureSlot tag s' = some (i : Int) ∧
          slotOf tag s' = (i : Int)) ∧
      s'.m_objectMaterials =
        [DefineObjectMaterials.goldMaterial, DefineObjectMaterials.woodMaterial,
         DefineObjectMaterials.glassMaterial, DefineObjectMaterials.plateMaterial,
         DefineObjectMaterials.fabricMaterial] ∧
      (∀ tag ∈ ["wood", "metal", "glass", "fabric", "plate"],
        (s'.m_objectMaterials.filter fun m => decide (m.tag = tag)).length = 1) ∧
      (true = true →
        ∀ uninit : OBJECT_MATERIAL, ∃ l, RenderScene uninit s' = some (s'.emit l) ∧
          lookups l = sceneLookups ∧
          ∀ i : Int, samplerPush i ∈ l → 0 ≤ i ∧ i ≤ 10) :=
  have h : ∀ k, k < 11 → (exampleImages k).1 = some 3 ∨ (exampleImages k).1 = some 4 := by
    intro k hk
    interval_cases k <;> simp [exampleImages]
  ⟨h, PrepareScene_no_lookup_miss exampleImages true h⟩

end Scene
